import Mathlib

/-!
# XStatefulSet: admission defaulting and status persistence

A shallow embedding of

* `api/apps/v1/types.go` (the `XStatefulSet` object),
* `api/apps/v1/defaults.go` (`SetDefaults_XStatefulSet`),
* `pkg/feature/feature.go` (feature-gate registration),
* `pkg/webhook/xstatefulset_webhook.go` (`XStatefulSetDefaulter.Default`),
* `pkg/controller/xstatefulset/xstateful_set_status_updater.go`
  (`UpdateStatefulSetStatus`).

Go pointers (`*int32`, `*T`) are `Option`; Go string-typed enumerations stay
`String`; `int32`/`int64` values are carried as `Int` (no arithmetic is done on
them in the embedded code). In-place mutation through a pointer becomes a
function returning the mutated object.
-/

namespace XSts

/-! ## Data model (`api/apps/v1/types.go` and the Kubernetes types it uses) -/

/-- Go `len(s)` on a string: the number of bytes of `s`. -/
def len (s : String) : Nat := s.utf8ByteSize

/-- The `metav1.TypeMeta` of an object. -/
structure TypeMeta where
  Kind : String
  APIVersion : String
deriving DecidableEq, Repr

/-- The part of `metav1.ObjectMeta` the embedded code reads or carries along. -/
structure ObjectMeta where
  Name : String
  Namespace : String
  ResourceVersion : String
  Generation : Int
  Labels : List (String × String)
deriving DecidableEq, Repr

/-- The `metav1.LabelSelector` (match-labels part). -/
structure LabelSelector where
  MatchLabels : List (String × String)
deriving DecidableEq, Repr

/-- A container of a pod template: name and image. -/
structure Container where
  Name : String
  Image : String
deriving DecidableEq, Repr

/-- The `corev1.PodTemplateSpec`: template labels and containers. -/
structure PodTemplateSpec where
  Labels : List (String × String)
  Containers : List Container
deriving DecidableEq, Repr

/-- A `corev1.PersistentVolumeClaim` template, identified by name. -/
structure PersistentVolumeClaim where
  Name : String
deriving DecidableEq, Repr

/-- The `intstr.Type` tag of an `IntOrString`. -/
inductive IntstrType where
  | Int
  | String
deriving DecidableEq, Repr

/-- The `intstr.IntOrString` value. -/
structure IntOrString where
  Type_ : IntstrType
  IntVal : Int
  StrVal : String
deriving DecidableEq, Repr

/-- The constructor `intstr.FromInt32(val)`. -/
def FromInt32 (val : Int) : IntOrString :=
  { Type_ := IntstrType.Int, IntVal := val, StrVal := "" }

/-- The `appsv1.RollingUpdateStatefulSetStrategy`. -/
structure RollingUpdateStatefulSetStrategy where
  Partition : Option Int
  MaxUnavailable : Option IntOrString
deriving DecidableEq, Repr

/-- The `appsv1.StatefulSetUpdateStrategy`. -/
structure StatefulSetUpdateStrategy where
  Type_ : String
  RollingUpdate : Option RollingUpdateStatefulSetStrategy
deriving DecidableEq, Repr

/-- The `appsv1.StatefulSetPersistentVolumeClaimRetentionPolicy`. -/
structure StatefulSetPersistentVolumeClaimRetentionPolicy where
  WhenDeleted : String
  WhenScaled : String
deriving DecidableEq, Repr

/-- The `appsv1.StatefulSetOrdinals`. -/
structure StatefulSetOrdinals where
  Start : Int
deriving DecidableEq, Repr

/-- The `appsv1.StatefulSetCondition` (type, status, reason, message). -/
structure StatefulSetCondition where
  Type_ : String
  Status : String
  Reason : String
  Message : String
deriving DecidableEq, Repr

/-- The `XStatefulSetSpec` of `types.go`. -/
structure XStatefulSetSpec where
  Replicas : Option Int
  Selector : Option LabelSelector
  Template : PodTemplateSpec
  VolumeClaimTemplates : List PersistentVolumeClaim
  ServiceName : String
  PodManagementPolicy : String
  UpdateStrategy : StatefulSetUpdateStrategy
  RevisionHistoryLimit : Option Int
  MinReadySeconds : Int
  PersistentVolumeClaimRetentionPolicy : Option StatefulSetPersistentVolumeClaimRetentionPolicy
  Ordinals : Option StatefulSetOrdinals
deriving DecidableEq, Repr

/-- The `XStatefulSetStatus` of `types.go`. -/
structure XStatefulSetStatus where
  ObservedGeneration : Int
  Replicas : Int
  ReadyReplicas : Int
  CurrentReplicas : Int
  UpdatedReplicas : Int
  CurrentRevision : String
  UpdateRevision : String
  CollisionCount : Option Int
  Conditions : List StatefulSetCondition
  AvailableReplicas : Int
  Selector : String
deriving DecidableEq, Repr

/-- The `XStatefulSet` object of `types.go`. -/
structure XStatefulSet where
  TypeMeta : TypeMeta
  ObjectMeta : ObjectMeta
  Spec : XStatefulSetSpec
  Status : XStatefulSetStatus
deriving DecidableEq, Repr

/-! ## Constants of `k8s.io/api/apps/v1` -/

/-- The constant `appsv1.OrderedReadyPodManagement`. -/
def OrderedReadyPodManagement : String := "OrderedReady"

/-- The constant `appsv1.ParallelPodManagement`. -/
def ParallelPodManagement : String := "Parallel"

/-- The constant `appsv1.RollingUpdateStatefulSetStrategyType`. -/
def RollingUpdateStatefulSetStrategyType : String := "RollingUpdate"

/-- The constant `appsv1.OnDeleteStatefulSetStrategyType`. -/
def OnDeleteStatefulSetStrategyType : String := "OnDelete"

/-- The constant `appsv1.RetainPersistentVolumeClaimRetentionPolicyType`. -/
def RetainPersistentVolumeClaimRetentionPolicyType : String := "Retain"

/-- The constant `appsv1.DeletePersistentVolumeClaimRetentionPolicyType`. -/
def DeletePersistentVolumeClaimRetentionPolicyType : String := "Delete"

/-! ## Feature gates (`pkg/feature/feature.go`) -/

/-- The `featuregate.FeatureSpec`: default state and release stage. -/
structure FeatureSpec where
  Default : Bool
  PreRelease : String
deriving DecidableEq, Repr

/-- The feature name `StatefulSetSemanticRevisionComparison`. -/
def StatefulSetSemanticRevisionComparison : String := "StatefulSetSemanticRevisionComparison"

/-- The feature name `MaxUnavailableStatefulSet`. -/
def MaxUnavailableStatefulSet : String := "MaxUnavailableStatefulSet"

/-- A feature gate: the registered features (`known`) and the states set
explicitly, for instance by a command-line flag (`enabled`). -/
structure FeatureGate where
  known : List (String × FeatureSpec)
  enabled : List (String × Bool)
deriving DecidableEq, Repr

/-- The method `Add` of a mutable feature gate: registers the given features. -/
def FeatureGate.Add (f : FeatureGate) (features : List (String × FeatureSpec)) : FeatureGate :=
  { f with known := features ++ f.known }

/-- The method `Enabled`: an explicit setting wins, else the registered default.
The library panics on a feature that was never registered; `init` registers
both features of this repository, and the model answers `false` there. -/
def FeatureGate.Enabled (f : FeatureGate) (key : String) : Bool :=
  match f.enabled.lookup key with
  | some v => v
  | none =>
    match f.known.lookup key with
    | some s => s.Default
    | none => false

/-- The function `init` of `feature.go`: the registration of the two features
on a gate. -/
def init (gate : FeatureGate) : FeatureGate :=
  gate.Add
    [ (MaxUnavailableStatefulSet, { Default := true, PreRelease := "BETA" }),
      (StatefulSetSemanticRevisionComparison, { Default := true, PreRelease := "BETA" }) ]

/-- The process-wide gate after `init`, with the explicit settings `overrides`
(none when no flag is given). -/
def DefaultFeatureGate (overrides : List (String × Bool)) : FeatureGate :=
  init { known := [], enabled := overrides }

/-! ## Defaulting (`api/apps/v1/defaults.go`) -/

/-- The function `SetDefaults_XStatefulSet`; `gate` is
`utilfeature.DefaultFeatureGate`. -/
def SetDefaults_XStatefulSet (gate : FeatureGate) (obj : XStatefulSet) : XStatefulSet :=
  let spec : XStatefulSetSpec := obj.Spec
  let spec : XStatefulSetSpec :=
    if len spec.PodManagementPolicy = 0 then
      { spec with PodManagementPolicy := OrderedReadyPodManagement }
    else spec
  let spec : XStatefulSetSpec :=
    if spec.UpdateStrategy.Type_ = "" then
      { spec with UpdateStrategy :=
          { Type_ := RollingUpdateStatefulSetStrategyType
            RollingUpdate :=
              match spec.UpdateStrategy.RollingUpdate with
              | none => some { Partition := none, MaxUnavailable := none }
              | some ru => some ru } }
    else spec
  let spec : XStatefulSetSpec :=
    if spec.UpdateStrategy.Type_ = RollingUpdateStatefulSetStrategyType then
      match spec.UpdateStrategy.RollingUpdate with
      | some ru =>
        let ru : RollingUpdateStatefulSetStrategy :=
          if ru.Partition = none then { ru with Partition := some 0 } else ru
        let ru : RollingUpdateStatefulSetStrategy :=
          if gate.Enabled MaxUnavailableStatefulSet then
            if ru.MaxUnavailable = none then
              { ru with MaxUnavailable := some (FromInt32 1) }
            else ru
          else ru
        { spec with UpdateStrategy := { spec.UpdateStrategy with RollingUpdate := some ru } }
      | none => spec
    else spec
  let pol : StatefulSetPersistentVolumeClaimRetentionPolicy :=
    match spec.PersistentVolumeClaimRetentionPolicy with
    | none => { WhenDeleted := "", WhenScaled := "" }
    | some p => p
  let pol : StatefulSetPersistentVolumeClaimRetentionPolicy :=
    if len pol.WhenDeleted = 0 then
      { pol with WhenDeleted := RetainPersistentVolumeClaimRetentionPolicyType }
    else pol
  let pol : StatefulSetPersistentVolumeClaimRetentionPolicy :=
    if len pol.WhenScaled = 0 then
      { pol with WhenScaled := RetainPersistentVolumeClaimRetentionPolicyType }
    else pol
  let spec : XStatefulSetSpec := { spec with PersistentVolumeClaimRetentionPolicy := some pol }
  let spec : XStatefulSetSpec :=
    if spec.Replicas = none then { spec with Replicas := some 1 } else spec
  let spec : XStatefulSetSpec :=
    if spec.RevisionHistoryLimit = none then { spec with RevisionHistoryLimit := some 10 }
    else spec
  { obj with Spec := spec }

/-- The current `rollingUpdate.maxUnavailable` of an object, `none` when
`rollingUpdate` is nil or the field is unset. -/
def maxUnavailableOf (obj : XStatefulSet) : Option IntOrString :=
  match obj.Spec.UpdateStrategy.RollingUpdate with
  | none => none
  | some ru => ru.MaxUnavailable

/-- The current `rollingUpdate.partition` of an object, `none` when
`rollingUpdate` is nil or the field is unset. -/
def partitionOf (obj : XStatefulSet) : Option Int :=
  match obj.Spec.UpdateStrategy.RollingUpdate with
  | none => none
  | some ru => ru.Partition

/-! ## The defaulting webhook (`pkg/webhook/xstatefulset_webhook.go`) -/

/-- A non-nil Go `error` as the API machinery sees it: the status reason it
carries (empty for an error that is not an API status), its message, and the
sentinel errors in its `Unwrap` chain, named by their message (what `errors.Is`
finds; none for most errors). -/
structure Error where
  Reason : String
  Message : String
  Wraps : List String := []
deriving DecidableEq, Repr

/-- The message of the sentinel `context.Canceled`. -/
def ContextCanceled : String := "context canceled"

/-- The message of the sentinel `context.DeadlineExceeded`. -/
def ContextDeadlineExceeded : String := "context deadline exceeded"

/-- Go `errors.Is(err, target)` for a sentinel `target`: the sentinel is in the
chain of `err`. -/
def errorsIs (err : Error) (target : String) : Bool := err.Wraps.contains target

/-- A `runtime.Object`: an `XStatefulSet`, or an object of another kind. -/
inductive RuntimeObject where
  | xstatefulset (set : XStatefulSet)
  | other (kind : String)
deriving DecidableEq, Repr

/-- Modelled from the spec: `legacyscheme.Scheme.Default`, whose scheme and
generated registration (`zz_generated.defaults.go`) are not among the sources.
The admission defaulting step applies the defaulting function registered for
the object, which for an `XStatefulSet` is `SetDefaults_XStatefulSet`. -/
def Scheme_Default (gate : FeatureGate) (set : XStatefulSet) : XStatefulSet :=
  SetDefaults_XStatefulSet gate set

/-- The method `XStatefulSetDefaulter.Default`: the defaulted object and the
returned error (`none` is Go `nil`). -/
def XStatefulSetDefaulter_Default (gate : FeatureGate) (obj : RuntimeObject) :
    RuntimeObject × Option Error :=
  match obj with
  | RuntimeObject.xstatefulset set =>
    (RuntimeObject.xstatefulset (Scheme_Default gate set), none)
  | RuntimeObject.other kind => (RuntimeObject.other kind, none)

/-! ## Objects of the tests (`pkg/webhook/xstatefulset_webhook_test.go`) -/

/-- The pod template used by every test object. -/
def testTemplate : PodTemplateSpec :=
  { Labels := [("app", "test")], Containers := [{ Name := "nginx", Image := "nginx:latest" }] }

/-- The zero value of `XStatefulSetStatus`. -/
def emptyStatus : XStatefulSetStatus :=
  { ObservedGeneration := 0, Replicas := 0, ReadyReplicas := 0, CurrentReplicas := 0,
    UpdatedReplicas := 0, CurrentRevision := "", UpdateRevision := "", CollisionCount := none,
    Conditions := [], AvailableReplicas := 0, Selector := "" }

/-- The object of `TestSetDefaults_XStatefulSet`: only selector and template
are given. -/
def minimalXsts : XStatefulSet :=
  { TypeMeta := { Kind := "", APIVersion := "" }
    ObjectMeta :=
      { Name := "test", Namespace := "default", ResourceVersion := "", Generation := 0,
        Labels := [] }
    Spec :=
      { Replicas := none
        Selector := some { MatchLabels := [("app", "test")] }
        Template := testTemplate
        VolumeClaimTemplates := []
        ServiceName := ""
        PodManagementPolicy := ""
        UpdateStrategy := { Type_ := "", RollingUpdate := none }
        RevisionHistoryLimit := none
        MinReadySeconds := 0
        PersistentVolumeClaimRetentionPolicy := none
        Ordinals := none }
    Status := emptyStatus }

/-- The object of the test case "xstatefulset with explicit values should
preserve them": replicas 3 and the `Parallel` policy. -/
def explicitXsts : XStatefulSet :=
  { minimalXsts with
    Spec := { minimalXsts.Spec with
      Replicas := some 3, PodManagementPolicy := ParallelPodManagement } }

/-- An object with every defaultable field set by the client. -/
def fullXsts : XStatefulSet :=
  { minimalXsts with
    Spec := { minimalXsts.Spec with
      Replicas := some 3
      PodManagementPolicy := ParallelPodManagement
      UpdateStrategy :=
        { Type_ := RollingUpdateStatefulSetStrategyType
          RollingUpdate := some { Partition := some 2, MaxUnavailable := some (FromInt32 4) } }
      RevisionHistoryLimit := some 7
      PersistentVolumeClaimRetentionPolicy :=
        some { WhenDeleted := DeletePersistentVolumeClaimRetentionPolicyType
               WhenScaled := DeletePersistentVolumeClaimRetentionPolicyType } } }

/-- An object whose retention policy sets only `whenDeleted`, to `Delete`. -/
def deleteOnlyXsts : XStatefulSet :=
  { minimalXsts with
    Spec := { minimalXsts.Spec with
      PersistentVolumeClaimRetentionPolicy :=
        some { WhenDeleted := DeletePersistentVolumeClaimRetentionPolicyType
               WhenScaled := "" } } }

/-- An object that names the `RollingUpdate` strategy type explicitly and
leaves `rollingUpdate` nil. -/
def explicitRollingXsts : XStatefulSet :=
  { minimalXsts with
    Spec := { minimalXsts.Spec with
      UpdateStrategy :=
        { Type_ := RollingUpdateStatefulSetStrategyType, RollingUpdate := none } } }

/-! ## Status persistence
(`pkg/controller/xstatefulset/xstateful_set_status_updater.go`) -/

/-- The status reason `metav1.StatusReasonConflict`. -/
def StatusReasonConflict : String := "Conflict"

/-- The predicate `apierrors.IsConflict` on a non-nil error: its status reason
is `Conflict`. -/
def IsConflict (err : Error) : Bool := err.Reason == StatusReasonConflict

/-- The object store as the updater reaches it, over an arbitrary store state
`σ`: the client's `UpdateStatus(namespace, set)` with the error it returns
(`none` is Go `nil`; the returned object is discarded by the caller), and the
lister's `Get(namespace, name)`. Each call may also change the store state,
which covers an answer that depends on the object submitted, on earlier calls
or on concurrent writers. -/
structure Store (σ : Type) where
  UpdateStatus : σ → String → XStatefulSet → σ × Option Error
  Get : σ → String → String → σ × Except Error XStatefulSet

/-- One call made by the updater, with what it got back. -/
inductive Event where
  | UpdateStatus (ns : String) (set : XStatefulSet) (err : Option Error)
  | Get (ns : String) (name : String) (res : Except Error XStatefulSet)
  | HandleError (msg : String)

/-- The variables the retried closure reads and writes: the store, the
captured variable `set`, and the calls made so far. -/
structure UpdaterState (σ : Type) where
  store : σ
  set : XStatefulSet
  trace : List Event

/-- The closure passed to `retry.RetryOnConflict` (lines 74-89): one attempt.
`DeepCopy` is the identity on values. -/
def updateAttempt {σ : Type} (st : Store σ) (status : XStatefulSetStatus)
    (s : UpdaterState σ) : UpdaterState σ × Option Error :=
  let set : XStatefulSet := { s.set with Status := status }
  let r := st.UpdateStatus s.store set.ObjectMeta.Namespace set
  let trace := s.trace ++ [Event.UpdateStatus set.ObjectMeta.Namespace set r.2]
  match r.2 with
  | none => ({ store := r.1, set := set, trace := trace }, none)
  | some updateErr =>
    let g := st.Get r.1 set.ObjectMeta.Namespace set.ObjectMeta.Name
    let trace := trace ++ [Event.Get set.ObjectMeta.Namespace set.ObjectMeta.Name g.2]
    match g.2 with
    | Except.ok updated => ({ store := g.1, set := updated, trace := trace }, some updateErr)
    | Except.error _ =>
      ({ store := g.1, set := set
         trace := trace ++ [Event.HandleError "Error getting updated StatefulSet from lister"] },
       some updateErr)

/-- Modelled from the spec: the back-off policy `wait.Backoff` of the client
library, which is not among the sources; only the retry budget `Steps` decides
what is called, the waiting time between attempts (milliseconds here) is
carried along and not acted on. -/
structure Backoff where
  Steps : Nat
  Duration : Nat
deriving DecidableEq, Repr

/-- Modelled from the spec: the default retry policy `retry.DefaultRetry` of
the client library, which is not among the sources: the "small fixed retry
budget" of the spec, five steps starting at 10 ms. -/
def DefaultRetry : Backoff := { Steps := 5, Duration := 10 }

/-- Modelled from the spec: what the library's back-off loop returns besides
`nil`: the sentinel `ErrWaitTimeout` when the budget is used up, or the error
of the condition. The sentinel is a value of its own, which a store call does
not return. -/
inductive WaitError where
  | ErrWaitTimeout
  | Cond (err : Error)
deriving DecidableEq, Repr

/-- Modelled from the spec: the library loop `wait.ExponentialBackoff`, which
is not among the sources: run `condition` until it reports done or an error,
at most `steps` times, and report the time-out sentinel after the last
unsuccessful run. Sleeping between runs is not modelled. -/
def ExponentialBackoff {α : Type} :
    Nat → (α → α × Bool × Option Error) → α → α × Option WaitError
  | 0, _, s => (s, some WaitError.ErrWaitTimeout)
  | n + 1, condition, s =>
    let r := condition s
    match r.2.2 with
    | some err => (r.1, some (WaitError.Cond err))
    | none =>
      if r.2.1 then (r.1, none)
      else if n + 1 = 1 then (r.1, some WaitError.ErrWaitTimeout)
      else ExponentialBackoff n condition r.1

/-- Modelled from the spec: the condition that `retry.OnError` hands to the
back-off loop; the second component of the state is its variable `lastErr`.
A `nil` result is done, a retriable error is remembered and asks for another
run, any other error ends the loop with that error. -/
def onErrorCondition {α : Type} (retriable : Error → Bool) (fn : α → α × Option Error)
    (p : α × Option Error) : (α × Option Error) × Bool × Option Error :=
  let r := fn p.1
  match r.2 with
  | none => ((r.1, p.2), true, none)
  | some err =>
    if retriable err then ((r.1, some err), false, none)
    else ((r.1, p.2), false, some err)

/-- Modelled from the spec: the predicate `wait.Interrupted` of the client
library, which is not among the sources: the back-off loop ended by its
time-out sentinel, or by an error that is `context.Canceled` or
`context.DeadlineExceeded`. The library version is the one the source builds
against (it has `HandleErrorWithLogger`). -/
def Interrupted : WaitError → Bool
  | WaitError.ErrWaitTimeout => true
  | WaitError.Cond err => errorsIs err ContextCanceled || errorsIs err ContextDeadlineExceeded

/-- Modelled from the spec: the error `retry.OnError` returns for a result of
the back-off loop: `if wait.Interrupted(err) { err = lastErr }; return err`,
so the last retriable error (nil when there was none) replaces the time-out
sentinel and also an error of the condition that is a context cancellation or
deadline. -/
def onErrorResult {α : Type} (r : (α × Option Error) × Option WaitError) : Option Error :=
  match r.2 with
  | none => none
  | some werr =>
    if Interrupted werr then r.1.2
    else
      match werr with
      | WaitError.Cond err => some err
      | WaitError.ErrWaitTimeout => r.1.2

/-- Modelled from the spec: the combinator `retry.OnError` of the client
library, which is not among the sources: "attempt; on a retriable error retry,
bounded by a small fixed retry budget"; any other error ends the loop, and
`onErrorResult` settles what the caller gets. -/
def OnError {α : Type} (backoff : Backoff) (retriable : Error → Bool)
    (fn : α → α × Option Error) (s : α) : α × Option Error :=
  let r := ExponentialBackoff backoff.Steps (onErrorCondition retriable fn) (s, none)
  (r.1.1, onErrorResult r)

/-- Modelled from the spec: the combinator `retry.RetryOnConflict` of the
client library, which is not among the sources: `OnError` retrying on version
conflicts. -/
def RetryOnConflict {α : Type} (backoff : Backoff) (fn : α → α × Option Error) (s : α) :
    α × Option Error :=
  OnError backoff IsConflict fn s

/-- The method `realStatefulSetStatusUpdater.UpdateStatefulSetStatus`, started
on the store state `w`: the final state (store, closure variable `set`, calls
made) and the returned error. -/
def UpdateStatefulSetStatus {σ : Type} (st : Store σ) (w : σ) (set : XStatefulSet)
    (status : XStatefulSetStatus) : UpdaterState σ × Option Error :=
  RetryOnConflict DefaultRetry (updateAttempt st status) { store := w, set := set, trace := [] }

/-- The `UpdateStatus` calls of a trace, in order: the object submitted and the
error returned. -/
def updateCalls : List Event → List (XStatefulSet × Option Error)
  | [] => []
  | Event.UpdateStatus _ set err :: t => (set, err) :: updateCalls t
  | Event.Get _ _ _ :: t => updateCalls t
  | Event.HandleError _ :: t => updateCalls t

/-- Whether an `UpdateStatus` call returned a version conflict. -/
def returnedConflict (c : XStatefulSet × Option Error) : Bool :=
  match c.2 with
  | some err => IsConflict err
  | none => false

/-- A version-conflict error. -/
def conflictErr : Error := { Reason := StatusReasonConflict, Message := "object has been modified" }

/-- An error that is not a version conflict. -/
def forbiddenErr : Error := { Reason := "Forbidden", Message := "forbidden" }

/-- A store whose `UpdateStatus` always answers with a version conflict and
whose lister returns the object it was asked about; the state counts calls. -/
def conflictStore : Store Nat :=
  { UpdateStatus := fun n _ _ => (n + 1, some conflictErr)
    Get := fun n _ _ => (n, Except.ok minimalXsts) }

/-- A store whose `UpdateStatus` answers the first call with a version
conflict and every later call with an error that is not a conflict. -/
def forbiddenStore : Store Nat :=
  { UpdateStatus := fun n _ _ => (n + 1, if n = 0 then some conflictErr else some forbiddenErr)
    Get := fun n _ _ => (n, Except.ok minimalXsts) }

/-- The object the closure variable `set` was last taken from, after the calls
of a trace that started with `src`: the object of the latest successful lister
read, or `src` when there was none. -/
def sourceAfter : XStatefulSet → List Event → XStatefulSet
  | src, [] => src
  | src, Event.UpdateStatus _ _ _ :: t => sourceAfter src t
  | _, Event.Get _ _ (Except.ok updated) :: t => sourceAfter updated t
  | src, Event.Get _ _ (Except.error _) :: t => sourceAfter src t
  | src, Event.HandleError _ :: t => sourceAfter src t

/-- The `UpdateStatus` calls of a trace that started with `src`, in order: the
object submitted, paired with the object it was taken from (the object of the
latest successful lister read before the call, or `src` when there was
none). -/
def submittedWithSource : XStatefulSet → List Event → List (XStatefulSet × XStatefulSet)
  | _, [] => []
  | src, Event.UpdateStatus _ set _ :: t => (set, src) :: submittedWithSource src t
  | _, Event.Get _ _ (Except.ok updated) :: t => submittedWithSource updated t
  | src, Event.Get _ _ (Except.error _) :: t => submittedWithSource src t
  | src, Event.HandleError _ :: t => submittedWithSource src t

/-- The object a concurrent writer left in the store: `fullXsts` under a newer
version token, with a status of its own. -/
def freshXsts : XStatefulSet :=
  { fullXsts with
    ObjectMeta := { fullXsts.ObjectMeta with ResourceVersion := "2", Generation := 1 }
    Status := { emptyStatus with Replicas := 3, CurrentRevision := "web-1" } }

/-- The status a reconcile pass computed. -/
def computedStatus : XStatefulSetStatus :=
  { emptyStatus with ObservedGeneration := 1, Replicas := 3, ReadyReplicas := 2 }

/-- A store whose `UpdateStatus` answers the first call with a version conflict
and accepts every later call, and whose lister returns `freshXsts`. -/
def onceConflictStore : Store Nat :=
  { UpdateStatus := fun n _ _ => (n + 1, if n = 0 then some conflictErr else none)
    Get := fun n _ _ => (n, Except.ok freshXsts) }

/-- A store whose `UpdateStatus` answers with a version conflict until the
third call and whose lister fails on the first read and returns `freshXsts`
afterwards. -/
def staleListerStore : Store Nat :=
  { UpdateStatus := fun n _ _ => (n + 1, if n < 2 then some conflictErr else none)
    Get := fun n _ _ =>
      (n, if n = 1 then Except.error { Reason := "NotFound", Message := "not found" }
          else Except.ok freshXsts) }

/-- The variable `lastErr` of `retry.OnError` before the call of index `i`,
for calls of which every one before the last returned a retriable error: the
error of the call before, or the initial value for the first call. -/
def lastErrBefore (lastErr : Option Error) : List (XStatefulSet × Option Error) → Nat → Option Error
  | _, 0 => lastErr
  | [], _ + 1 => lastErr
  | c :: cs, i + 1 => lastErrBefore c.2 cs i

/-- What `UpdateStatefulSetStatus` returns when its last `UpdateStatus` call
returned `res` and `lastErr` held the value given: nil for an accepted call,
the conflict when the budget ends on a conflict, and for an error that is not
a conflict the error itself unless it is a context cancellation or deadline,
which `lastErr` replaces. -/
def lastCallResult (lastErr : Option Error) (res : Option Error) : Option Error :=
  match res with
  | none => none
  | some e =>
    if IsConflict e then some e
    else if Interrupted (WaitError.Cond e) then lastErr
    else some e

/-- The error of a request whose context deadline has passed: it wraps
`context.DeadlineExceeded` and is not an API status. -/
def deadlineErr : Error :=
  { Reason := "", Message := "context deadline exceeded", Wraps := [ContextDeadlineExceeded] }

/-- A store whose `UpdateStatus` fails on every call because the deadline of
the request has passed, and whose lister returns the object it was asked
about. -/
def deadlineStore : Store Nat :=
  { UpdateStatus := fun n _ _ => (n + 1, some deadlineErr)
    Get := fun n _ _ => (n, Except.ok minimalXsts) }

/-- A store whose `UpdateStatus` answers the first call with a version
conflict and every later call with the deadline error. -/
def conflictThenDeadlineStore : Store Nat :=
  { UpdateStatus := fun n _ _ => (n + 1, if n = 0 then some conflictErr else some deadlineErr)
    Get := fun n _ _ => (n, Except.ok minimalXsts) }

/-- A store that checks the version token: `UpdateStatus` accepts an object
whose `ResourceVersion` is `2`, the one of `freshXsts`, and answers any other
object with a version conflict; the lister returns `freshXsts`. -/
def tokenStore : Store Nat :=
  { UpdateStatus := fun n _ x =>
      (n + 1, if x.ObjectMeta.ResourceVersion = "2" then none else some conflictErr)
    Get := fun n _ _ => (n, Except.ok freshXsts) }

/-! ## Webhook certificates (`pkg/webhook/cert/secret.go`, `generator.go`) -/

/-- A Go byte slice `[]byte`; `none` is the nil slice. -/
abbrev Bytes := Option (List Nat)

/-- Go `len` on a byte slice. -/
def lenBytes : Bytes → Nat
  | none => 0
  | some b => b.length

/-- A Go `map[string][]byte`; `none` is the nil map, and a key is looked up at
its first entry. -/
abbrev DataMap := Option (List (String × Bytes))

/-- The Go map read `v, ok := m[key]`: `none` stands for `ok = false`. -/
def mapLookup (m : DataMap) (key : String) : Option Bytes :=
  match m with
  | none => none
  | some entries => entries.lookup key

/-- The key for the TLS certificate in the secret. -/
def TLSCertKey : String := "tls.crt"

/-- The key for the TLS private key in the secret. -/
def TLSKeyKey : String := "tls.key"

/-- The key for the CA certificate in the secret. -/
def CAKey : String := "ca.crt"

/-- The secret type `corev1.SecretTypeTLS`. -/
def SecretTypeTLS : String := "kubernetes.io/tls"

/-- The part of `corev1.Secret` the code reads or writes. -/
structure Secret where
  ObjectMeta : ObjectMeta
  Type_ : String
  Data : DataMap
deriving DecidableEq, Repr

/-- The certificate, key and CA certificate, PEM-encoded. -/
structure CertBundle where
  CertPEM : Bytes
  KeyPEM : Bytes
  CAPEM : Bytes
deriving DecidableEq, Repr

/-- The status reason `metav1.StatusReasonNotFound`. -/
def StatusReasonNotFound : String := "NotFound"

/-- The status reason `metav1.StatusReasonAlreadyExists`. -/
def StatusReasonAlreadyExists : String := "AlreadyExists"

/-- The predicate `apierrors.IsNotFound` on a non-nil error. -/
def IsNotFound (err : Error) : Bool := err.Reason == StatusReasonNotFound

/-- The predicate `apierrors.IsAlreadyExists` on a non-nil error. -/
def IsAlreadyExists (err : Error) : Bool := err.Reason == StatusReasonAlreadyExists

/-- The error of `fmt.Errorf` with a message and no wrapped error: it carries no
status reason. -/
def Errorf (msg : String) : Error := { Reason := "", Message := msg }

/-- The error of `fmt.Errorf` with a `%w` verb at the end of its format: the
message is put before the message of the wrapped error, whose status reason
stays visible to the `apierrors` predicates. -/
def ErrorfW (msg : String) (err : Error) : Error :=
  { Reason := err.Reason, Message := msg ++ err.Message, Wraps := err.Wraps }

/-- The function `GenerateSelfSignedCertificate` of `generator.go`. Its key
generation, X.509 signing and PEM encoding (lines 74-155) read the random
source and the clock; they are the parameter `crypto`, which yields the bundle
or the error of the failing step. -/
def GenerateSelfSignedCertificate (crypto : List String → Except Error CertBundle)
    (dnsNames : List String) : Except Error CertBundle :=
  if dnsNames.length = 0 then
    Except.error (Errorf "dnsNames cannot be empty")
  else
    crypto dnsNames

/-- The secrets client as the certificate code reaches it, over an arbitrary
cluster state `σ`: `Secrets(namespace).Get(name)` and
`Secrets(namespace).Create(secret)`, each with the object or error it returns
and the cluster state it leaves. -/
structure SecretClient (σ : Type) where
  Get : σ → String → String → σ × Except Error Secret
  Create : σ → String → Secret → σ × Except Error Secret

/-- One step of `EnsureCertificate` that reaches outside: a call to the secrets
client with its result, or a call to the certificate generator. -/
inductive CertEvent where
  | Get (ns : String) (name : String) (res : Except Error Secret)
  | Generate (dnsNames : List String)
  | Create (ns : String) (secret : Secret) (res : Except Error Secret)

/-- The cluster state and the calls made so far. -/
structure CertState (σ : Type) where
  store : σ
  trace : List CertEvent

/-- The read `secret.Data[CAKey]` and the two returns that follow it (lines
71-75 and 112-116). -/
def caBundleOf (ns secretName : String) (secret : Secret) : Except Error Bytes :=
  match mapLookup secret.Data CAKey with
  | none =>
    Except.error (Errorf ("secret " ++ ns ++ "/" ++ secretName ++ " does not contain " ++ CAKey))
  | some caBundle => Except.ok caBundle

/-- The function `EnsureCertificate`, started on the cluster state `w`: the
final state with the calls made, and the returned bytes or error. -/
def EnsureCertificate {σ : Type} (kubeClient : SecretClient σ)
    (crypto : List String → Except Error CertBundle) (w : σ) (ns secretName : String)
    (dnsNames : List String) : CertState σ × Except Error Bytes :=
  if dnsNames.length = 0 then
    ({ store := w, trace := [] }, Except.error (Errorf "dnsNames cannot be empty"))
  else
    let g := kubeClient.Get w ns secretName
    let trace : List CertEvent := [CertEvent.Get ns secretName g.2]
    match g.2 with
    | Except.ok secret => ({ store := g.1, trace := trace }, caBundleOf ns secretName secret)
    | Except.error err =>
      if !IsNotFound err then
        ({ store := g.1, trace := trace },
         Except.error (ErrorfW ("failed to get secret " ++ ns ++ "/" ++ secretName ++ ": ") err))
      else
        let trace : List CertEvent := trace ++ [CertEvent.Generate dnsNames]
        match GenerateSelfSignedCertificate crypto dnsNames with
        | Except.error err =>
          ({ store := g.1, trace := trace },
           Except.error (ErrorfW "failed to generate certificate: " err))
        | Except.ok certBundle =>
          let secret : Secret :=
            { ObjectMeta :=
                { Name := secretName, Namespace := ns, ResourceVersion := "", Generation := 0,
                  Labels := [] }
              Type_ := SecretTypeTLS
              Data := some [(TLSCertKey, certBundle.CertPEM), (TLSKeyKey, certBundle.KeyPEM),
                (CAKey, certBundle.CAPEM)] }
          let c := kubeClient.Create g.1 ns secret
          let trace : List CertEvent := trace ++ [CertEvent.Create ns secret c.2]
          match c.2 with
          | Except.error err =>
            if IsAlreadyExists err then
              let g2 := kubeClient.Get c.1 ns secretName
              let trace : List CertEvent := trace ++ [CertEvent.Get ns secretName g2.2]
              match g2.2 with
              | Except.error err =>
                ({ store := g2.1, trace := trace },
                 Except.error
                   (ErrorfW "failed to get secret after concurrent creation: " err))
              | Except.ok secret =>
                ({ store := g2.1, trace := trace }, caBundleOf ns secretName secret)
            else
              ({ store := c.1, trace := trace },
               Except.error
                 (ErrorfW ("failed to create secret " ++ ns ++ "/" ++ secretName ++ ": ") err))
          | Except.ok _ => ({ store := c.1, trace := trace }, Except.ok certBundle.CAPEM)

/-- The `Create` calls of a trace, in order: namespace, secret submitted and
result. -/
def createCalls : List CertEvent → List (String × Secret × Except Error Secret)
  | [] => []
  | CertEvent.Get _ _ _ :: t => createCalls t
  | CertEvent.Generate _ :: t => createCalls t
  | CertEvent.Create ns secret res :: t => (ns, secret, res) :: createCalls t

/-- The generator calls of a trace, in order. -/
def generateCalls : List CertEvent → List (List String)
  | [] => []
  | CertEvent.Get _ _ _ :: t => generateCalls t
  | CertEvent.Generate dnsNames :: t => dnsNames :: generateCalls t
  | CertEvent.Create _ _ _ :: t => generateCalls t

/-- A secrets client in the manner of the fake clientset, over the list of
secrets in the cluster: `Get` finds the secret by namespace and name or answers
NotFound; `Create` adds the secret or answers AlreadyExists. -/
def fakeSecrets : SecretClient (List Secret) :=
  { Get := fun w ns name =>
      match w.find? (fun s => s.ObjectMeta.Namespace == ns && s.ObjectMeta.Name == name) with
      | some s => (w, Except.ok s)
      | none => (w, Except.error { Reason := StatusReasonNotFound, Message := "not found" })
    Create := fun w ns secret =>
      match w.find?
          (fun s => s.ObjectMeta.Namespace == ns && s.ObjectMeta.Name == secret.ObjectMeta.Name)
      with
      | some _ =>
        (w, Except.error { Reason := StatusReasonAlreadyExists, Message := "already exists" })
      | none => (w ++ [secret], Except.ok secret) }

/-- A generator back end that always yields the same three byte strings. -/
def testCrypto : List String → Except Error CertBundle :=
  fun _ => Except.ok { CertPEM := some [1, 1], KeyPEM := some [2, 2], CAPEM := some [3, 3] }

/-- The DNS names `ensureWebhookCertificate` builds for service `webhook` in
namespace `default`. -/
def testDNSNames : List String := ["webhook.default.svc", "webhook.default.svc.cluster.local"]

/-- A TLS secret as another issuer leaves it: certificate and key, no
`ca.crt`. -/
def tlsOnlySecret : Secret :=
  { ObjectMeta :=
      { Name := "webhook-cert", Namespace := "default", ResourceVersion := "7", Generation := 0,
        Labels := [] }
    Type_ := SecretTypeTLS
    Data := some [(TLSCertKey, some [4, 4]), (TLSKeyKey, some [5, 5])] }

/-- A secret that holds all three keys. -/
def fullSecret : Secret :=
  { tlsOnlySecret with
    Data := some [(TLSCertKey, some [4, 4]), (TLSKeyKey, some [5, 5]), (CAKey, some [6, 6])] }

/-- The secret `EnsureCertificate` builds in namespace `default` under the
name `webhook-cert` from the bundle of `testCrypto`. -/
def generatedSecret : Secret :=
  { ObjectMeta :=
      { Name := "webhook-cert", Namespace := "default", ResourceVersion := "", Generation := 0,
        Labels := [] }
    Type_ := SecretTypeTLS
    Data := some [(TLSCertKey, some [1, 1]), (TLSKeyKey, some [2, 2]), (CAKey, some [3, 3])] }

/-- The part of `admissionregistrationv1.WebhookClientConfig` the code reads or
writes, with the URL as a field it carries along. -/
structure WebhookClientConfig where
  URL : Option String
  CABundle : Bytes
deriving DecidableEq, Repr

/-- One entry of `MutatingWebhookConfiguration.Webhooks`. -/
structure MutatingWebhook where
  Name : String
  ClientConfig : WebhookClientConfig
deriving DecidableEq, Repr

/-- The `admissionregistrationv1.MutatingWebhookConfiguration`. -/
structure MutatingWebhookConfiguration where
  ObjectMeta : ObjectMeta
  Webhooks : List MutatingWebhook
deriving DecidableEq, Repr

/-- The client `AdmissionregistrationV1().MutatingWebhookConfigurations()` over
an arbitrary cluster state `σ`: `Get(name)` and `Update(configuration)`, each
with the object or error it returns and the cluster state it leaves. -/
structure WebhookConfigClient (σ : Type) where
  Get : σ → String → σ × Except Error MutatingWebhookConfiguration
  Update : σ → MutatingWebhookConfiguration → σ × Except Error MutatingWebhookConfiguration

/-- One call of `UpdateMutatingWebhookCABundle` to the client, with its
result. -/
inductive WebhookEvent where
  | Get (name : String) (res : Except Error MutatingWebhookConfiguration)
  | Update (webhook : MutatingWebhookConfiguration)
      (res : Except Error MutatingWebhookConfiguration)

/-- The cluster state and the calls made so far. -/
structure WebhookState (σ : Type) where
  store : σ
  trace : List WebhookEvent

/-- The loop of lines 176-182 over the entries still to visit, started with the
current value of the flag `updated`: the entries as the loop leaves them and
the final value of the flag. -/
def fillCABundles (caBundle : Bytes) : List MutatingWebhook → Bool → List MutatingWebhook × Bool
  | [], updated => ([], updated)
  | h :: t, updated =>
    if lenBytes h.ClientConfig.CABundle = 0 then
      let r := fillCABundles caBundle t true
      ({ h with ClientConfig := { h.ClientConfig with CABundle := caBundle } } :: r.1, r.2)
    else
      let r := fillCABundles caBundle t updated
      (h :: r.1, r.2)

/-- The function `UpdateMutatingWebhookCABundle`, started on the cluster state
`w`: the final state with the calls made, and the returned error. -/
def UpdateMutatingWebhookCABundle {σ : Type} (kubeClient : WebhookConfigClient σ) (w : σ)
    (webhookName : String) (caBundle : Bytes) : WebhookState σ × Option Error :=
  let g := kubeClient.Get w webhookName
  let trace : List WebhookEvent := [WebhookEvent.Get webhookName g.2]
  match g.2 with
  | Except.error err =>
    if IsNotFound err then
      ({ store := g.1, trace := trace }, none)
    else
      ({ store := g.1, trace := trace },
       some (ErrorfW ("failed to get MutatingWebhookConfiguration " ++ webhookName ++ ": ") err))
  | Except.ok webhook =>
    let r := fillCABundles caBundle webhook.Webhooks false
    let webhook : MutatingWebhookConfiguration := { webhook with Webhooks := r.1 }
    if !r.2 then
      ({ store := g.1, trace := trace }, none)
    else
      let u := kubeClient.Update g.1 webhook
      let trace : List WebhookEvent := trace ++ [WebhookEvent.Update webhook u.2]
      match u.2 with
      | Except.error err =>
        ({ store := u.1, trace := trace },
         some (ErrorfW
           ("failed to update MutatingWebhookConfiguration " ++ webhookName ++ ": ") err))
      | Except.ok _ => ({ store := u.1, trace := trace }, none)

/-- The `Update` calls of a trace, in order: the configuration submitted. -/
def updatesOf : List WebhookEvent → List MutatingWebhookConfiguration
  | [] => []
  | WebhookEvent.Get _ _ :: t => updatesOf t
  | WebhookEvent.Update webhook _ :: t => webhook :: updatesOf t

/-- One entry after the call, stated without the loop: the given bundle is
written when the entry's `caBundle` is empty, the entry is unchanged
otherwise. -/
def withCABundle (caBundle : Bytes) (h : MutatingWebhook) : MutatingWebhook :=
  if lenBytes h.ClientConfig.CABundle = 0 then
    { h with ClientConfig := { h.ClientConfig with CABundle := caBundle } }
  else h

/-- A client in the manner of the fake clientset, over the list of
configurations in the cluster: `Get` finds the configuration by name or answers
NotFound; `Update` replaces the configuration of that name or answers
NotFound. -/
def fakeWebhooks : WebhookConfigClient (List MutatingWebhookConfiguration) :=
  { Get := fun w name =>
      match w.find? (fun c => c.ObjectMeta.Name == name) with
      | some c => (w, Except.ok c)
      | none => (w, Except.error { Reason := StatusReasonNotFound, Message := "not found" })
    Update := fun w webhook =>
      match w.find? (fun c => c.ObjectMeta.Name == webhook.ObjectMeta.Name) with
      | some _ =>
        (w.map (fun c => if c.ObjectMeta.Name == webhook.ObjectMeta.Name then webhook else c),
         Except.ok webhook)
      | none => (w, Except.error { Reason := StatusReasonNotFound, Message := "not found" }) }

/-- A configuration with one entry without a CA bundle (nil), one with an
empty, non-nil bundle and one with a bundle set by the operator. -/
def mixedWebhookConfig : MutatingWebhookConfiguration :=
  { ObjectMeta :=
      { Name := "xstatefulset-mutating-webhook", Namespace := "", ResourceVersion := "3",
        Generation := 1, Labels := [] }
    Webhooks :=
      [{ Name := "a.xsts.sh", ClientConfig := { URL := none, CABundle := none } },
       { Name := "b.xsts.sh", ClientConfig := { URL := none, CABundle := some [] } },
       { Name := "c.xsts.sh", ClientConfig := { URL := some "https://c", CABundle := some [9] } }] }

/-- A configuration whose only entry has a bundle set by the operator. -/
def presetWebhookConfig : MutatingWebhookConfiguration :=
  { mixedWebhookConfig with
    Webhooks :=
      [{ Name := "c.xsts.sh", ClientConfig := { URL := some "https://c", CABundle := some [9] } }] }

/-! ## Pod lifecycle (spec §4.1 and §4.3)

`setupController` of `cmd/main.go` starts `xstatefulset.NewStatefulSetController`;
the controller package itself is not among the sources, so the definitions of
this section follow the words of the spec. -/

/-- Modelled from the spec: a pod as a reconcile pass observes it (§3, §4.3);
the controller package is missing. `Revision` is the sequence number of the
template snapshot in the pod's revision label, `Ready` says the pod has been
Ready for at least min-ready-seconds. -/
structure Pod where
  Revision : Nat
  Ready : Bool
deriving DecidableEq, Repr

/-- Modelled from the spec: "observed pods by ordinal" (§4.3), the watch cache
a pass reads; the controller package is missing. -/
abbrev Pods := Nat → Option Pod

/-- Modelled from the spec: the inputs of the Pod Lifecycle Orchestrator (§4.3)
that concern pods: the desired ordinal range `[start, start+replicas)`, current
and target revision, management policy, update strategy with its partition and
`maxUnavailable`; the controller package is missing. -/
structure Orchestrator where
  start : Nat
  replicas : Nat
  current : Nat
  target : Nat
  policy : String
  strategy : String
  partition : Nat
  maxUnavailable : Nat
deriving DecidableEq, Repr

/-- Modelled from the spec: the pod actions of an action plan (§4.1 step 6),
"with ordinals and target revision per action"; the controller package is
missing. -/
inductive Action where
  | createPod (ordinal : Nat) (revision : Nat)
  | deletePod (ordinal : Nat)
deriving DecidableEq, Repr

/-- Modelled from the spec: the revision a pod at an ordinal should have
(§4.3): "Target revision applies to ordinals >= partition; ordinals < partition
are pinned to current revision", the partition being part of the
`RollingUpdate` strategy; the controller package is missing. -/
def revisionFor (o : Orchestrator) (ordinal : Nat) : Nat :=
  if o.strategy = RollingUpdateStatefulSetStrategyType ∧ ordinal < o.partition then o.current
  else o.target

/-- Modelled from the spec: creation under `OrderedReady` over the ordinals
`[k, k+n)` (§4.3): "process ordinals strictly in increasing order for creation
- do not create ordinal k+1 until ordinal k exists and is Ready"; "a not-Ready
or failed pod blocks forward progress entirely; the pass stops". The flag says
that every ordinal was found Ready. The controller package is missing. -/
def createOrdered (o : Orchestrator) (pods : Pods) : Nat → Nat → List Action × Bool
  | _, 0 => ([], true)
  | k, n + 1 =>
    match pods k with
    | none => ([Action.createPod k (revisionFor o k)], false)
    | some p => if p.Ready then createOrdered o pods (k + 1) n else ([], false)

/-- Modelled from the spec: creation under `Parallel` over the ordinals
`[k, k+n)` (§4.3): "all missing ordinals are created ... in the same pass with
no ordering or readiness gating"; the controller package is missing. -/
def createParallel (o : Orchestrator) (pods : Pods) : Nat → Nat → List Action
  | _, 0 => []
  | k, n + 1 =>
    match pods k with
    | none => Action.createPod k (revisionFor o k) :: createParallel o pods (k + 1) n
    | some _ => createParallel o pods (k + 1) n

/-- Modelled from the spec: "the count of currently-unavailable managed pods"
(§4.3) over the ordinals `[k, k+n)`: those missing or not Ready; the controller
package is missing. -/
def unavailableCount (pods : Pods) : Nat → Nat → Nat
  | _, 0 => 0
  | k, n + 1 =>
    (match pods k with
      | some p => if p.Ready then 0 else 1
      | none => 1) + unavailableCount pods (k + 1) n

/-- Modelled from the spec: the update walk over the ordinals
`[start, start+n)`, "from highest to lowest" (§4.3), with `u` pods unavailable
so far. An ordinal below the partition is "never touched"; a pod whose revision
is not the target is selected, and deleted for recreation, only "if doing so
keeps the count of currently-unavailable managed pods at or below the bound".
The controller package is missing. -/
def updateFrom (o : Orchestrator) (pods : Pods) : Nat → Nat → List Action
  | 0, _ => []
  | n + 1, u =>
    if o.start + n < o.partition then updateFrom o pods n u
    else
      match pods (o.start + n) with
      | none => updateFrom o pods n u
      | some p =>
        if p.Revision = o.target then updateFrom o pods n u
        else if (if p.Ready then u + 1 else u) ≤ o.maxUnavailable then
          Action.deletePod (o.start + n) :: updateFrom o pods n (if p.Ready then u + 1 else u)
        else updateFrom o pods n u

/-- Modelled from the spec: the update actions of a pass (§4.3): the update
walk under `RollingUpdate`; "`OnDelete` strategy performs no proactive update
action at all". The controller package is missing. -/
def updateActions (o : Orchestrator) (pods : Pods) : List Action :=
  if o.strategy = RollingUpdateStatefulSetStrategyType then
    updateFrom o pods o.replicas (unavailableCount pods o.start o.replicas)
  else []

/-- Modelled from the spec: the pod action plan of one reconcile pass (§4.1
step 6, §4.3) for a set whose pods all lie in the desired range. Under
`OrderedReady` a missing or not-Ready pod ends the pass before any update
action; under `Parallel` creations and update actions are planned together.
Deleting pods outside the desired range is left out. The controller package is
missing. -/
def planActions (o : Orchestrator) (pods : Pods) : List Action :=
  if o.policy = ParallelPodManagement then
    createParallel o pods o.start o.replicas ++ updateActions o pods
  else
    let r := createOrdered o pods o.start o.replicas
    if r.2 then updateActions o pods else r.1

/-- Modelled from the spec: the effect of an applied action on the observed
pods: a created pod carries the revision of its action and is not yet Ready, a
deleted pod is gone; the controller package is missing. -/
def applyAction (pods : Pods) : Action → Pods
  | Action.createPod k revision =>
    fun j => if j = k then some { Revision := revision, Ready := false } else pods j
  | Action.deletePod k => fun j => if j = k then none else pods j

/-- Modelled from the spec: an applied action together with the pods the pass
observed when it planned the action; the controller package is missing. -/
structure LogEntry where
  action : Action
  observed : Pods

/-- Modelled from the spec: the pods of one set as the cache shows them, and
the actions applied so far, oldest first; the controller package is missing. -/
structure Cluster where
  pods : Pods
  log : List LogEntry

/-- Modelled from the spec: what happens to a set between its creation and
convergence (§5): a reconcile pass, or a watch event that reports that the pod
of an ordinal became Ready or stopped being Ready; the controller package is
missing. -/
inductive Occurrence where
  | reconcile
  | readiness (ordinal : Nat) (ready : Bool)
deriving DecidableEq, Repr

/-- Modelled from the spec: one occurrence. A pass plans on the observed pods
and applies its plan in order (§4.1 steps 6-7, every call succeeding, and the
cache showing the result before the next pass, which is what expectations
ensure); a readiness event changes the `Ready` flag of an existing pod. The
controller package is missing. -/
def occur (o : Orchestrator) (c : Cluster) : Occurrence → Cluster
  | Occurrence.reconcile =>
    { pods := (planActions o c.pods).foldl applyAction c.pods
      log := c.log ++ (planActions o c.pods).map (fun a => { action := a, observed := c.pods }) }
  | Occurrence.readiness k ready =>
    { c with
      pods := fun j => if j = k then (c.pods k).map (fun p => { p with Ready := ready })
                       else c.pods j }

/-- Modelled from the spec: a run, the occurrences taken in order; the
controller package is missing. -/
def runCluster (o : Orchestrator) (c : Cluster) (occs : List Occurrence) : Cluster :=
  occs.foldl (occur o) c

/-- A set without pods and without history of actions: the start of a scale-up
from 0. -/
def emptyCluster : Cluster := { pods := fun _ => none, log := [] }

/-- The ordinals of the pods created by the actions of a log, in order. -/
def createdOrdinals : List LogEntry → List Nat
  | [] => []
  | e :: t =>
    match e.action with
    | Action.createPod k _ => k :: createdOrdinals t
    | Action.deletePod _ => createdOrdinals t

/-- The schedule in which each pod becomes Ready right after the pass that
created it, for the ordinals below `n`, followed by one more pass. -/
def readySchedule (n : Nat) : List Occurrence :=
  (List.range n).flatMap (fun k => [Occurrence.reconcile, Occurrence.readiness k true])
    ++ [Occurrence.reconcile]

/-- An `OrderedReady` set with the default `RollingUpdate` strategy, `n`
replicas and one revision. -/
def orderedSet (n : Nat) : Orchestrator :=
  { start := 0, replicas := n, current := 1, target := 1
    policy := OrderedReadyPodManagement, strategy := RollingUpdateStatefulSetStrategyType
    partition := 0, maxUnavailable := 1 }

/-- The invariant of a scale-up from 0 under `OrderedReady`: the pods present
are those of the ordinals below `m`, at the revision they should have; the log
holds the creations of the ordinals `0..m-1` in this order and nothing else;
and every creation of an ordinal `k+1` was planned on an observation in which
the pod of ordinal `k` was Ready. -/
def ScaleUpInv (o : Orchestrator) (c : Cluster) (m : Nat) : Prop :=
  m ≤ o.replicas ∧
  (∀ j, j < m → ∃ p, c.pods j = some p ∧ p.Revision = revisionFor o j) ∧
  (∀ j, m ≤ j → c.pods j = none) ∧
  c.log.map LogEntry.action = (List.range m).map (fun k => Action.createPod k (revisionFor o k)) ∧
  (∀ e ∈ c.log, ∀ k revision, e.action = Action.createPod (k + 1) revision →
    ∃ p, e.observed k = some p ∧ p.Ready = true)

/-- The ordinal an action is about. -/
def Action.ordinal : Action → Nat
  | Action.createPod k _ => k
  | Action.deletePod k => k

/-- Modelled from the spec: the state a rolling update starts from: every
ordinal of the desired range has a Ready pod at the prior (current) revision,
and nothing has been done yet; the controller package is missing. -/
def priorCluster (o : Orchestrator) : Cluster :=
  { pods := fun j =>
      if o.start ≤ j ∧ j < o.start + o.replicas then some { Revision := o.current, Ready := true }
      else none
    log := [] }

/-- Modelled from the spec: a converged state: a reconcile pass plans no action
and every ordinal of the desired range has a Ready pod (§3: "exactly one live
pod per ordinal ... at convergence"); the controller package is missing. -/
def converged (o : Orchestrator) (pods : Pods) : Bool :=
  (planActions o pods).isEmpty &&
    (List.range o.replicas).all (fun i =>
      match pods (o.start + i) with
      | some p => p.Ready
      | none => false)

/-- An `OrderedReady` set of three replicas in a rolling update from revision 1
to revision 2 with partition 1 and `maxUnavailable` 1. -/
def rollingSet : Orchestrator :=
  { start := 0, replicas := 3, current := 1, target := 2
    policy := OrderedReadyPodManagement, strategy := RollingUpdateStatefulSetStrategyType
    partition := 1, maxUnavailable := 1 }

/-- The run of `rollingSet` in which every recreated pod becomes Ready before
the next pass: ordinal 2 is replaced, then ordinal 1. -/
def rollingSchedule : List Occurrence :=
  [Occurrence.reconcile, Occurrence.reconcile, Occurrence.readiness 2 true,
   Occurrence.reconcile, Occurrence.reconcile, Occurrence.readiness 1 true,
   Occurrence.reconcile]

/-- The invariant of a rolling update with a partition: every ordinal of the
desired range below the partition has a pod at the prior (current) revision,
and no action applied so far is about an ordinal below the partition. -/
def RollInv (o : Orchestrator) (c : Cluster) : Prop :=
  (∀ j, j < o.partition → j < o.replicas →
    ∃ p, c.pods j = some p ∧ p.Revision = o.current) ∧
  (∀ e ∈ c.log, o.partition ≤ e.action.ordinal)

/-! ## Revision history (spec §4.2)

The Revision Manager belongs to the controller package, which is not among
the sources; the definitions of this section follow the words of the spec. -/

/-- Modelled from the spec: a TemplateSnapshot (§3): the "monotonically
increasing sequence number" and the content hash of the template (collision
counter folded in); the serialized template is left out. The controller
package is missing. -/
structure TemplateSnapshot where
  Revision : Nat
  Hash : Nat
deriving DecidableEq, Repr

/-- Modelled from the spec: the history of one set with the sequence numbers of
its current and target revision (§4.2); the controller package is missing. -/
structure Revisions where
  history : List TemplateSnapshot
  current : Nat
  target : Nat
deriving DecidableEq, Repr

/-- Modelled from the spec: "the next sequence number" (§4.2): one more than
the highest in the history; the controller package is missing. -/
def nextRevision (history : List TemplateSnapshot) : Nat :=
  (history.map (fun s => s.Revision)).foldr max 0 + 1

/-- Modelled from the spec: `resolveRevisions(history, template)` (§4.2), on
the hash of the template: "Search history for a snapshot whose stored hash
matches ... If found, it is the target revision. If not found, synthesize a new
snapshot with the next sequence number." Name collisions of snapshots are left
out. The controller package is missing. -/
def resolveRevisions (r : Revisions) (hash : Nat) : Revisions :=
  match r.history.find? (fun s => s.Hash == hash) with
  | some s => { r with target := s.Revision }
  | none =>
    { r with
      history := r.history ++ [{ Revision := nextRevision r.history, Hash := hash }]
      target := nextRevision r.history }

/-- Modelled from the spec: a snapshot is live when it is "currently referenced
as current or target revision" (§3); the controller package is missing. -/
def isLive (r : Revisions) (s : TemplateSnapshot) : Bool :=
  s.Revision == r.current || s.Revision == r.target

/-- Modelled from the spec: the snapshots a pruning deletes, in the order of
deletion (§4.2): "sort history by sequence number ascending; delete the oldest
entries exceeding `revisionHistoryLimit`, always excluding the live current and
target revisions from deletion regardless of age". The limit counts the
snapshots that are not live, as the comment of `RevisionHistoryLimit` in
`types.go` has it. The controller package is missing. -/
def pruneCandidates (limit : Nat) (r : Revisions) : List TemplateSnapshot :=
  let sorted := r.history.insertionSort (fun a b => a.Revision ≤ b.Revision)
  let nonLive := sorted.filter (fun s => !isLive r s)
  nonLive.take (nonLive.length - limit)

/-- Modelled from the spec: pruning (§4.2): the history without the deleted
snapshots; the controller package is missing. -/
def pruneHistory (limit : Nat) (r : Revisions) : Revisions :=
  { r with history := r.history.filter (fun s => decide (s ∉ pruneCandidates limit r)) }

/-- Modelled from the spec: what changes the revisions of a set: a template
change, given by the hash of the new template, or the end of a rollout; the
controller package is missing. -/
inductive RevisionOp where
  | change (hash : Nat)
  | complete
deriving DecidableEq, Repr

/-- Modelled from the spec: one change (§4.2): a template change resolves the
revisions against the new template; "once all replicas match the target,
current := target". The controller package is missing. -/
def applyOp (r : Revisions) : RevisionOp → Revisions
  | RevisionOp.change hash => resolveRevisions r hash
  | RevisionOp.complete => { r with current := r.target }

/-- Modelled from the spec: the revisions of a set just created from a template
with the given hash: one snapshot, current and target; the controller package
is missing. -/
def initialRevisions (hash : Nat) : Revisions :=
  { history := [{ Revision := 1, Hash := hash }], current := 1, target := 1 }

/-- The hashes of the template changes among a list of changes, in order. -/
def changeHashes : List RevisionOp → List Nat
  | [] => []
  | RevisionOp.change hash :: t => hash :: changeHashes t
  | RevisionOp.complete :: t => changeHashes t

/-- Three template changes, the first two rolled out completely and the third
still in progress. -/
def threeChanges : List RevisionOp :=
  [RevisionOp.change 11, RevisionOp.complete, RevisionOp.change 12, RevisionOp.complete,
   RevisionOp.change 13]

/-! ## Loading the bundle and bootstrap of the webhook
(`LoadCertBundleFromSecret` of `secret.go`, `cmd/main.go` lines 277-302 and
351-374) -/

/-- The function `LoadCertBundleFromSecret`, started on the cluster state `w`:
the final state with the call made, and the returned pair, `Except.ok none`
standing for `(nil, nil)`. -/
def LoadCertBundleFromSecret {σ : Type} (kubeClient : SecretClient σ) (w : σ)
    (ns secretName : String) : CertState σ × Except Error (Option CertBundle) :=
  let g := kubeClient.Get w ns secretName
  let trace : List CertEvent := [CertEvent.Get ns secretName g.2]
  match g.2 with
  | Except.error err =>
    if IsNotFound err then ({ store := g.1, trace := trace }, Except.ok none)
    else ({ store := g.1, trace := trace }, Except.error err)
  | Except.ok s =>
    match s.Data with
    | none => ({ store := g.1, trace := trace }, Except.ok none)
    | some _ =>
      let bundle : CertBundle := { CertPEM := none, KeyPEM := none, CAPEM := none }
      let bundle : CertBundle :=
        match mapLookup s.Data TLSCertKey with
        | some b => if lenBytes b > 0 then { bundle with CertPEM := b } else bundle
        | none => bundle
      let bundle : CertBundle :=
        match mapLookup s.Data TLSKeyKey with
        | some b => if lenBytes b > 0 then { bundle with KeyPEM := b } else bundle
        | none => bundle
      let bundle : CertBundle :=
        match mapLookup s.Data CAKey with
        | some b => if lenBytes b > 0 then { bundle with CAPEM := b } else bundle
        | none => bundle
      ({ store := g.1, trace := trace }, Except.ok (some bundle))

/-- The process environment as `os.LookupEnv` shows it: the value of a
variable, `none` when it is not set. -/
abbrev Environ := String → Option String

/-- Go `os.Getenv`: the value of the variable, empty when it is not set. -/
def Getenv (env : Environ) (key : String) : String :=
  match env key with
  | some value => value
  | none => ""

/-- The function `getNamespace` of `cmd/main.go` (lines 351-354). -/
def getNamespace (env : Environ) : String := Getenv env "POD_NAMESPACE"

/-- The function `fileExists` of `cmd/main.go`; `stat path` says whether
`os.Stat(path)` returns no error. -/
def fileExists (stat : String → Bool) (path : String) : Bool :=
  if path = "" then false
  else stat path

/-- The fields of `config.WebhookConfiguration` that the bootstrap reads, as
`main` fills them from the flags (lines 96-102); the declaration of the type in
`cmd/config` is not among the sources. -/
structure WebhookConfiguration where
  ServiceName : String
  TlsCert : String
  TlsPrivateKey : String
  MutatingWebhookConfigurationName : String
  CertSecretName : String
deriving DecidableEq, Repr

/-- The clientset `kubernetes.Interface` as the bootstrap reaches it, over one
cluster state `σ`: the secrets client and the client of the mutating webhook
configurations. -/
structure KubeClient (σ : Type) where
  Secrets : SecretClient σ
  Webhooks : WebhookConfigClient σ

/-- The function `ensureWebhookCertificate` of `cmd/main.go` (lines 366-374). -/
def ensureWebhookCertificate {σ : Type} (kubeClient : KubeClient σ)
    (crypto : List String → Except Error CertBundle) (env : Environ) (w : σ)
    (wc : WebhookConfiguration) : CertState σ × Except Error Bytes :=
  let ns := getNamespace env
  let dnsNames : List String :=
    [wc.ServiceName ++ "." ++ ns ++ ".svc", wc.ServiceName ++ "." ++ ns ++ ".svc.cluster.local"]
  EnsureCertificate kubeClient.Secrets crypto w ns wc.CertSecretName dnsNames

/-- One call made by the CA bundle selection of `setupWebhookWithManager`, with
the calls it made to the cluster and its result. -/
inductive SetupEvent where
  | LoadCertBundleFromSecret (calls : List CertEvent) (res : Except Error (Option CertBundle))
  | ensureWebhookCertificate (calls : List CertEvent) (res : Except Error Bytes)
  | UpdateMutatingWebhookCABundle (webhookName : String) (caBundle : Bytes)
      (calls : List WebhookEvent) (res : Option Error)

/-- The variables after line 302: the cluster state, the calls made and the
variable `caBundle`. -/
structure SetupState (σ : Type) where
  store : σ
  trace : List SetupEvent
  caBundle : Bytes

/-- The variable `caBundle` after lines 279-286 of `setupWebhookWithManager`,
for the result of `LoadCertBundleFromSecret`: the `CAPEM` of the bundle, nil
when loading returned an error (logged as a warning) or no bundle. -/
def secretCABundle (res : Except Error (Option CertBundle)) : Bytes :=
  match res with
  | Except.error _ => none
  | Except.ok none => none
  | Except.ok (some bundle) => bundle.CAPEM

/-- The last step of the CA bundle selection (lines 298-302 of
`setupWebhookWithManager`): the webhook configuration is updated when
`caBundle` is not nil. The error of line 300 formats the outer variable `err`,
which is nil at that point. -/
def updateWebhookCABundle {σ : Type} (kubeClient : KubeClient σ) (wc : WebhookConfiguration)
    (s : SetupState σ) : SetupState σ × Option Error :=
  if s.caBundle ≠ none then
    let u := UpdateMutatingWebhookCABundle kubeClient.Webhooks s.store
      wc.MutatingWebhookConfigurationName s.caBundle
    let trace : List SetupEvent :=
      s.trace ++ [SetupEvent.UpdateMutatingWebhookCABundle wc.MutatingWebhookConfigurationName
        s.caBundle u.1.trace u.2]
    match u.2 with
    | some _ =>
      ({ store := u.1.store, trace := trace, caBundle := s.caBundle },
       some (Errorf "Error updating mutating webhook certificate: <nil>"))
    | none => ({ store := u.1.store, trace := trace, caBundle := s.caBundle }, none)
  else
    (s, none)

/-- The CA bundle selection of `setupWebhookWithManager` (lines 277-302),
started on the cluster state `w` with the client already created: the state
after line 302 and the error returned from within these lines (`none` when the
function goes on to wait for the certificate files). -/
def setupWebhookWithManager {σ : Type} (kubeClient : KubeClient σ)
    (crypto : List String → Except Error CertBundle) (env : Environ) (stat : String → Bool)
    (w : σ) (wc : WebhookConfiguration) : SetupState σ × Option Error :=
  let ns := getNamespace env
  let l := LoadCertBundleFromSecret kubeClient.Secrets w ns wc.CertSecretName
  let trace : List SetupEvent := [SetupEvent.LoadCertBundleFromSecret l.1.trace l.2]
  let caBundle : Bytes := secretCABundle l.2
  if caBundle = none then
    if !fileExists stat wc.TlsPrivateKey || !fileExists stat wc.TlsCert then
      let e := ensureWebhookCertificate kubeClient crypto env l.1.store wc
      let trace : List SetupEvent :=
        trace ++ [SetupEvent.ensureWebhookCertificate e.1.trace e.2]
      match e.2 with
      | Except.error err =>
        ({ store := e.1.store, trace := trace, caBundle := caBundle },
         some (ErrorfW "error ensuring webhook certificate: " err))
      | Except.ok bytes =>
        updateWebhookCABundle kubeClient wc
          { store := e.1.store, trace := trace, caBundle := bytes }
    else
      updateWebhookCABundle kubeClient wc
        { store := l.1.store, trace := trace, caBundle := caBundle }
  else
    updateWebhookCABundle kubeClient wc
      { store := l.1.store, trace := trace, caBundle := caBundle }

/-- The calls of `ensureWebhookCertificate` in a trace, in order: their
results. -/
def ensureCalls : List SetupEvent → List (Except Error Bytes)
  | [] => []
  | SetupEvent.LoadCertBundleFromSecret _ _ :: t => ensureCalls t
  | SetupEvent.ensureWebhookCertificate _ res :: t => res :: ensureCalls t
  | SetupEvent.UpdateMutatingWebhookCABundle _ _ _ _ :: t => ensureCalls t

/-- The calls of `UpdateMutatingWebhookCABundle` in a trace, in order: the CA
bundle handed over. -/
def bundleUpdates : List SetupEvent → List Bytes
  | [] => []
  | SetupEvent.LoadCertBundleFromSecret _ _ :: t => bundleUpdates t
  | SetupEvent.ensureWebhookCertificate _ _ :: t => bundleUpdates t
  | SetupEvent.UpdateMutatingWebhookCABundle _ caBundle _ _ :: t => caBundle :: bundleUpdates t

/-- The certificate generations in a trace: the generator calls made inside the
calls of `ensureWebhookCertificate`. -/
def generations : List SetupEvent → List (List String)
  | [] => []
  | SetupEvent.LoadCertBundleFromSecret _ _ :: t => generations t
  | SetupEvent.ensureWebhookCertificate calls _ :: t => generateCalls calls ++ generations t
  | SetupEvent.UpdateMutatingWebhookCABundle _ _ _ _ :: t => generations t

/-- An environment in which only `POD_NAMESPACE` is set, to `default`. -/
def podEnv : Environ := fun key => if key = "POD_NAMESPACE" then some "default" else none

/-- An environment in which no variable is set. -/
def emptyEnv : Environ := fun _ => none

/-- An environment in which `POD_NAMESPACE` is set to the empty string. -/
def blankEnv : Environ := fun key => if key = "POD_NAMESPACE" then some "" else none

/-- The webhook configuration of the flag defaults of `main` (lines 96-102),
with the secret name of the test objects. -/
def defaultWebhookConfiguration : WebhookConfiguration :=
  { ServiceName := "webhook"
    TlsCert := "/etc/tls/tls.crt"
    TlsPrivateKey := "/etc/tls/tls.key"
    MutatingWebhookConfigurationName := "xstatefulset-mutating-webhook"
    CertSecretName := "webhook-cert" }

/-- A cluster with secrets and mutating webhook configurations, in the manner
of the fake clientset. -/
def fakeKube : KubeClient (List Secret × List MutatingWebhookConfiguration) :=
  { Secrets :=
      { Get := fun w ns name =>
          (((fakeSecrets.Get w.1 ns name).1, w.2), (fakeSecrets.Get w.1 ns name).2)
        Create := fun w ns secret =>
          (((fakeSecrets.Create w.1 ns secret).1, w.2), (fakeSecrets.Create w.1 ns secret).2) }
    Webhooks :=
      { Get := fun w name => ((w.1, (fakeWebhooks.Get w.2 name).1), (fakeWebhooks.Get w.2 name).2)
        Update := fun w webhook =>
          ((w.1, (fakeWebhooks.Update w.2 webhook).1), (fakeWebhooks.Update w.2 webhook).2) } }

/-- A file system with both TLS files of the flag defaults. -/
def bothFiles : String → Bool := fun path => path == "/etc/tls/tls.crt" || path == "/etc/tls/tls.key"

/-- A file system with the certificate file only. -/
def certFileOnly : String → Bool := fun path => path == "/etc/tls/tls.crt"

/-- A secret whose `ca.crt` is present and empty. -/
def emptyCASecret : Secret :=
  { tlsOnlySecret with
    Data := some [(TLSCertKey, some [4, 4]), (TLSKeyKey, some [5, 5]), (CAKey, some [])] }

/-- A secret without a data map. -/
def noDataSecret : Secret := { tlsOnlySecret with Data := none }

/-- What loading says of one field of the bundle, for the value `field` it got
from the key `key` of the data map `m`: the value under the key when the key is
present with a non-empty value, nil when the key is absent or its value is
empty. -/
def loadedField (m : DataMap) (key : String) (field : Bytes) : Prop :=
  (∀ b, mapLookup m key = some b → 0 < lenBytes b → field = b) ∧
  (∀ b, mapLookup m key = some b → lenBytes b = 0 → field = none) ∧
  (mapLookup m key = none → field = none)

/-- An environment in which `POD_NAMESPACE` is set to `kube-system`. -/
def kubeSystemEnv : Environ :=
  fun key => if key = "POD_NAMESPACE" then some "kube-system" else none

/-- The call of line 281 of `setupWebhookWithManager`: loading the bundle from
the secret `wc.CertSecretName` in the namespace `getNamespace` returns. -/
def loadFromSecret {σ : Type} (kubeClient : KubeClient σ) (env : Environ) (w : σ)
    (wc : WebhookConfiguration) : CertState σ × Except Error (Option CertBundle) :=
  LoadCertBundleFromSecret kubeClient.Secrets w (getNamespace env) wc.CertSecretName

/-- The set `rollingSet` with a `maxUnavailable` of 0: no pod may become
unavailable through an update action. -/
def blockedSet : Orchestrator := { rollingSet with maxUnavailable := 0 }

/-! ## Statement-by-statement decomposition of `SetDefaults_XStatefulSet`

The function above, cut at its statements; `SetDefaults_eq_steps` below shows
that the composition of the steps is the function itself. -/

/-- Lines 29-31: the management policy. -/
def stepPolicy (spec : XStatefulSetSpec) : XStatefulSetSpec :=
  if len spec.PodManagementPolicy = 0 then
    { spec with PodManagementPolicy := OrderedReadyPodManagement }
  else spec

/-- Lines 33-40: the strategy type. -/
def stepType (spec : XStatefulSetSpec) : XStatefulSetSpec :=
  if spec.UpdateStrategy.Type_ = "" then
    { spec with UpdateStrategy :=
        { Type_ := RollingUpdateStatefulSetStrategyType
          RollingUpdate :=
            match spec.UpdateStrategy.RollingUpdate with
            | none => some { Partition := none, MaxUnavailable := none }
            | some ru => some ru } }
  else spec

/-- Lines 45-52: the fields of a non-nil `rollingUpdate`. -/
def rollingD (gate : FeatureGate) (ru : RollingUpdateStatefulSetStrategy) :
    RollingUpdateStatefulSetStrategy :=
  let ru : RollingUpdateStatefulSetStrategy :=
    if ru.Partition = none then { ru with Partition := some 0 } else ru
  let ru : RollingUpdateStatefulSetStrategy :=
    if gate.Enabled MaxUnavailableStatefulSet then
      if ru.MaxUnavailable = none then
        { ru with MaxUnavailable := some (FromInt32 1) }
      else ru
    else ru
  ru

/-- Lines 42-53: the rolling-update block. -/
def stepRolling (gate : FeatureGate) (spec : XStatefulSetSpec) : XStatefulSetSpec :=
  if spec.UpdateStrategy.Type_ = RollingUpdateStatefulSetStrategyType then
    match spec.UpdateStrategy.RollingUpdate with
    | some ru =>
      { spec with UpdateStrategy := { spec.UpdateStrategy with RollingUpdate := some (rollingD gate ru) } }
    | none => spec
  else spec

/-- Lines 55-63: the retention policy, as a value. -/
def retentionD (p : Option StatefulSetPersistentVolumeClaimRetentionPolicy) :
    StatefulSetPersistentVolumeClaimRetentionPolicy :=
  let pol : StatefulSetPersistentVolumeClaimRetentionPolicy :=
    match p with
    | none => { WhenDeleted := "", WhenScaled := "" }
    | some p => p
  let pol : StatefulSetPersistentVolumeClaimRetentionPolicy :=
    if len pol.WhenDeleted = 0 then
      { pol with WhenDeleted := RetainPersistentVolumeClaimRetentionPolicyType }
    else pol
  let pol : StatefulSetPersistentVolumeClaimRetentionPolicy :=
    if len pol.WhenScaled = 0 then
      { pol with WhenScaled := RetainPersistentVolumeClaimRetentionPolicyType }
    else pol
  pol

/-- Lines 55-63: the retention policy. -/
def stepRetention (spec : XStatefulSetSpec) : XStatefulSetSpec :=
  let pol := retentionD spec.PersistentVolumeClaimRetentionPolicy
  { spec with PersistentVolumeClaimRetentionPolicy := some pol }

/-- Lines 65-68: the replica count. -/
def stepReplicas (spec : XStatefulSetSpec) : XStatefulSetSpec :=
  if spec.Replicas = none then { spec with Replicas := some 1 } else spec

/-- Lines 69-72: the revision-history limit. -/
def stepHistory (spec : XStatefulSetSpec) : XStatefulSetSpec :=
  if spec.RevisionHistoryLimit = none then { spec with RevisionHistoryLimit := some 10 }
  else spec

/-- Lines 33-40 on the strategy alone. -/
def typeD (u : StatefulSetUpdateStrategy) : StatefulSetUpdateStrategy :=
  if u.Type_ = "" then
    { Type_ := RollingUpdateStatefulSetStrategyType
      RollingUpdate :=
        match u.RollingUpdate with
        | none => some { Partition := none, MaxUnavailable := none }
        | some ru => some ru }
  else u

/-- Lines 42-53 on the strategy alone. -/
def rollingBlockD (gate : FeatureGate) (u : StatefulSetUpdateStrategy) :
    StatefulSetUpdateStrategy :=
  if u.Type_ = RollingUpdateStatefulSetStrategyType then
    match u.RollingUpdate with
    | some ru => { u with RollingUpdate := some (rollingD gate ru) }
    | none => u
  else u

/-- The strategy after lines 33-53. -/
def strategyD (gate : FeatureGate) (u : StatefulSetUpdateStrategy) : StatefulSetUpdateStrategy :=
  rollingBlockD gate (typeD u)

/-! ## Theorems -/

theorem len_eq_zero_iff (s : String) : len s = 0 ↔ s = "" := by
  obtain ⟨cs⟩ := s
  cases cs with
  | nil => simp [len, String.utf8ByteSize, String.utf8ByteSize.go]
  | cons c cs =>
    have h := Char.utf8Size_pos c
    simp [len, String.utf8ByteSize, String.utf8ByteSize.go]
    constructor
    · intro h'; omega
    · intro h'; exact absurd (congrArg String.data h') (by simp)

theorem SetDefaults_eq_steps (gate : FeatureGate) (obj : XStatefulSet) :
    SetDefaults_XStatefulSet gate obj =
      { obj with Spec :=
          stepHistory (stepReplicas (stepRetention (stepRolling gate
            (stepType (stepPolicy obj.Spec))))) } := rfl

theorem RollingUpdate_ne_empty : RollingUpdateStatefulSetStrategyType ≠ "" := by decide

theorem OrderedReady_ne_empty : OrderedReadyPodManagement ≠ "" := by decide

theorem Retain_ne_empty : RetainPersistentVolumeClaimRetentionPolicyType ≠ "" := by decide

theorem stepType_eq (spec : XStatefulSetSpec) :
    stepType spec = { spec with UpdateStrategy := typeD spec.UpdateStrategy } := by
  unfold stepType typeD
  by_cases h : spec.UpdateStrategy.Type_ = "" <;> simp [h]

theorem stepRolling_eq (gate : FeatureGate) (spec : XStatefulSetSpec) :
    stepRolling gate spec =
      { spec with UpdateStrategy := rollingBlockD gate spec.UpdateStrategy } := by
  obtain ⟨rep, sel, tpl, vct, svc, pmp, ⟨ty, ru⟩, rhl, mrs, pol, ord⟩ := spec
  unfold stepRolling rollingBlockD
  by_cases h : ty = RollingUpdateStatefulSetStrategyType <;> cases ru <;> simp [h]

theorem stepPolicy_eq (spec : XStatefulSetSpec) :
    stepPolicy spec =
      { spec with PodManagementPolicy :=
          if spec.PodManagementPolicy = "" then OrderedReadyPodManagement
          else spec.PodManagementPolicy } := by
  unfold stepPolicy
  by_cases h : spec.PodManagementPolicy = "" <;> simp [h, len_eq_zero_iff]

theorem stepReplicas_eq (spec : XStatefulSetSpec) :
    stepReplicas spec = { spec with Replicas := some (spec.Replicas.getD 1) } := by
  obtain ⟨rep, sel, tpl, vct, svc, pmp, us, rhl, mrs, pol, ord⟩ := spec
  unfold stepReplicas
  cases rep <;> simp

theorem stepHistory_eq (spec : XStatefulSetSpec) :
    stepHistory spec =
      { spec with RevisionHistoryLimit := some (spec.RevisionHistoryLimit.getD 10) } := by
  obtain ⟨rep, sel, tpl, vct, svc, pmp, us, rhl, mrs, pol, ord⟩ := spec
  unfold stepHistory
  cases rhl <;> simp

theorem SetDefaults_spec (gate : FeatureGate) (obj : XStatefulSet) :
    (SetDefaults_XStatefulSet gate obj).Spec =
      { obj.Spec with
        PodManagementPolicy :=
          if obj.Spec.PodManagementPolicy = "" then OrderedReadyPodManagement
          else obj.Spec.PodManagementPolicy
        UpdateStrategy := strategyD gate obj.Spec.UpdateStrategy
        PersistentVolumeClaimRetentionPolicy :=
          some (retentionD obj.Spec.PersistentVolumeClaimRetentionPolicy)
        Replicas := some (obj.Spec.Replicas.getD 1)
        RevisionHistoryLimit := some (obj.Spec.RevisionHistoryLimit.getD 10) } := by
  rw [SetDefaults_eq_steps]
  simp only [stepHistory_eq, stepReplicas_eq, stepRetention, stepRolling_eq, stepType_eq,
    stepPolicy_eq, strategyD]

theorem strategyD_idem (gate : FeatureGate) (u : StatefulSetUpdateStrategy) :
    strategyD gate (strategyD gate u) = strategyD gate u := by
  obtain ⟨ty, ru⟩ := u
  unfold strategyD rollingBlockD typeD rollingD
  by_cases h1 : ty = "" <;> by_cases h2 : ty = RollingUpdateStatefulSetStrategyType <;>
    cases hg : gate.Enabled MaxUnavailableStatefulSet <;>
    rcases ru with _ | ⟨_ | p, _ | m⟩ <;>
    simp [h1, h2, hg, RollingUpdate_ne_empty]

theorem retentionD_idem (p : Option StatefulSetPersistentVolumeClaimRetentionPolicy) :
    retentionD (some (retentionD p)) = retentionD p := by
  unfold retentionD
  rcases p with _ | ⟨d, s⟩
  · simp [len_eq_zero_iff, Retain_ne_empty]
  · by_cases h1 : d = "" <;> by_cases h2 : s = "" <;>
      simp [h1, h2, len_eq_zero_iff, Retain_ne_empty]

/-- C1: applying `SetDefaults_XStatefulSet` twice, with the feature gate held
fixed, yields exactly the object obtained by applying it once. -/
theorem C1_SetDefaults_idempotent (gate : FeatureGate) (obj : XStatefulSet) :
    SetDefaults_XStatefulSet gate (SetDefaults_XStatefulSet gate obj)
      = SetDefaults_XStatefulSet gate obj := by
  have h1 : ∀ o : XStatefulSet, SetDefaults_XStatefulSet gate o =
      { o with Spec := (SetDefaults_XStatefulSet gate o).Spec } := fun o => rfl
  rw [h1 (SetDefaults_XStatefulSet gate obj), SetDefaults_spec gate (SetDefaults_XStatefulSet gate obj)]
  rw [h1 obj, SetDefaults_spec gate obj]
  by_cases h : obj.Spec.PodManagementPolicy = "" <;>
    simp [h, strategyD_idem, retentionD_idem, OrderedReady_ne_empty]

theorem SetDefaults_strategy (gate : FeatureGate) (obj : XStatefulSet) :
    (SetDefaults_XStatefulSet gate obj).Spec.UpdateStrategy =
      strategyD gate obj.Spec.UpdateStrategy := by
  rw [SetDefaults_spec]

theorem strategyD_type (gate : FeatureGate) (u : StatefulSetUpdateStrategy) :
    (strategyD gate u).Type_ =
      if u.Type_ = "" then RollingUpdateStatefulSetStrategyType else u.Type_ := by
  obtain ⟨ty, ru⟩ := u
  unfold strategyD rollingBlockD typeD
  by_cases h1 : ty = "" <;> by_cases h2 : ty = RollingUpdateStatefulSetStrategyType <;>
    rcases ru with _ | ru <;> simp [h1, h2, RollingUpdate_ne_empty]

/-- C2: on an object whose replicas, management policy, update strategy,
retention policy and revision-history limit are all unset, defaulting yields
replicas 1, `OrderedReady`, strategy type `RollingUpdate`, revision-history
limit 10 and the retention policy `Retain`/`Retain`. -/
theorem C2_defaults_of_unset (gate : FeatureGate) (obj : XStatefulSet)
    (hrep : obj.Spec.Replicas = none)
    (hpmp : obj.Spec.PodManagementPolicy = "")
    (hus : obj.Spec.UpdateStrategy = { Type_ := "", RollingUpdate := none })
    (hpol : obj.Spec.PersistentVolumeClaimRetentionPolicy = none)
    (hrhl : obj.Spec.RevisionHistoryLimit = none) :
    (SetDefaults_XStatefulSet gate obj).Spec.Replicas = some 1 ∧
    (SetDefaults_XStatefulSet gate obj).Spec.PodManagementPolicy = OrderedReadyPodManagement ∧
    (SetDefaults_XStatefulSet gate obj).Spec.UpdateStrategy.Type_
      = RollingUpdateStatefulSetStrategyType ∧
    (SetDefaults_XStatefulSet gate obj).Spec.RevisionHistoryLimit = some 10 ∧
    (SetDefaults_XStatefulSet gate obj).Spec.PersistentVolumeClaimRetentionPolicy
      = some { WhenDeleted := RetainPersistentVolumeClaimRetentionPolicyType
               WhenScaled := RetainPersistentVolumeClaimRetentionPolicyType } := by
  rw [SetDefaults_spec]
  refine ⟨?_, ?_, ?_, ?_, ?_⟩
  · simp [hrep]
  · simp [hpmp]
  · simp [strategyD_type, hus]
  · simp [hrhl]
  · simp [hpol, retentionD, len_eq_zero_iff, Retain_ne_empty]

theorem C2_defaults_of_unset_witness :
    minimalXsts.Spec.Replicas = none ∧
    (SetDefaults_XStatefulSet (DefaultFeatureGate []) minimalXsts).Spec.Replicas = some 1 ∧
    (SetDefaults_XStatefulSet (DefaultFeatureGate []) minimalXsts).Spec.PodManagementPolicy
      = OrderedReadyPodManagement ∧
    (SetDefaults_XStatefulSet (DefaultFeatureGate []) minimalXsts).Spec.UpdateStrategy.Type_
      = RollingUpdateStatefulSetStrategyType ∧
    (SetDefaults_XStatefulSet (DefaultFeatureGate []) minimalXsts).Spec.RevisionHistoryLimit
      = some 10 ∧
    (SetDefaults_XStatefulSet (DefaultFeatureGate [])
        minimalXsts).Spec.PersistentVolumeClaimRetentionPolicy
      = some { WhenDeleted := RetainPersistentVolumeClaimRetentionPolicyType
               WhenScaled := RetainPersistentVolumeClaimRetentionPolicyType } :=
  ⟨rfl, C2_defaults_of_unset (DefaultFeatureGate []) minimalXsts rfl rfl rfl rfl rfl⟩

theorem strategyD_cases (gate : FeatureGate) (ty : String)
    (ru : Option RollingUpdateStatefulSetStrategy) :
    strategyD gate { Type_ := ty, RollingUpdate := ru } =
      if ty = "" then
        { Type_ := RollingUpdateStatefulSetStrategyType
          RollingUpdate :=
            some (rollingD gate (ru.getD { Partition := none, MaxUnavailable := none })) }
      else if ty = RollingUpdateStatefulSetStrategyType then
        { Type_ := ty, RollingUpdate := ru.map (rollingD gate) }
      else { Type_ := ty, RollingUpdate := ru } := by
  unfold strategyD rollingBlockD typeD
  by_cases h1 : ty = "" <;> by_cases h2 : ty = RollingUpdateStatefulSetStrategyType <;>
    rcases ru with _ | ru <;> simp [h1, h2, RollingUpdate_ne_empty]

theorem rollingD_partition (gate : FeatureGate) (ru : RollingUpdateStatefulSetStrategy) :
    (rollingD gate ru).Partition = some (ru.Partition.getD 0) := by
  obtain ⟨p, m⟩ := ru
  unfold rollingD
  cases hg : gate.Enabled MaxUnavailableStatefulSet <;> cases p <;> cases m <;> simp

theorem rollingD_maxUnavailable (gate : FeatureGate) (ru : RollingUpdateStatefulSetStrategy) :
    (rollingD gate ru).MaxUnavailable =
      if gate.Enabled MaxUnavailableStatefulSet = true then
        some (ru.MaxUnavailable.getD (FromInt32 1))
      else ru.MaxUnavailable := by
  obtain ⟨p, m⟩ := ru
  unfold rollingD
  cases hg : gate.Enabled MaxUnavailableStatefulSet <;> cases p <;> cases m <;> simp

/-- C3 (as stated, refuted): on the object that names the strategy type
`RollingUpdate` explicitly and leaves `rollingUpdate` nil, the type after
defaulting is `RollingUpdate` while `rollingUpdate` is still nil. -/
theorem C3_counterexample :
    ¬ ((SetDefaults_XStatefulSet (DefaultFeatureGate []) explicitRollingXsts).Spec.UpdateStrategy.Type_
          = RollingUpdateStatefulSetStrategyType →
        ∃ ru, (SetDefaults_XStatefulSet (DefaultFeatureGate [])
                explicitRollingXsts).Spec.UpdateStrategy.RollingUpdate = some ru ∧
              ru.Partition ≠ none) := by
  decide

/-- C3 (amended): after defaulting, if the strategy type is `RollingUpdate` and
the input either had an empty type or a non-nil `rollingUpdate`, then
`rollingUpdate` is non-nil and its partition is set, to the client's value or
to 0 when the client supplied none; an input that names `RollingUpdate`
explicitly with a nil `rollingUpdate` keeps `rollingUpdate` nil. -/
theorem C3_rollingUpdate_partition_amended (gate : FeatureGate) (obj : XStatefulSet) :
    ((SetDefaults_XStatefulSet gate obj).Spec.UpdateStrategy.Type_
        = RollingUpdateStatefulSetStrategyType →
      (obj.Spec.UpdateStrategy.Type_ = "" ∨ obj.Spec.UpdateStrategy.RollingUpdate ≠ none) →
      ∃ ru, (SetDefaults_XStatefulSet gate obj).Spec.UpdateStrategy.RollingUpdate = some ru ∧
        ru.Partition = some ((partitionOf obj).getD 0)) ∧
    (obj.Spec.UpdateStrategy.Type_ = RollingUpdateStatefulSetStrategyType →
      obj.Spec.UpdateStrategy.RollingUpdate = none →
      (SetDefaults_XStatefulSet gate obj).Spec.UpdateStrategy.RollingUpdate = none) := by
  obtain ⟨tm, om, ⟨rep, sel, tpl, vct, svc, pmp, ⟨ty, ru⟩, rhl, mrs, pol, ord⟩, st⟩ := obj
  simp only [SetDefaults_strategy, strategyD_cases, partitionOf]
  constructor
  · intro hty hin
    by_cases h1 : ty = ""
    · rcases ru with _ | ru <;> simp [h1, rollingD_partition]
    · by_cases h2 : ty = RollingUpdateStatefulSetStrategyType
      · rcases ru with _ | ru
        · simp [h1] at hin
        · simp [h1, h2, RollingUpdate_ne_empty, rollingD_partition]
      · simp [h1, h2] at hty
  · intro hty hru
    have hty' : ty = RollingUpdateStatefulSetStrategyType := hty
    have hru' : ru = none := hru
    simp [hty', hru', RollingUpdate_ne_empty]

theorem C3_rollingUpdate_partition_amended_witness :
    (∃ ru, (SetDefaults_XStatefulSet (DefaultFeatureGate []) fullXsts).Spec.UpdateStrategy.RollingUpdate
        = some ru ∧ ru.Partition = some 2) ∧
    (SetDefaults_XStatefulSet (DefaultFeatureGate [])
      explicitRollingXsts).Spec.UpdateStrategy.RollingUpdate = none :=
  ⟨(C3_rollingUpdate_partition_amended (DefaultFeatureGate []) fullXsts).1 (by decide)
      (Or.inr (by decide)),
   (C3_rollingUpdate_partition_amended (DefaultFeatureGate []) explicitRollingXsts).2 rfl rfl⟩

theorem retentionD_some (p : StatefulSetPersistentVolumeClaimRetentionPolicy) :
    retentionD (some p) =
      { WhenDeleted :=
          if p.WhenDeleted = "" then RetainPersistentVolumeClaimRetentionPolicyType
          else p.WhenDeleted
        WhenScaled :=
          if p.WhenScaled = "" then RetainPersistentVolumeClaimRetentionPolicyType
          else p.WhenScaled } := by
  obtain ⟨d, s⟩ := p
  unfold retentionD
  by_cases h1 : d = "" <;> by_cases h2 : s = "" <;> simp [h1, h2, len_eq_zero_iff]

theorem maxUnavailableOf_SetDefaults (gate : FeatureGate) (obj : XStatefulSet) :
    maxUnavailableOf (SetDefaults_XStatefulSet gate obj) =
      match (strategyD gate obj.Spec.UpdateStrategy).RollingUpdate with
      | none => none
      | some ru => ru.MaxUnavailable := by
  unfold maxUnavailableOf
  rw [SetDefaults_strategy]

theorem partitionOf_SetDefaults (gate : FeatureGate) (obj : XStatefulSet) :
    partitionOf (SetDefaults_XStatefulSet gate obj) =
      match (strategyD gate obj.Spec.UpdateStrategy).RollingUpdate with
      | none => none
      | some ru => ru.Partition := by
  unfold partitionOf
  rw [SetDefaults_strategy]

/-- C4: every defaultable field that is set before defaulting has the same
value afterwards (replicas, management policy, strategy type, partition,
maxUnavailable, retention `whenDeleted` and `whenScaled`, revision-history
limit); a retention policy that sets only `whenDeleted` keeps it and gets
`whenScaled = Retain`. -/
theorem C4_set_fields_preserved (gate : FeatureGate) (obj : XStatefulSet) :
    (∀ r, obj.Spec.Replicas = some r →
      (SetDefaults_XStatefulSet gate obj).Spec.Replicas = some r) ∧
    (obj.Spec.PodManagementPolicy ≠ "" →
      (SetDefaults_XStatefulSet gate obj).Spec.PodManagementPolicy
        = obj.Spec.PodManagementPolicy) ∧
    (obj.Spec.UpdateStrategy.Type_ ≠ "" →
      (SetDefaults_XStatefulSet gate obj).Spec.UpdateStrategy.Type_
        = obj.Spec.UpdateStrategy.Type_) ∧
    (∀ p, partitionOf obj = some p →
      partitionOf (SetDefaults_XStatefulSet gate obj) = some p) ∧
    (∀ m, maxUnavailableOf obj = some m →
      maxUnavailableOf (SetDefaults_XStatefulSet gate obj) = some m) ∧
    (∀ pol, obj.Spec.PersistentVolumeClaimRetentionPolicy = some pol →
      pol.WhenDeleted ≠ "" →
      ∃ pol', (SetDefaults_XStatefulSet gate obj).Spec.PersistentVolumeClaimRetentionPolicy
          = some pol' ∧ pol'.WhenDeleted = pol.WhenDeleted) ∧
    (∀ pol, obj.Spec.PersistentVolumeClaimRetentionPolicy = some pol →
      pol.WhenScaled ≠ "" →
      ∃ pol', (SetDefaults_XStatefulSet gate obj).Spec.PersistentVolumeClaimRetentionPolicy
          = some pol' ∧ pol'.WhenScaled = pol.WhenScaled) ∧
    (∀ h, obj.Spec.RevisionHistoryLimit = some h →
      (SetDefaults_XStatefulSet gate obj).Spec.RevisionHistoryLimit = some h) ∧
    (∀ pol, obj.Spec.PersistentVolumeClaimRetentionPolicy = some pol →
      pol.WhenDeleted ≠ "" → pol.WhenScaled = "" →
      (SetDefaults_XStatefulSet gate obj).Spec.PersistentVolumeClaimRetentionPolicy
        = some { WhenDeleted := pol.WhenDeleted
                 WhenScaled := RetainPersistentVolumeClaimRetentionPolicyType }) := by
  refine ⟨?_, ?_, ?_, ?_, ?_, ?_, ?_, ?_, ?_⟩
  · intro r h
    rw [SetDefaults_spec]; simp [h]
  · intro h
    rw [SetDefaults_spec]; simp [h]
  · intro h
    rw [SetDefaults_strategy, strategyD_type]; simp [h]
  · intro p h
    rw [partitionOf_SetDefaults]
    obtain ⟨tm, om, ⟨rep, sel, tpl, vct, svc, pmp, ⟨ty, ru⟩, rhl, mrs, pol, ord⟩, st⟩ := obj
    rcases ru with _ | ru
    · simp [partitionOf] at h
    · have h' : ru.Partition = some p := h
      simp only [strategyD_cases]
      by_cases h1 : ty = "" <;> by_cases h2 : ty = RollingUpdateStatefulSetStrategyType <;>
        simp [h1, h2, h', rollingD_partition]
  · intro m h
    rw [maxUnavailableOf_SetDefaults]
    obtain ⟨tm, om, ⟨rep, sel, tpl, vct, svc, pmp, ⟨ty, ru⟩, rhl, mrs, pol, ord⟩, st⟩ := obj
    rcases ru with _ | ru
    · simp [maxUnavailableOf] at h
    · have h' : ru.MaxUnavailable = some m := h
      simp only [strategyD_cases]
      by_cases h1 : ty = "" <;> by_cases h2 : ty = RollingUpdateStatefulSetStrategyType <;>
        cases hg : gate.Enabled MaxUnavailableStatefulSet <;>
        simp [h1, h2, h', hg, rollingD_maxUnavailable]
  · intro pol h hd
    rw [SetDefaults_spec]
    exact ⟨_, rfl, by simp [h, retentionD_some, hd]⟩
  · intro pol h hs
    rw [SetDefaults_spec]
    exact ⟨_, rfl, by simp [h, retentionD_some, hs]⟩
  · intro r h
    rw [SetDefaults_spec]; simp [h]
  · intro pol h hd hs
    rw [SetDefaults_spec]
    simp [h, retentionD_some, hd, hs]

theorem C4_set_fields_preserved_witness :
    (SetDefaults_XStatefulSet (DefaultFeatureGate []) explicitXsts).Spec.Replicas = some 3 ∧
    (SetDefaults_XStatefulSet (DefaultFeatureGate []) explicitXsts).Spec.PodManagementPolicy
      = ParallelPodManagement ∧
    (SetDefaults_XStatefulSet (DefaultFeatureGate []) fullXsts).Spec.UpdateStrategy.Type_
      = RollingUpdateStatefulSetStrategyType ∧
    partitionOf (SetDefaults_XStatefulSet (DefaultFeatureGate []) fullXsts) = some 2 ∧
    maxUnavailableOf (SetDefaults_XStatefulSet (DefaultFeatureGate []) fullXsts)
      = some (FromInt32 4) ∧
    (SetDefaults_XStatefulSet (DefaultFeatureGate []) fullXsts).Spec.RevisionHistoryLimit
      = some 7 ∧
    (SetDefaults_XStatefulSet (DefaultFeatureGate [])
        deleteOnlyXsts).Spec.PersistentVolumeClaimRetentionPolicy
      = some { WhenDeleted := DeletePersistentVolumeClaimRetentionPolicyType
               WhenScaled := RetainPersistentVolumeClaimRetentionPolicyType } :=
  ⟨(C4_set_fields_preserved (DefaultFeatureGate []) explicitXsts).1 3 rfl,
   (C4_set_fields_preserved (DefaultFeatureGate []) explicitXsts).2.1 (by decide),
   (C4_set_fields_preserved (DefaultFeatureGate []) fullXsts).2.2.1 (by decide),
   (C4_set_fields_preserved (DefaultFeatureGate []) fullXsts).2.2.2.1 2 rfl,
   (C4_set_fields_preserved (DefaultFeatureGate []) fullXsts).2.2.2.2.1 (FromInt32 4) rfl,
   (C4_set_fields_preserved (DefaultFeatureGate []) fullXsts).2.2.2.2.2.2.2.1 7 rfl,
   (C4_set_fields_preserved (DefaultFeatureGate []) deleteOnlyXsts).2.2.2.2.2.2.2.2
     { WhenDeleted := DeletePersistentVolumeClaimRetentionPolicyType, WhenScaled := "" }
     rfl (by decide) rfl⟩

/-- C5: whatever was set beforehand, after defaulting replicas is non-nil, the
management policy is non-empty, the strategy type is non-empty, the
revision-history limit is non-nil and the retention policy is non-nil, and the
defaulter returns the defaulted object with no error. -/
theorem C5_defaulted_fields_set (gate : FeatureGate) (obj : XStatefulSet) :
    (SetDefaults_XStatefulSet gate obj).Spec.Replicas ≠ none ∧
    (SetDefaults_XStatefulSet gate obj).Spec.PodManagementPolicy ≠ "" ∧
    (SetDefaults_XStatefulSet gate obj).Spec.UpdateStrategy.Type_ ≠ "" ∧
    (SetDefaults_XStatefulSet gate obj).Spec.RevisionHistoryLimit ≠ none ∧
    (SetDefaults_XStatefulSet gate obj).Spec.PersistentVolumeClaimRetentionPolicy ≠ none ∧
    XStatefulSetDefaulter_Default gate (RuntimeObject.xstatefulset obj)
      = (RuntimeObject.xstatefulset (SetDefaults_XStatefulSet gate obj), none) := by
  refine ⟨?_, ?_, ?_, ?_, ?_, rfl⟩
  · rw [SetDefaults_spec]; simp
  · rw [SetDefaults_spec]
    by_cases h : obj.Spec.PodManagementPolicy = "" <;> simp [h, OrderedReady_ne_empty]
  · rw [SetDefaults_strategy, strategyD_type]
    by_cases h : obj.Spec.UpdateStrategy.Type_ = "" <;> simp [h, RollingUpdate_ne_empty]
  · rw [SetDefaults_spec]; simp
  · rw [SetDefaults_spec]; simp

/-- C6: when the strategy type is empty, after defaulting the type is
`RollingUpdate`, `rollingUpdate` is non-nil, and its partition is 0 if it was
unset and unchanged if it was set. -/
theorem C6_empty_type_defaults (gate : FeatureGate) (obj : XStatefulSet)
    (hty : obj.Spec.UpdateStrategy.Type_ = "") :
    (SetDefaults_XStatefulSet gate obj).Spec.UpdateStrategy.Type_
      = RollingUpdateStatefulSetStrategyType ∧
    ∃ ru, (SetDefaults_XStatefulSet gate obj).Spec.UpdateStrategy.RollingUpdate = some ru ∧
      (partitionOf obj = none → ru.Partition = some 0) ∧
      (∀ p, partitionOf obj = some p → ru.Partition = some p) := by
  obtain ⟨tm, om, ⟨rep, sel, tpl, vct, svc, pmp, ⟨ty, ru⟩, rhl, mrs, pol, ord⟩, st⟩ := obj
  have hty' : ty = "" := hty
  subst hty'
  simp only [SetDefaults_strategy, strategyD_cases, partitionOf, ↓reduceIte]
  refine ⟨trivial, _, rfl, ?_, ?_⟩
  · intro h
    rcases ru with _ | ru
    · simp [rollingD_partition]
    · have h' : ru.Partition = none := h
      simp [rollingD_partition, h']
  · intro p h
    rcases ru with _ | ru
    · simp at h
    · have h' : ru.Partition = some p := h
      simp [rollingD_partition, h']

theorem C6_empty_type_defaults_witness :
    minimalXsts.Spec.UpdateStrategy.Type_ = "" ∧
    (SetDefaults_XStatefulSet (DefaultFeatureGate []) minimalXsts).Spec.UpdateStrategy.Type_
      = RollingUpdateStatefulSetStrategyType ∧
    ∃ ru, (SetDefaults_XStatefulSet (DefaultFeatureGate [])
        minimalXsts).Spec.UpdateStrategy.RollingUpdate = some ru ∧
      (partitionOf minimalXsts = none → ru.Partition = some 0) ∧
      (∀ p, partitionOf minimalXsts = some p → ru.Partition = some p) :=
  ⟨rfl, C6_empty_type_defaults (DefaultFeatureGate []) minimalXsts rfl⟩

theorem maxUnavailableOf_SetDefaults_char (gate : FeatureGate) (obj : XStatefulSet) :
    maxUnavailableOf (SetDefaults_XStatefulSet gate obj) =
      if gate.Enabled MaxUnavailableStatefulSet = true ∧
          (SetDefaults_XStatefulSet gate obj).Spec.UpdateStrategy.Type_
            = RollingUpdateStatefulSetStrategyType ∧
          (SetDefaults_XStatefulSet gate obj).Spec.UpdateStrategy.RollingUpdate ≠ none ∧
          maxUnavailableOf obj = none
      then some (FromInt32 1) else maxUnavailableOf obj := by
  obtain ⟨tm, om, ⟨rep, sel, tpl, vct, svc, pmp, ⟨ty, ru⟩, rhl, mrs, pol, ord⟩, st⟩ := obj
  simp only [maxUnavailableOf, SetDefaults_strategy, strategyD_cases]
  by_cases h1 : ty = "" <;> by_cases h2 : ty = RollingUpdateStatefulSetStrategyType <;>
    cases hg : gate.Enabled MaxUnavailableStatefulSet <;>
    rcases ru with _ | ⟨p, _ | m⟩ <;>
    simp [h1, h2, hg, rollingD_maxUnavailable, RollingUpdate_ne_empty]

theorem FromInt32_one_ne_none : (some (FromInt32 1) : Option IntOrString) ≠ none := by
  simp

/-- C7: defaulting sets `rollingUpdate.maxUnavailable` from unset to the
integer 1 exactly when the gate is enabled, the defaulted strategy type is
`RollingUpdate`, `rollingUpdate` is non-nil and `maxUnavailable` was unset; in
every other case, and always when the gate is disabled, `maxUnavailable` is
what it was. -/
theorem C7_maxUnavailable_default (gate : FeatureGate) (obj : XStatefulSet) :
    ((maxUnavailableOf obj = none ∧
        maxUnavailableOf (SetDefaults_XStatefulSet gate obj) = some (FromInt32 1)) ↔
      (gate.Enabled MaxUnavailableStatefulSet = true ∧
        (SetDefaults_XStatefulSet gate obj).Spec.UpdateStrategy.Type_
          = RollingUpdateStatefulSetStrategyType ∧
        (SetDefaults_XStatefulSet gate obj).Spec.UpdateStrategy.RollingUpdate ≠ none ∧
        maxUnavailableOf obj = none)) ∧
    (¬ (gate.Enabled MaxUnavailableStatefulSet = true ∧
        (SetDefaults_XStatefulSet gate obj).Spec.UpdateStrategy.Type_
          = RollingUpdateStatefulSetStrategyType ∧
        (SetDefaults_XStatefulSet gate obj).Spec.UpdateStrategy.RollingUpdate ≠ none ∧
        maxUnavailableOf obj = none) →
      maxUnavailableOf (SetDefaults_XStatefulSet gate obj) = maxUnavailableOf obj) ∧
    (gate.Enabled MaxUnavailableStatefulSet = false →
      maxUnavailableOf (SetDefaults_XStatefulSet gate obj) = maxUnavailableOf obj) := by
  have hc := maxUnavailableOf_SetDefaults_char gate obj
  refine ⟨⟨?_, ?_⟩, ?_, ?_⟩
  · rintro ⟨hin, hout⟩
    by_contra hn
    rw [if_neg hn, hin] at hc
    rw [hc] at hout
    exact absurd hout.symm FromInt32_one_ne_none
  · intro h
    rw [if_pos h] at hc
    exact ⟨h.2.2.2, hc⟩
  · intro hn
    rw [if_neg hn] at hc
    exact hc
  · intro hg
    rw [if_neg (by simp [hg])] at hc
    exact hc

theorem C7_maxUnavailable_default_witness :
    maxUnavailableOf (SetDefaults_XStatefulSet (DefaultFeatureGate []) minimalXsts)
      = some (FromInt32 1) ∧
    maxUnavailableOf
        (SetDefaults_XStatefulSet (DefaultFeatureGate [(MaxUnavailableStatefulSet, false)])
          minimalXsts)
      = maxUnavailableOf minimalXsts :=
  ⟨((C7_maxUnavailable_default (DefaultFeatureGate []) minimalXsts).1.mpr
      ⟨by decide, by decide, by decide, by decide⟩).2,
   (C7_maxUnavailable_default (DefaultFeatureGate [(MaxUnavailableStatefulSet, false)])
      minimalXsts).2.2 (by decide)⟩

/-- C8 (as stated, refuted): the registered default of the gate is not
"disabled", and with no flag override defaulting does not leave
`maxUnavailable` unset on the minimal object, which did not specify it. -/
theorem C8_counterexample :
    ¬ ((DefaultFeatureGate []).Enabled MaxUnavailableStatefulSet = false) ∧
    ¬ (maxUnavailableOf minimalXsts = none →
        maxUnavailableOf (SetDefaults_XStatefulSet (DefaultFeatureGate []) minimalXsts)
          = none) := by
  decide

/-- C8 (amended): `init` registers the gate with default state enabled, so
with no flag override the gate is on and defaulting sets `maxUnavailable` to 1
on every object that did not specify it and whose defaulted strategy is
`RollingUpdate` with a non-nil `rollingUpdate`; when the flag is overridden to
false, `maxUnavailable` stays unset. -/
theorem C8_gate_default_enabled_amended :
    (∀ gate : FeatureGate,
      ((init gate).known.lookup MaxUnavailableStatefulSet).map FeatureSpec.Default
        = some true) ∧
    (DefaultFeatureGate []).Enabled MaxUnavailableStatefulSet = true ∧
    (∀ obj : XStatefulSet, maxUnavailableOf obj = none →
      (SetDefaults_XStatefulSet (DefaultFeatureGate []) obj).Spec.UpdateStrategy.Type_
        = RollingUpdateStatefulSetStrategyType →
      (SetDefaults_XStatefulSet (DefaultFeatureGate []) obj).Spec.UpdateStrategy.RollingUpdate
        ≠ none →
      maxUnavailableOf (SetDefaults_XStatefulSet (DefaultFeatureGate []) obj)
        = some (FromInt32 1)) ∧
    (∀ (overrides : List (String × Bool)) (obj : XStatefulSet),
      overrides.lookup MaxUnavailableStatefulSet = some false →
      maxUnavailableOf obj = none →
      maxUnavailableOf (SetDefaults_XStatefulSet (DefaultFeatureGate overrides) obj)
        = none) := by
  have hon : (DefaultFeatureGate []).Enabled MaxUnavailableStatefulSet = true := by decide
  refine ⟨?_, hon, ?_, ?_⟩
  · intro gate
    simp [init, FeatureGate.Add, List.lookup]
  · intro obj hin hty hru
    rw [maxUnavailableOf_SetDefaults_char, if_pos ⟨hon, hty, hru, hin⟩]
  · intro overrides obj hov hin
    have hoff : (DefaultFeatureGate overrides).Enabled MaxUnavailableStatefulSet = false := by
      simp [DefaultFeatureGate, init, FeatureGate.Add, FeatureGate.Enabled, hov]
    rw [maxUnavailableOf_SetDefaults_char, if_neg (by simp [hoff]), hin]

theorem C8_gate_default_enabled_amended_witness :
    maxUnavailableOf (SetDefaults_XStatefulSet (DefaultFeatureGate []) minimalXsts)
      = some (FromInt32 1) ∧
    maxUnavailableOf
        (SetDefaults_XStatefulSet (DefaultFeatureGate [(MaxUnavailableStatefulSet, false)])
          minimalXsts)
      = none :=
  ⟨C8_gate_default_enabled_amended.2.2.1 minimalXsts (by decide) (by decide) (by decide),
   C8_gate_default_enabled_amended.2.2.2 [(MaxUnavailableStatefulSet, false)] minimalXsts
     (by decide) (by decide)⟩

theorem updateCalls_append (t u : List Event) :
    updateCalls (t ++ u) = updateCalls t ++ updateCalls u := by
  induction t with
  | nil => rfl
  | cons e t ih => cases e <;> simp [updateCalls, ih]

theorem updateAttempt_calls {σ : Type} (st : Store σ) (status : XStatefulSetStatus)
    (s : UpdaterState σ) :
    updateCalls (updateAttempt st status s).1.trace =
      updateCalls s.trace ++
        [({ s.set with Status := status }, (updateAttempt st status s).2)] := by
  unfold updateAttempt
  cases h : (st.UpdateStatus s.store ({ s.set with Status := status } : XStatefulSet).ObjectMeta.Namespace
      { s.set with Status := status }).2 with
  | none => simp [h, updateCalls_append, updateCalls]
  | some e =>
    simp only [h]
    split <;> simp [updateCalls_append, updateCalls]

theorem ExponentialBackoff_succ {α : Type} (n : Nat) (condition : α → α × Bool × Option Error)
    (s : α) :
    ExponentialBackoff (n + 1) condition s =
      match (condition s).2.2 with
      | some err => ((condition s).1, some (WaitError.Cond err))
      | none =>
        if (condition s).2.1 then ((condition s).1, none)
        else ExponentialBackoff n condition (condition s).1 := by
  cases n with
  | zero => simp [ExponentialBackoff]
  | succ n => simp [ExponentialBackoff]

theorem backoff_calls {σ : Type} (st : Store σ) (status : XStatefulSetStatus) (n : Nat)
    (p : UpdaterState σ × Option Error) :
    ∃ cs : List (XStatefulSet × Option Error),
      updateCalls
          (ExponentialBackoff n (onErrorCondition IsConflict (updateAttempt st status))
            p).1.1.trace
        = updateCalls p.1.trace ++ cs ∧
      cs.length ≤ n ∧
      (∀ i c, cs[i]? = some c →
        (i + 1 < cs.length → ∃ e, c.2 = some e ∧ IsConflict e = true) ∧
        (i + 1 = cs.length →
          onErrorResult
              (ExponentialBackoff n (onErrorCondition IsConflict (updateAttempt st status)) p)
            = lastCallResult (lastErrBefore p.2 cs i) c.2 ∧
          (∀ e, c.2 = some e → IsConflict e = true → cs.length = n))) ∧
      (cs = [] → n = 0 ∧
        onErrorResult
            (ExponentialBackoff n (onErrorCondition IsConflict (updateAttempt st status)) p)
          = p.2) := by
  induction n generalizing p with
  | zero =>
    refine ⟨[], by simp [ExponentialBackoff], by simp, ?_, ?_⟩
    · intro i c h
      simp at h
    · intro _
      simp [ExponentialBackoff, onErrorResult, Interrupted]
  | succ n ih =>
    have ha := updateAttempt_calls st status p.1
    rw [ExponentialBackoff_succ]
    rcases hres : updateAttempt st status p.1 with ⟨s', err⟩
    rw [hres] at ha
    cases err with
    | none =>
      have hc : onErrorCondition IsConflict (updateAttempt st status) p
          = ((s', p.2), true, none) := by
        simp [onErrorCondition, hres]
      simp only [hc, ↓reduceIte]
      refine ⟨[({ p.1.set with Status := status }, none)], ha, by simp, ?_, by simp⟩
      intro i c h
      cases i with
      | zero =>
        simp at h
        subst h
        simp [onErrorResult, lastCallResult]
      | succ i => simp at h
    | some e =>
      cases hcf : IsConflict e with
      | true =>
        have hc : onErrorCondition IsConflict (updateAttempt st status) p
            = ((s', some e), false, none) := by
          simp [onErrorCondition, hres, hcf]
        simp only [hc, Bool.false_eq_true, ↓reduceIte]
        obtain ⟨cs, h1, h2, h3, h4⟩ := ih (s', some e)
        refine ⟨({ p.1.set with Status := status }, some e) :: cs, ?_, by simp; omega, ?_,
          by simp⟩
        · rw [h1]
          simp only at ha
          rw [ha]
          simp
        · intro i c h
          cases i with
          | zero =>
            simp at h
            subst h
            refine ⟨fun _ => ⟨e, rfl, hcf⟩, ?_⟩
            intro hlen
            have hnil : cs = [] := by
              cases cs with
              | nil => rfl
              | cons a t => simp at hlen
            obtain ⟨hn, hr⟩ := h4 hnil
            simp only at hr
            refine ⟨by simp [hr, lastCallResult, hcf], ?_⟩
            intro _ _ _
            simp [hnil, hn]
          | succ i =>
            simp at h
            obtain ⟨g1, g2⟩ := h3 i c h
            refine ⟨fun hl => g1 (by simp at hl; omega), ?_⟩
            intro hlen
            have hlen' : i + 1 = cs.length := by simp at hlen; omega
            obtain ⟨k1, k2⟩ := g2 hlen'
            refine ⟨by rw [k1]; rfl, ?_⟩
            intro e' he' hce'
            simp [k2 e' he' hce']
      | false =>
        have hc : onErrorCondition IsConflict (updateAttempt st status) p
            = ((s', p.2), false, some e) := by
          simp [onErrorCondition, hres, hcf]
        simp only [hc]
        refine ⟨[({ p.1.set with Status := status }, some e)], ha, by simp, ?_, by simp⟩
        intro i c h
        cases i with
        | zero =>
          simp at h
          subst h
          refine ⟨by simp, fun _ => ⟨?_, by simp [hcf]⟩⟩
          cases hi : Interrupted (WaitError.Cond e) <;>
            simp [onErrorResult, lastCallResult, lastErrBefore, hcf, hi]
        | succ i => simp at h

theorem UpdateStatefulSetStatus_calls {σ : Type} (st : Store σ) (w : σ) (set : XStatefulSet)
    (status : XStatefulSetStatus) :
    (updateCalls (UpdateStatefulSetStatus st w set status).1.trace).length
      ≤ DefaultRetry.Steps ∧
    updateCalls (UpdateStatefulSetStatus st w set status).1.trace ≠ [] ∧
    ∀ i c, (updateCalls (UpdateStatefulSetStatus st w set status).1.trace)[i]? = some c →
      (i + 1 < (updateCalls (UpdateStatefulSetStatus st w set status).1.trace).length →
        ∃ e, c.2 = some e ∧ IsConflict e = true) ∧
      (i + 1 = (updateCalls (UpdateStatefulSetStatus st w set status).1.trace).length →
        (UpdateStatefulSetStatus st w set status).2 =
          lastCallResult
            (lastErrBefore none (updateCalls (UpdateStatefulSetStatus st w set status).1.trace) i)
            c.2 ∧
        (∀ e, c.2 = some e → IsConflict e = true →
          (updateCalls (UpdateStatefulSetStatus st w set status).1.trace).length
            = DefaultRetry.Steps)) := by
  obtain ⟨cs, h1, h2, h3, h4⟩ :=
    backoff_calls st status DefaultRetry.Steps ({ store := w, set := set, trace := [] }, none)
  have hcs : updateCalls (UpdateStatefulSetStatus st w set status).1.trace = cs := by
    simpa [UpdateStatefulSetStatus, RetryOnConflict, OnError, updateCalls] using h1
  have hres : (UpdateStatefulSetStatus st w set status).2 =
      onErrorResult (ExponentialBackoff DefaultRetry.Steps
        (onErrorCondition IsConflict (updateAttempt st status))
        ({ store := w, set := set, trace := [] }, none)) := rfl
  rw [hcs, hres]
  refine ⟨h2, ?_, h3⟩
  intro hnil
  have := (h4 hnil).1
  simp [DefaultRetry] at this

theorem nonConflict_error_ends_run {σ : Type} (st : Store σ) (w : σ)
    (set : XStatefulSet) (status : XStatefulSetStatus) (i : Nat)
    (c : XStatefulSet × Option Error) (e : Error)
    (hcall : (updateCalls (UpdateStatefulSetStatus st w set status).1.trace)[i]? = some c)
    (herr : c.2 = some e) (hnc : IsConflict e = false) :
    (updateCalls (UpdateStatefulSetStatus st w set status).1.trace).length = i + 1 ∧
    (Interrupted (WaitError.Cond e) = false →
      (UpdateStatefulSetStatus st w set status).2 = some e) ∧
    (Interrupted (WaitError.Cond e) = true →
      (UpdateStatefulSetStatus st w set status).2 =
        lastErrBefore none (updateCalls (UpdateStatefulSetStatus st w set status).1.trace) i) := by
  obtain ⟨_, _, h⟩ := UpdateStatefulSetStatus_calls st w set status
  obtain ⟨g1, g2⟩ := h i c hcall
  have hlt : i < (updateCalls (UpdateStatefulSetStatus st w set status).1.trace).length := by
    by_contra hge
    rw [List.getElem?_eq_none (by omega)] at hcall
    simp at hcall
  have hlast : i + 1 = (updateCalls (UpdateStatefulSetStatus st w set status).1.trace).length := by
    by_contra hne
    obtain ⟨e', he', hce'⟩ := g1 (by omega)
    rw [herr] at he'
    cases he'
    rw [hnc] at hce'
    cases hce'
  refine ⟨hlast.symm, ?_, ?_⟩
  · intro hi
    rw [(g2 hlast).1, herr]
    simp [lastCallResult, hnc, hi]
  · intro hi
    rw [(g2 hlast).1, herr]
    simp [lastCallResult, hnc, hi]

/-- C9: on a store whose `UpdateStatus` fails because the deadline of the
request has passed, an error that is not a version conflict,
`UpdateStatefulSetStatus` makes that one call and returns nil, not the error;
when a version conflict came first, it returns the conflict of the first call
instead of the deadline error of the second. The interface comment (lines
50-51) says "fail on other errors". -/
theorem C9_deadline_error_not_returned :
    IsConflict deadlineErr = false ∧
    updateCalls (UpdateStatefulSetStatus deadlineStore 0 minimalXsts emptyStatus).1.trace
      = [({ minimalXsts with Status := emptyStatus }, some deadlineErr)] ∧
    (UpdateStatefulSetStatus deadlineStore 0 minimalXsts emptyStatus).2 = none ∧
    updateCalls
        (UpdateStatefulSetStatus conflictThenDeadlineStore 0 minimalXsts emptyStatus).1.trace
      = [({ minimalXsts with Status := emptyStatus }, some conflictErr),
         ({ minimalXsts with Status := emptyStatus }, some deadlineErr)] ∧
    (UpdateStatefulSetStatus conflictThenDeadlineStore 0 minimalXsts emptyStatus).2
      = some conflictErr := by
  decide

/-- C10: `UpdateStatefulSetStatus` is a total function (the retry loop recurses
on the step budget), it makes at most as many `UpdateStatus` calls as the
default retry policy has steps, which is 5, and when every call returns a
version conflict it makes exactly 5 calls and returns the conflict error of the
last one. -/
theorem C10_retry_bounded {σ : Type} (st : Store σ) (w : σ) (set : XStatefulSet)
    (status : XStatefulSetStatus) :
    DefaultRetry.Steps = 5 ∧
    (updateCalls (UpdateStatefulSetStatus st w set status).1.trace).length ≤ 5 ∧
    ((∀ c ∈ updateCalls (UpdateStatefulSetStatus st w set status).1.trace,
        returnedConflict c = true) →
      (updateCalls (UpdateStatefulSetStatus st w set status).1.trace).length = 5 ∧
      ∃ c e, (updateCalls (UpdateStatefulSetStatus st w set status).1.trace).getLast? = some c ∧
        c.2 = some e ∧ IsConflict e = true ∧
        (UpdateStatefulSetStatus st w set status).2 = some e) := by
  obtain ⟨hle, hne, h⟩ := UpdateStatefulSetStatus_calls st w set status
  refine ⟨rfl, hle, ?_⟩
  intro hall
  generalize hcs : updateCalls (UpdateStatefulSetStatus st w set status).1.trace = cs at *
  obtain ⟨c, hc⟩ : ∃ c, cs.getLast? = some c := by
    cases hl : cs.getLast? with
    | none => exact absurd (List.getLast?_eq_none_iff.mp hl) hne
    | some c => exact ⟨c, rfl⟩
  have hmem : c ∈ cs := List.mem_of_getLast?_eq_some hc
  have hconf := hall c hmem
  have hidx : cs[cs.length - 1]? = some c := by
    rw [← List.getLast?_eq_getElem?]; exact hc
  have hpos : 0 < cs.length := List.length_pos.mpr hne
  obtain ⟨_, g2⟩ := h (cs.length - 1) c hidx
  obtain ⟨k1, k2⟩ := g2 (by omega)
  unfold returnedConflict at hconf
  cases hc2 : c.2 with
  | none => rw [hc2] at hconf; cases hconf
  | some e =>
    rw [hc2] at hconf
    have hconf' : IsConflict e = true := hconf
    have h5 : cs.length = 5 := k2 e hc2 hconf'
    exact ⟨h5, c, e, hc, hc2, hconf', by rw [k1, hc2]; simp [lastCallResult, hconf']⟩

theorem C10_retry_bounded_witness :
    (updateCalls (UpdateStatefulSetStatus conflictStore 0 minimalXsts emptyStatus).1.trace).length
      = 5 ∧
    ∃ c e,
      (updateCalls (UpdateStatefulSetStatus conflictStore 0 minimalXsts emptyStatus).1.trace).getLast?
        = some c ∧
      c.2 = some e ∧ IsConflict e = true ∧
      (UpdateStatefulSetStatus conflictStore 0 minimalXsts emptyStatus).2 = some e :=
  (C10_retry_bounded conflictStore 0 minimalXsts emptyStatus).2.2 (by decide)

theorem updateAttempt_accepted {σ : Type} (st : Store σ) (status : XStatefulSetStatus)
    (s : UpdaterState σ)
    (h : (st.UpdateStatus s.store s.set.ObjectMeta.Namespace
      { s.set with Status := status }).2 = none) :
    updateAttempt st status s =
      ({ store := (st.UpdateStatus s.store s.set.ObjectMeta.Namespace
            { s.set with Status := status }).1
         set := { s.set with Status := status }
         trace := s.trace ++
           [Event.UpdateStatus s.set.ObjectMeta.Namespace { s.set with Status := status }
             none] }, none) := by
  simp [updateAttempt, h]

theorem updateAttempt_refetched {σ : Type} (st : Store σ) (status : XStatefulSetStatus)
    (s : UpdaterState σ) (w1 w2 : σ) (e : Error) (fresh : XStatefulSet)
    (h1 : st.UpdateStatus s.store s.set.ObjectMeta.Namespace { s.set with Status := status }
      = (w1, some e))
    (h2 : st.Get w1 s.set.ObjectMeta.Namespace s.set.ObjectMeta.Name = (w2, Except.ok fresh)) :
    updateAttempt st status s =
      ({ store := w2, set := fresh
         trace := s.trace ++
           [Event.UpdateStatus s.set.ObjectMeta.Namespace { s.set with Status := status }
              (some e),
            Event.Get s.set.ObjectMeta.Namespace s.set.ObjectMeta.Name (Except.ok fresh)] },
       some e) := by
  simp [updateAttempt, h1, h2]

/-- C11: when the first `UpdateStatus` call returns a version conflict, the
lister then returns the object `fresh`, and the store accepts the attempt that
follows (the call made on `fresh` with the computed status),
`UpdateStatefulSetStatus` returns nil after exactly these three calls, and the
object submitted in the second `UpdateStatus` call is `fresh` with its status
replaced by the computed status: metadata (version token included), type and
spec are those of `fresh`. -/
theorem C11_no_lost_update {σ : Type} (st : Store σ) (w w1 w2 : σ)
    (set fresh : XStatefulSet) (status : XStatefulSetStatus) (e : Error)
    (hfirst : st.UpdateStatus w set.ObjectMeta.Namespace { set with Status := status }
      = (w1, some e))
    (hconf : IsConflict e = true)
    (hget : st.Get w1 set.ObjectMeta.Namespace set.ObjectMeta.Name = (w2, Except.ok fresh))
    (hnext : (st.UpdateStatus w2 fresh.ObjectMeta.Namespace { fresh with Status := status }).2
      = none) :
    (UpdateStatefulSetStatus st w set status).2 = none ∧
    (UpdateStatefulSetStatus st w set status).1.trace =
      [Event.UpdateStatus set.ObjectMeta.Namespace { set with Status := status } (some e),
       Event.Get set.ObjectMeta.Namespace set.ObjectMeta.Name (Except.ok fresh),
       Event.UpdateStatus fresh.ObjectMeta.Namespace { fresh with Status := status } none] ∧
    updateCalls (UpdateStatefulSetStatus st w set status).1.trace =
      [({ set with Status := status }, some e), ({ fresh with Status := status }, none)] ∧
    ({ fresh with Status := status } : XStatefulSet).ObjectMeta = fresh.ObjectMeta ∧
    ({ fresh with Status := status } : XStatefulSet).TypeMeta = fresh.TypeMeta ∧
    ({ fresh with Status := status } : XStatefulSet).Spec = fresh.Spec ∧
    ({ fresh with Status := status } : XStatefulSet).Status = status := by
  have h1 := updateAttempt_refetched st status { store := w, set := set, trace := [] }
    w1 w2 e fresh hfirst hget
  have h2 := updateAttempt_accepted st status
    { store := w2, set := fresh
      trace := [Event.UpdateStatus set.ObjectMeta.Namespace { set with Status := status }
          (some e),
        Event.Get set.ObjectMeta.Namespace set.ObjectMeta.Name (Except.ok fresh)] }
    hnext
  have hrun : UpdateStatefulSetStatus st w set status =
      ({ store := (st.UpdateStatus w2 fresh.ObjectMeta.Namespace
            { fresh with Status := status }).1
         set := { fresh with Status := status }
         trace :=
          [Event.UpdateStatus set.ObjectMeta.Namespace { set with Status := status } (some e),
           Event.Get set.ObjectMeta.Namespace set.ObjectMeta.Name (Except.ok fresh),
           Event.UpdateStatus fresh.ObjectMeta.Namespace { fresh with Status := status }
             none] }, none) := by
    simp only [List.nil_append] at h1
    simp only [UpdateStatefulSetStatus, RetryOnConflict, OnError,
      show DefaultRetry.Steps = 3 + 1 + 1 from rfl, ExponentialBackoff_succ,
      onErrorCondition, h1, hconf, ↓reduceIte, h2, onErrorResult]
    simp
  rw [hrun]
  exact ⟨rfl, rfl, rfl, rfl, rfl, rfl, rfl⟩

theorem C11_no_lost_update_witness :
    (UpdateStatefulSetStatus tokenStore 0 minimalXsts computedStatus).2 = none ∧
    (UpdateStatefulSetStatus tokenStore 0 minimalXsts computedStatus).1.trace =
      [Event.UpdateStatus "default" { minimalXsts with Status := computedStatus }
         (some conflictErr),
       Event.Get "default" "test" (Except.ok freshXsts),
       Event.UpdateStatus "default" { freshXsts with Status := computedStatus } none] ∧
    updateCalls (UpdateStatefulSetStatus tokenStore 0 minimalXsts computedStatus).1.trace =
      [({ minimalXsts with Status := computedStatus }, some conflictErr),
       ({ freshXsts with Status := computedStatus }, none)] ∧
    ({ freshXsts with Status := computedStatus } : XStatefulSet).ObjectMeta
      = freshXsts.ObjectMeta ∧
    ({ freshXsts with Status := computedStatus } : XStatefulSet).TypeMeta
      = freshXsts.TypeMeta ∧
    ({ freshXsts with Status := computedStatus } : XStatefulSet).Spec = freshXsts.Spec ∧
    ({ freshXsts with Status := computedStatus } : XStatefulSet).Status = computedStatus :=
  C11_no_lost_update tokenStore 0 1 1 minimalXsts freshXsts computedStatus conflictErr
    rfl (by decide) rfl rfl

theorem backoff_invariant {σ : Type} (st : Store σ) (status : XStatefulSetStatus)
    (Inv : UpdaterState σ → Prop)
    (hstep : ∀ s, Inv s → Inv (updateAttempt st status s).1) (n : Nat)
    (p : UpdaterState σ × Option Error) (hp : Inv p.1) :
    Inv (ExponentialBackoff n (onErrorCondition IsConflict (updateAttempt st status)) p).1.1 := by
  induction n generalizing p with
  | zero => simpa [ExponentialBackoff] using hp
  | succ n ih =>
    rw [ExponentialBackoff_succ]
    have hs := hstep p.1 hp
    rcases hres : updateAttempt st status p.1 with ⟨s', err⟩
    rw [hres] at hs
    cases err with
    | none =>
      simp only [onErrorCondition, hres, ↓reduceIte]
      exact hs
    | some e =>
      cases hcf : IsConflict e with
      | true =>
        simp only [onErrorCondition, hres, hcf, Bool.false_eq_true, ↓reduceIte]
        exact ih (s', some e) hs
      | false =>
        simp only [onErrorCondition, hres, hcf, Bool.false_eq_true, ↓reduceIte]
        exact hs

theorem UpdateStatefulSetStatus_invariant {σ : Type} (st : Store σ) (w : σ)
    (set : XStatefulSet) (status : XStatefulSetStatus) (Inv : UpdaterState σ → Prop)
    (hstep : ∀ s, Inv s → Inv (updateAttempt st status s).1)
    (h0 : Inv { store := w, set := set, trace := [] }) :
    Inv (UpdateStatefulSetStatus st w set status).1 :=
  backoff_invariant st status Inv hstep DefaultRetry.Steps
    ({ store := w, set := set, trace := [] }, none) h0

theorem updateCalls_status {σ : Type} (st : Store σ) (w : σ) (set : XStatefulSet)
    (status : XStatefulSetStatus) :
    ∀ c ∈ updateCalls (UpdateStatefulSetStatus st w set status).1.trace,
      c.1.Status = status := by
  refine UpdateStatefulSetStatus_invariant st w set status
    (fun s => ∀ c ∈ updateCalls s.trace, c.1.Status = status) ?_ ?_
  · intro s hs c hc
    rw [updateAttempt_calls, List.mem_append] at hc
    rcases hc with hc | hc
    · exact hs c hc
    · simp only [List.mem_singleton] at hc
      rw [hc]
  · intro c hc
    simp [updateCalls] at hc

theorem nil_result_last_call {σ : Type} (st : Store σ) (w : σ) (set : XStatefulSet)
    (status : XStatefulSetStatus)
    (hnil : (UpdateStatefulSetStatus st w set status).2 = none) :
    ∃ c, (updateCalls (UpdateStatefulSetStatus st w set status).1.trace).getLast? = some c ∧
      c.1.Status = status ∧
      (c.2 = none ∨
        ∃ e, c.2 = some e ∧ IsConflict e = false ∧ Interrupted (WaitError.Cond e) = true) := by
  have hall := updateCalls_status st w set status
  obtain ⟨_, hne, h⟩ := UpdateStatefulSetStatus_calls st w set status
  generalize hcs : updateCalls (UpdateStatefulSetStatus st w set status).1.trace = cs at *
  obtain ⟨c, hc⟩ : ∃ c, cs.getLast? = some c := by
    cases hl : cs.getLast? with
    | none => exact absurd (List.getLast?_eq_none_iff.mp hl) hne
    | some c => exact ⟨c, rfl⟩
  have hmem : c ∈ cs := List.mem_of_getLast?_eq_some hc
  have hidx : cs[cs.length - 1]? = some c := by
    rw [← List.getLast?_eq_getElem?]; exact hc
  have hpos : 0 < cs.length := List.length_pos.mpr hne
  obtain ⟨k1, _⟩ := (h (cs.length - 1) c hidx).2 (by omega)
  refine ⟨c, hc, hall c hmem, ?_⟩
  rw [hnil] at k1
  cases hc2 : c.2 with
  | none => exact Or.inl rfl
  | some e =>
    right
    rw [hc2] at k1
    cases hcf : IsConflict e with
    | true => simp [lastCallResult, hcf] at k1
    | false =>
      cases hi : Interrupted (WaitError.Cond e) with
      | false => simp [lastCallResult, hcf, hi] at k1
      | true => exact ⟨e, rfl, hcf, hi⟩

/-- C12: on a store whose `UpdateStatus` fails because the deadline of the
request has passed, `UpdateStatefulSetStatus` returns nil although its only
`UpdateStatus` call was answered with an error: no call was accepted and the
status is not set, where the interface comment (lines 50-51) says a nil return
means the status has been set. The object of that call carries the status
argument. -/
theorem C12_nil_without_accepted_call :
    (UpdateStatefulSetStatus deadlineStore 0 minimalXsts computedStatus).2 = none ∧
    updateCalls (UpdateStatefulSetStatus deadlineStore 0 minimalXsts computedStatus).1.trace
      = [({ minimalXsts with Status := computedStatus }, some deadlineErr)] ∧
    ({ minimalXsts with Status := computedStatus } : XStatefulSet).Status = computedStatus ∧
    (some deadlineErr : Option Error) ≠ none := by
  decide

theorem sourceAfter_append (src : XStatefulSet) (t u : List Event) :
    sourceAfter src (t ++ u) = sourceAfter (sourceAfter src t) u := by
  induction t generalizing src with
  | nil => rfl
  | cons ev t ih =>
    cases ev with
    | UpdateStatus ns x err => simp [sourceAfter, ih]
    | Get ns name res => cases res <;> simp [sourceAfter, ih]
    | HandleError msg => simp [sourceAfter, ih]

theorem submittedWithSource_append (src : XStatefulSet) (t u : List Event) :
    submittedWithSource src (t ++ u) =
      submittedWithSource src t ++ submittedWithSource (sourceAfter src t) u := by
  induction t generalizing src with
  | nil => rfl
  | cons ev t ih =>
    cases ev with
    | UpdateStatus ns x err => simp [submittedWithSource, sourceAfter, ih]
    | Get ns name res => cases res <;> simp [submittedWithSource, sourceAfter, ih]
    | HandleError msg => simp [submittedWithSource, sourceAfter, ih]

theorem submittedWithSource_fst (src : XStatefulSet) (t : List Event) :
    (submittedWithSource src t).map Prod.fst = (updateCalls t).map Prod.fst := by
  induction t generalizing src with
  | nil => rfl
  | cons ev t ih =>
    cases ev with
    | UpdateStatus ns x err => simp [submittedWithSource, updateCalls, ih]
    | Get ns name res => cases res <;> simp [submittedWithSource, updateCalls, ih]
    | HandleError msg => simp [submittedWithSource, updateCalls, ih]

theorem submittedWithSource_origin (src : XStatefulSet) (t : List Event) :
    ∀ p ∈ submittedWithSource src t,
      p.2 = src ∨ ∃ ns name, Event.Get ns name (Except.ok p.2) ∈ t := by
  induction t generalizing src with
  | nil => intro p hp; simp [submittedWithSource] at hp
  | cons ev t ih =>
    intro p hp
    cases ev with
    | UpdateStatus ns x err =>
      simp only [submittedWithSource, List.mem_cons] at hp
      rcases hp with hp | hp
      · left; rw [hp]
      · rcases ih src p hp with h | ⟨ns', name, h⟩
        · exact Or.inl h
        · exact Or.inr ⟨ns', name, List.mem_cons_of_mem _ h⟩
    | Get ns name res =>
      cases res with
      | error e =>
        simp only [submittedWithSource] at hp
        rcases ih src p hp with h | ⟨ns', name', h⟩
        · exact Or.inl h
        · exact Or.inr ⟨ns', name', List.mem_cons_of_mem _ h⟩
      | ok updated =>
        simp only [submittedWithSource] at hp
        rcases ih updated p hp with h | ⟨ns', name', h⟩
        · exact Or.inr ⟨ns, name, by rw [h]; exact List.mem_cons_self _ _⟩
        · exact Or.inr ⟨ns', name', List.mem_cons_of_mem _ h⟩
    | HandleError msg =>
      simp only [submittedWithSource] at hp
      rcases ih src p hp with h | ⟨ns', name', h⟩
      · exact Or.inl h
      · exact Or.inr ⟨ns', name', List.mem_cons_of_mem _ h⟩

theorem updateAttempt_frame {σ : Type} (st : Store σ) (status : XStatefulSetStatus)
    (set : XStatefulSet) (s : UpdaterState σ)
    (hsrc : ({ s.set with Status := status } : XStatefulSet) =
      { sourceAfter set s.trace with Status := status }) :
    submittedWithSource set (updateAttempt st status s).1.trace =
      submittedWithSource set s.trace ++
        [({ sourceAfter set s.trace with Status := status }, sourceAfter set s.trace)] ∧
    ({ (updateAttempt st status s).1.set with Status := status } : XStatefulSet) =
      { sourceAfter set (updateAttempt st status s).1.trace with Status := status } := by
  unfold updateAttempt
  cases h : (st.UpdateStatus s.store
      ({ s.set with Status := status } : XStatefulSet).ObjectMeta.Namespace
      { s.set with Status := status }).2 with
  | none =>
    simp only [h]
    simp only [submittedWithSource_append, sourceAfter_append, submittedWithSource,
      sourceAfter, hsrc, List.append_nil]
    exact ⟨trivial, trivial⟩
  | some e =>
    simp only [h]
    split
    · simp only [submittedWithSource_append, sourceAfter_append, submittedWithSource,
        sourceAfter, hsrc, List.append_nil, List.append_assoc, List.singleton_append,
        and_self]
      simp_all [submittedWithSource, sourceAfter]
    · simp only [submittedWithSource_append, sourceAfter_append, submittedWithSource,
        sourceAfter, hsrc, List.append_nil, List.append_assoc, List.singleton_append]
      simp_all [submittedWithSource, sourceAfter]

/-- C13: in every `UpdateStatus` call made by `UpdateStatefulSetStatus` the
submitted object is the object it was taken from (the set passed in, or the
object most recently read from the lister) with only `Status` replaced by the
status argument: its `Spec`, metadata and type are those of that object. -/
theorem C13_spec_never_mutated {σ : Type} (st : Store σ) (w : σ) (set : XStatefulSet)
    (status : XStatefulSetStatus) :
    (submittedWithSource set (UpdateStatefulSetStatus st w set status).1.trace).map Prod.fst
      = (updateCalls (UpdateStatefulSetStatus st w set status).1.trace).map Prod.fst ∧
    ∀ p ∈ submittedWithSource set (UpdateStatefulSetStatus st w set status).1.trace,
      (p.2 = set ∨ ∃ ns name,
        Event.Get ns name (Except.ok p.2) ∈ (UpdateStatefulSetStatus st w set status).1.trace) ∧
      p.1.Spec = p.2.Spec ∧ p.1.ObjectMeta = p.2.ObjectMeta ∧ p.1.TypeMeta = p.2.TypeMeta ∧
      p.1 = { p.2 with Status := status } := by
  refine ⟨submittedWithSource_fst _ _, ?_⟩
  have hinv := UpdateStatefulSetStatus_invariant st w set status
    (fun s => (∀ p ∈ submittedWithSource set s.trace, p.1 = { p.2 with Status := status }) ∧
      ({ s.set with Status := status } : XStatefulSet) =
        { sourceAfter set s.trace with Status := status })
    (by
      intro s hs
      obtain ⟨h1, h2⟩ := updateAttempt_frame st status set s hs.2
      refine ⟨?_, h2⟩
      intro p hp
      rw [h1, List.mem_append] at hp
      rcases hp with hp | hp
      · exact hs.1 p hp
      · simp only [List.mem_singleton] at hp
        rw [hp])
    (by
      refine ⟨?_, rfl⟩
      intro p hp
      simp [submittedWithSource] at hp)
  intro p hp
  have hp1 := hinv.1 p hp
  refine ⟨submittedWithSource_origin set _ p hp, ?_, ?_, ?_, hp1⟩ <;> rw [hp1]

theorem C13_spec_never_mutated_witness :
    (freshXsts = minimalXsts ∨ ∃ ns name,
      Event.Get ns name (Except.ok freshXsts) ∈
        (UpdateStatefulSetStatus staleListerStore 0 minimalXsts computedStatus).1.trace) ∧
    ({ freshXsts with Status := computedStatus } : XStatefulSet).Spec = freshXsts.Spec ∧
    ({ freshXsts with Status := computedStatus } : XStatefulSet).ObjectMeta
      = freshXsts.ObjectMeta ∧
    ({ freshXsts with Status := computedStatus } : XStatefulSet).TypeMeta
      = freshXsts.TypeMeta ∧
    ({ freshXsts with Status := computedStatus } : XStatefulSet)
      = { freshXsts with Status := computedStatus } :=
  (C13_spec_never_mutated staleListerStore 0 minimalXsts computedStatus).2
    ({ freshXsts with Status := computedStatus }, freshXsts) (by decide)

/-- C17: on a cluster whose named secret exists and holds `tls.crt` and
`tls.key` but no `ca.crt`, called with non-empty `dnsNames`, `EnsureCertificate`
returns the error "secret default/webhook-cert does not contain ca.crt" after
its first `Get`, where the doc comment of the function says it returns without
error. -/
theorem C17_existing_secret_without_ca_crt :
    EnsureCertificate fakeSecrets testCrypto [tlsOnlySecret] "default" "webhook-cert"
        testDNSNames
      = ({ store := [tlsOnlySecret]
           trace := [CertEvent.Get "default" "webhook-cert" (Except.ok tlsOnlySecret)] },
         Except.error (Errorf "secret default/webhook-cert does not contain ca.crt")) := by
  rfl

theorem EnsureCertificate_head {σ : Type} (kubeClient : SecretClient σ)
    (crypto : List String → Except Error CertBundle) (w : σ) (ns secretName : String)
    (dnsNames : List String) (hd : dnsNames.length ≠ 0) :
    (EnsureCertificate kubeClient crypto w ns secretName dnsNames).1.trace.head?
      = some (CertEvent.Get ns secretName (kubeClient.Get w ns secretName).2) := by
  unfold EnsureCertificate
  simp only [hd, ↓reduceIte]
  repeat' split
  all_goals rfl

/-- C18: when the first `Get` of `EnsureCertificate` returns NotFound and a
`Create` call succeeds, the run is exactly `Get`, one certificate generation
and that one `Create`; the secret created has the given namespace and name and
the TLS type, holds the generated certificate, key and CA certificate under
`tls.crt`, `tls.key` and `ca.crt`, and the bytes returned are the `ca.crt`
value of that secret. -/
theorem C18_creates_tls_secret {σ : Type} (kubeClient : SecretClient σ)
    (crypto : List String → Except Error CertBundle) (w : σ) (ns secretName : String)
    (dnsNames : List String) (err : Error) (ns' : String) (submitted created : Secret)
    (hget : (EnsureCertificate kubeClient crypto w ns secretName dnsNames).1.trace.head?
      = some (CertEvent.Get ns secretName (Except.error err)))
    (hnf : IsNotFound err = true)
    (hcreate : (ns', submitted, Except.ok created) ∈
      createCalls (EnsureCertificate kubeClient crypto w ns secretName dnsNames).1.trace) :
    ∃ bundle, GenerateSelfSignedCertificate crypto dnsNames = Except.ok bundle ∧
      (EnsureCertificate kubeClient crypto w ns secretName dnsNames).1.trace =
        [CertEvent.Get ns secretName (Except.error err), CertEvent.Generate dnsNames,
         CertEvent.Create ns submitted (Except.ok created)] ∧
      createCalls (EnsureCertificate kubeClient crypto w ns secretName dnsNames).1.trace
        = [(ns, submitted, Except.ok created)] ∧
      ns' = ns ∧ submitted.ObjectMeta.Namespace = ns ∧
      submitted.ObjectMeta.Name = secretName ∧ submitted.Type_ = SecretTypeTLS ∧
      mapLookup submitted.Data TLSCertKey = some bundle.CertPEM ∧
      mapLookup submitted.Data TLSKeyKey = some bundle.KeyPEM ∧
      mapLookup submitted.Data CAKey = some bundle.CAPEM ∧
      (EnsureCertificate kubeClient crypto w ns secretName dnsNames).2
        = Except.ok bundle.CAPEM := by
  unfold EnsureCertificate at hcreate ⊢
  by_cases hd : dnsNames.length = 0
  · simp [EnsureCertificate, hd] at hget
  · simp only [hd, ↓reduceIte] at hcreate ⊢
    rcases hg : kubeClient.Get w ns secretName with ⟨w1, res⟩
    simp only [hg] at hcreate ⊢
    cases res with
    | ok s => simp [createCalls] at hcreate
    | error e =>
      have he : e = err := by
        have hh := EnsureCertificate_head kubeClient crypto w ns secretName dnsNames hd
        rw [hget, hg] at hh
        simpa using hh.symm
      subst he
      simp only [hnf, Bool.not_true, Bool.false_eq_true, ↓reduceIte] at hcreate ⊢
      cases hgen : GenerateSelfSignedCertificate crypto dnsNames with
      | error ge => simp [hgen, createCalls] at hcreate
      | ok bundle =>
        simp only [hgen] at hcreate ⊢
        rcases hc : kubeClient.Create w1 ns
          { ObjectMeta :=
              { Name := secretName, Namespace := ns, ResourceVersion := "", Generation := 0,
                Labels := [] }
            Type_ := SecretTypeTLS
            Data := some [(TLSCertKey, bundle.CertPEM), (TLSKeyKey, bundle.KeyPEM),
              (CAKey, bundle.CAPEM)] } with ⟨w2, cres⟩
        simp only [hc] at hcreate ⊢
        cases cres with
        | error ce =>
          exfalso
          simp only at hcreate
          split at hcreate
          · split at hcreate <;> simp [createCalls] at hcreate
          · simp [createCalls] at hcreate
        | ok cr =>
          simp only [createCalls, List.cons_append, List.nil_append, List.mem_singleton,
            Prod.mk.injEq, Except.ok.injEq] at hcreate
          obtain ⟨h1, h2, h3⟩ := hcreate
          subst h1 h2 h3
          refine ⟨bundle, rfl, rfl, rfl, rfl, rfl, rfl, rfl, ?_, ?_, ?_, rfl⟩ <;>
            simp [mapLookup, List.lookup, TLSCertKey, TLSKeyKey, CAKey]

theorem C18_creates_tls_secret_witness :
    ∃ bundle, GenerateSelfSignedCertificate testCrypto testDNSNames = Except.ok bundle ∧
      (EnsureCertificate fakeSecrets testCrypto [] "default" "webhook-cert" testDNSNames).1.trace =
        [CertEvent.Get "default" "webhook-cert"
           (Except.error { Reason := StatusReasonNotFound, Message := "not found" }),
         CertEvent.Generate testDNSNames,
         CertEvent.Create "default" generatedSecret (Except.ok generatedSecret)] ∧
      createCalls
          (EnsureCertificate fakeSecrets testCrypto [] "default" "webhook-cert" testDNSNames).1.trace
        = [("default", generatedSecret, Except.ok generatedSecret)] ∧
      "default" = "default" ∧ generatedSecret.ObjectMeta.Namespace = "default" ∧
      generatedSecret.ObjectMeta.Name = "webhook-cert" ∧ generatedSecret.Type_ = SecretTypeTLS ∧
      mapLookup generatedSecret.Data TLSCertKey = some bundle.CertPEM ∧
      mapLookup generatedSecret.Data TLSKeyKey = some bundle.KeyPEM ∧
      mapLookup generatedSecret.Data CAKey = some bundle.CAPEM ∧
      (EnsureCertificate fakeSecrets testCrypto [] "default" "webhook-cert" testDNSNames).2
        = Except.ok bundle.CAPEM :=
  C18_creates_tls_secret fakeSecrets testCrypto [] "default" "webhook-cert" testDNSNames
    { Reason := StatusReasonNotFound, Message := "not found" } "default" generatedSecret
    generatedSecret rfl (by decide) (List.mem_singleton.mpr rfl)

theorem EnsureCertificate_empty_dnsNames {σ : Type} (kubeClient : SecretClient σ)
    (crypto : List String → Except Error CertBundle) (w : σ) (ns secretName : String) :
    EnsureCertificate kubeClient crypto w ns secretName []
      = ({ store := w, trace := [] }, Except.error (Errorf "dnsNames cannot be empty")) :=
  rfl

/-- C19: on a cluster whose named secret exists and holds `ca.crt`, called with
an empty `dnsNames`, `EnsureCertificate` returns the error "dnsNames cannot be
empty" of its first guard (lines 60-62) without reading the secret, not the
bytes under `ca.crt`, where the doc comment of the function (line 57) says
that it returns without error when the secret already exists. -/
theorem C19_empty_dnsNames_is_error :
    (fakeSecrets.Get [fullSecret] "default" "webhook-cert").2 = Except.ok fullSecret ∧
    mapLookup fullSecret.Data CAKey = some (some [6, 6]) ∧
    EnsureCertificate fakeSecrets testCrypto [fullSecret] "default" "webhook-cert" []
      = ({ store := [fullSecret], trace := [] },
         Except.error (Errorf "dnsNames cannot be empty")) ∧
    (EnsureCertificate fakeSecrets testCrypto [fullSecret] "default" "webhook-cert" []).2
      ≠ Except.ok (some [6, 6]) := by
  refine ⟨rfl, rfl, rfl, ?_⟩
  intro h
  cases h

/-- For a non-empty `dnsNames`, when the named secret exists and holds the key
`ca.crt`, `EnsureCertificate` returns exactly the bytes stored under `ca.crt`
with a nil error; its only call is the one `Get`, so it generates no
certificate and creates or updates nothing, and the cluster state is the one
that `Get` left. -/
theorem EnsureCertificate_existing_secret {σ : Type} (kubeClient : SecretClient σ)
    (crypto : List String → Except Error CertBundle) (w w1 : σ) (ns secretName : String)
    (dnsNames : List String) (secret : Secret) (caBundle : Bytes)
    (hdns : dnsNames ≠ [])
    (hget : kubeClient.Get w ns secretName = (w1, Except.ok secret))
    (hca : mapLookup secret.Data CAKey = some caBundle) :
    (EnsureCertificate kubeClient crypto w ns secretName dnsNames).2 = Except.ok caBundle ∧
    (EnsureCertificate kubeClient crypto w ns secretName dnsNames).1.trace
      = [CertEvent.Get ns secretName (Except.ok secret)] ∧
    generateCalls (EnsureCertificate kubeClient crypto w ns secretName dnsNames).1.trace = [] ∧
    createCalls (EnsureCertificate kubeClient crypto w ns secretName dnsNames).1.trace = [] ∧
    (EnsureCertificate kubeClient crypto w ns secretName dnsNames).1.store = w1 := by
  have hd : dnsNames.length ≠ 0 := by
    cases dnsNames with
    | nil => exact absurd rfl hdns
    | cons a t => simp
  have hrun : EnsureCertificate kubeClient crypto w ns secretName dnsNames =
      ({ store := w1, trace := [CertEvent.Get ns secretName (Except.ok secret)] },
       Except.ok caBundle) := by
    simp [EnsureCertificate, hd, hget, caBundleOf, hca]
  rw [hrun]
  exact ⟨rfl, rfl, rfl, rfl, rfl⟩

theorem EnsureCertificate_existing_secret_example :
    (EnsureCertificate fakeSecrets testCrypto [fullSecret] "default" "webhook-cert"
        testDNSNames).2 = Except.ok (some [6, 6]) ∧
    (EnsureCertificate fakeSecrets testCrypto [fullSecret] "default" "webhook-cert"
        testDNSNames).1.trace
      = [CertEvent.Get "default" "webhook-cert" (Except.ok fullSecret)] ∧
    generateCalls (EnsureCertificate fakeSecrets testCrypto [fullSecret] "default"
        "webhook-cert" testDNSNames).1.trace = [] ∧
    createCalls (EnsureCertificate fakeSecrets testCrypto [fullSecret] "default"
        "webhook-cert" testDNSNames).1.trace = [] ∧
    (EnsureCertificate fakeSecrets testCrypto [fullSecret] "default" "webhook-cert"
        testDNSNames).1.store = [fullSecret] :=
  EnsureCertificate_existing_secret fakeSecrets testCrypto [fullSecret] [fullSecret] "default"
    "webhook-cert" testDNSNames fullSecret (some [6, 6]) (by decide) rfl rfl

theorem fillCABundles_eq (caBundle : Bytes) (l : List MutatingWebhook) (updated : Bool) :
    fillCABundles caBundle l updated =
      (l.map (withCABundle caBundle),
       updated || l.any (fun h => decide (lenBytes h.ClientConfig.CABundle = 0))) := by
  induction l generalizing updated with
  | nil => simp [fillCABundles]
  | cons h t ih =>
    by_cases hz : lenBytes h.ClientConfig.CABundle = 0
    · simp [fillCABundles, ih, withCABundle, hz]
    · simp [fillCABundles, ih, withCABundle, hz]

/-- C20: when `Get` returns the configuration, `UpdateMutatingWebhookCABundle`
issues an `Update` if and only if at least one entry has an empty `caBundle`;
the configuration it submits then is the one read with the given bundle written
into exactly the entries whose `caBundle` was empty, every other entry and
field unchanged; with no empty entry it returns nil and makes no call after the
`Get`. When `Get` fails there is no configuration and no `Update`. -/
theorem C20_ca_bundle_only_into_empty {σ : Type} (kubeClient : WebhookConfigClient σ) (w : σ)
    (webhookName : String) (caBundle : Bytes) :
    (∀ w1 webhook, kubeClient.Get w webhookName = (w1, Except.ok webhook) →
      (updatesOf (UpdateMutatingWebhookCABundle kubeClient w webhookName caBundle).1.trace ≠ []
        ↔ ∃ h ∈ webhook.Webhooks, lenBytes h.ClientConfig.CABundle = 0) ∧
      ((∃ h ∈ webhook.Webhooks, lenBytes h.ClientConfig.CABundle = 0) →
        updatesOf (UpdateMutatingWebhookCABundle kubeClient w webhookName caBundle).1.trace
          = [{ webhook with Webhooks := webhook.Webhooks.map (withCABundle caBundle) }]) ∧
      (∀ h ∈ webhook.Webhooks,
        (lenBytes h.ClientConfig.CABundle = 0 →
          withCABundle caBundle h
            = { h with ClientConfig := { h.ClientConfig with CABundle := caBundle } }) ∧
        (lenBytes h.ClientConfig.CABundle ≠ 0 → withCABundle caBundle h = h)) ∧
      ((¬ ∃ h ∈ webhook.Webhooks, lenBytes h.ClientConfig.CABundle = 0) →
        UpdateMutatingWebhookCABundle kubeClient w webhookName caBundle
          = ({ store := w1, trace := [WebhookEvent.Get webhookName (Except.ok webhook)] },
             none))) ∧
    (∀ w1 err, kubeClient.Get w webhookName = (w1, Except.error err) →
      updatesOf (UpdateMutatingWebhookCABundle kubeClient w webhookName caBundle).1.trace
        = []) := by
  constructor
  · intro w1 webhook hget
    have hany : (webhook.Webhooks.any (fun h => decide (lenBytes h.ClientConfig.CABundle = 0)))
        = true ↔ ∃ h ∈ webhook.Webhooks, lenBytes h.ClientConfig.CABundle = 0 := by
      simp [List.any_eq_true]
    cases hb : webhook.Webhooks.any (fun h => decide (lenBytes h.ClientConfig.CABundle = 0)) with
    | false =>
      have hno : ¬ ∃ h ∈ webhook.Webhooks, lenBytes h.ClientConfig.CABundle = 0 := by
        rw [← hany, hb]; simp
      have hrun : UpdateMutatingWebhookCABundle kubeClient w webhookName caBundle
          = ({ store := w1, trace := [WebhookEvent.Get webhookName (Except.ok webhook)] },
             none) := by
        simp [UpdateMutatingWebhookCABundle, hget, fillCABundles_eq, hb]
      refine ⟨?_, fun h => absurd h hno, ?_, fun _ => hrun⟩
      · rw [hrun]
        simp [updatesOf, hno]
      · intro h _
        exact ⟨fun hz => by simp [withCABundle, hz], fun hz => by simp [withCABundle, hz]⟩
    | true =>
      have hyes : ∃ h ∈ webhook.Webhooks, lenBytes h.ClientConfig.CABundle = 0 := hany.mp hb
      have hups : updatesOf
          (UpdateMutatingWebhookCABundle kubeClient w webhookName caBundle).1.trace
          = [{ webhook with Webhooks := webhook.Webhooks.map (withCABundle caBundle) }] := by
        simp only [UpdateMutatingWebhookCABundle, hget, fillCABundles_eq, hb, Bool.false_or,
          Bool.not_true, Bool.false_eq_true, ↓reduceIte]
        split <;> simp [updatesOf]
      refine ⟨?_, fun _ => hups, ?_, fun h => absurd hyes h⟩
      · rw [hups]
        simp [hyes]
      · intro h _
        exact ⟨fun hz => by simp [withCABundle, hz], fun hz => by simp [withCABundle, hz]⟩
  · intro w1 err hget
    simp only [UpdateMutatingWebhookCABundle, hget]
    split <;> simp [updatesOf]

theorem C20_ca_bundle_only_into_empty_witness :
    updatesOf (UpdateMutatingWebhookCABundle fakeWebhooks [mixedWebhookConfig]
        "xstatefulset-mutating-webhook" (some [3, 3])).1.trace
      = [{ mixedWebhookConfig with
           Webhooks :=
            [{ Name := "a.xsts.sh", ClientConfig := { URL := none, CABundle := some [3, 3] } },
             { Name := "b.xsts.sh", ClientConfig := { URL := none, CABundle := some [3, 3] } },
             { Name := "c.xsts.sh",
               ClientConfig := { URL := some "https://c", CABundle := some [9] } }] }] ∧
    UpdateMutatingWebhookCABundle fakeWebhooks [presetWebhookConfig]
        "xstatefulset-mutating-webhook" (some [3, 3])
      = ({ store := [presetWebhookConfig]
           trace := [WebhookEvent.Get "xstatefulset-mutating-webhook"
             (Except.ok presetWebhookConfig)] }, none) :=
  ⟨((C20_ca_bundle_only_into_empty fakeWebhooks [mixedWebhookConfig]
        "xstatefulset-mutating-webhook" (some [3, 3])).1 [mixedWebhookConfig]
        mixedWebhookConfig rfl).2.1 (by decide),
   ((C20_ca_bundle_only_into_empty fakeWebhooks [presetWebhookConfig]
        "xstatefulset-mutating-webhook" (some [3, 3])).1 [presetWebhookConfig]
        presetWebhookConfig rfl).2.2.2 (by decide)⟩

theorem createOrdered_spec (o : Orchestrator) (pods : Pods) (n k : Nat) :
    ((createOrdered o pods k n).1 = [] ∨
      ∃ j, (createOrdered o pods k n).1 = [Action.createPod j (revisionFor o j)] ∧
        k ≤ j ∧ j < k + n ∧ pods j = none ∧
        ∀ i, k ≤ i → i < j → ∃ p, pods i = some p ∧ p.Ready = true) ∧
    ((createOrdered o pods k n).2 = true →
      (createOrdered o pods k n).1 = [] ∧
      ∀ i, k ≤ i → i < k + n → ∃ p, pods i = some p ∧ p.Ready = true) := by
  induction n generalizing k with
  | zero =>
    refine ⟨Or.inl rfl, fun _ => ⟨rfl, ?_⟩⟩
    intro i h1 h2
    omega
  | succ n ih =>
    unfold createOrdered
    cases hk : pods k with
    | none =>
      refine ⟨Or.inr ⟨k, rfl, Nat.le_refl k, by omega, hk, ?_⟩, ?_⟩
      · intro i h1 h2
        omega
      · intro h
        cases h
    | some p =>
      cases hr : p.Ready with
      | false =>
        simp only [hr, Bool.false_eq_true, ↓reduceIte]
        refine ⟨Or.inl trivial, ?_⟩
        intro h
        cases h
      | true =>
        simp only [hr, ↓reduceIte]
        obtain ⟨h1, h2⟩ := ih (k + 1)
        have hready : ∀ i, k ≤ i → i < k + 1 → ∃ q, pods i = some q ∧ q.Ready = true := by
          intro i hi1 hi2
          have : i = k := by omega
          subst this
          exact ⟨p, hk, hr⟩
        constructor
        · rcases h1 with h1 | ⟨j, e1, e2, e3, e4, e5⟩
          · exact Or.inl h1
          · refine Or.inr ⟨j, e1, by omega, by omega, e4, ?_⟩
            intro i hi1 hi2
            by_cases hik : i < k + 1
            · exact hready i hi1 hik
            · exact e5 i (by omega) hi2
        · intro h
          obtain ⟨g1, g2⟩ := h2 h
          refine ⟨g1, ?_⟩
          intro i hi1 hi2
          by_cases hik : i < k + 1
          · exact hready i hi1 hik
          · exact g2 i (by omega) (by omega)

theorem updateFrom_deletes (o : Orchestrator) (pods : Pods) (n u : Nat) :
    ∀ a ∈ updateFrom o pods n u,
      ∃ k, a = Action.deletePod k ∧ o.partition ≤ k ∧ o.start ≤ k ∧ k < o.start + n ∧
        ∃ p, pods k = some p ∧ p.Revision ≠ o.target := by
  induction n generalizing u with
  | zero =>
    intro a ha
    simp [updateFrom] at ha
  | succ n ih =>
    intro a ha
    have hrec : ∀ u', a ∈ updateFrom o pods n u' →
        ∃ k, a = Action.deletePod k ∧ o.partition ≤ k ∧ o.start ≤ k ∧ k < o.start + (n + 1) ∧
          ∃ p, pods k = some p ∧ p.Revision ≠ o.target := by
      intro u' h
      obtain ⟨k, e1, e2, e3, e4, e5⟩ := ih u' a h
      exact ⟨k, e1, e2, e3, by omega, e5⟩
    unfold updateFrom at ha
    by_cases hp : o.start + n < o.partition
    · simp only [hp, ↓reduceIte] at ha
      exact hrec u ha
    · simp only [hp, ↓reduceIte] at ha
      cases hk : pods (o.start + n) with
      | none =>
        simp only [hk] at ha
        exact hrec u ha
      | some p =>
        simp only [hk] at ha
        by_cases hrev : p.Revision = o.target
        · simp only [hrev, ↓reduceIte] at ha
          exact hrec u ha
        · simp only [hrev, ↓reduceIte] at ha
          by_cases hsel : (if p.Ready then u + 1 else u) ≤ o.maxUnavailable
          · simp only [hsel, ↓reduceIte] at ha
            rcases List.mem_cons.mp ha with h | h
            · exact ⟨o.start + n, h, by omega, by omega, by omega, p, hk, hrev⟩
            · exact hrec _ h
          · simp only [hsel, ↓reduceIte] at ha
            exact hrec u ha

theorem updateActions_deletes (o : Orchestrator) (pods : Pods) :
    ∀ a ∈ updateActions o pods,
      ∃ k, a = Action.deletePod k ∧ o.partition ≤ k ∧ o.start ≤ k ∧
        k < o.start + o.replicas ∧ ∃ p, pods k = some p ∧ p.Revision ≠ o.target := by
  intro a ha
  unfold updateActions at ha
  split at ha
  · exact updateFrom_deletes o pods _ _ a ha
  · simp at ha

theorem updateActions_conforming (o : Orchestrator) (pods : Pods)
    (h : ∀ j p, pods j = some p → p.Revision = revisionFor o j) :
    updateActions o pods = [] := by
  apply List.eq_nil_iff_forall_not_mem.mpr
  intro a ha
  have hs : o.strategy = RollingUpdateStatefulSetStrategyType := by
    by_contra hne
    simp [updateActions, hne] at ha
  obtain ⟨k, _, hk, _, _, p, hp, hrev⟩ := updateActions_deletes o pods a ha
  have := h k p hp
  simp only [revisionFor, hs, true_and] at this
  rw [if_neg (by omega)] at this
  exact hrev this

theorem planActions_ordered (o : Orchestrator) (pods : Pods)
    (hpol : o.policy = OrderedReadyPodManagement) :
    planActions o pods =
      if (createOrdered o pods o.start o.replicas).2 then updateActions o pods
      else (createOrdered o pods o.start o.replicas).1 := by
  have hne : o.policy ≠ ParallelPodManagement := by
    rw [hpol]
    decide
  simp [planActions, hne]

theorem planActions_ordered_conforming (o : Orchestrator) (pods : Pods)
    (hpol : o.policy = OrderedReadyPodManagement)
    (h : ∀ j p, pods j = some p → p.Revision = revisionFor o j) :
    planActions o pods = (createOrdered o pods o.start o.replicas).1 := by
  rw [planActions_ordered o pods hpol, updateActions_conforming o pods h]
  cases hr : (createOrdered o pods o.start o.replicas).2 with
  | false => simp
  | true =>
    simp only [↓reduceIte]
    exact ((createOrdered_spec o pods o.replicas o.start).2 hr).1.symm

theorem ScaleUpInv_conforming (o : Orchestrator) (c : Cluster) (m : Nat)
    (h : ScaleUpInv o c m) : ∀ j p, c.pods j = some p → p.Revision = revisionFor o j := by
  intro j p hp
  by_cases hj : j < m
  · obtain ⟨q, hq, hrev⟩ := h.2.1 j hj
    rw [hq] at hp
    cases hp
    exact hrev
  · rw [h.2.2.1 j (by omega)] at hp
    cases hp

theorem ScaleUpInv_occur (o : Orchestrator) (hpol : o.policy = OrderedReadyPodManagement)
    (hstart : o.start = 0) (c : Cluster) (m : Nat) (h : ScaleUpInv o c m) (occ : Occurrence) :
    ∃ m', ScaleUpInv o (occur o c occ) m' := by
  obtain ⟨hm, hpods, hnone, hlog, hobs⟩ := h
  cases occ with
  | readiness k ready =>
    refine ⟨m, hm, ?_, ?_, hlog, hobs⟩
    · intro j hj
      obtain ⟨p, hp, hrev⟩ := hpods j hj
      by_cases hjk : j = k
      · subst hjk
        exact ⟨{ p with Ready := ready }, by simp [occur, hp], hrev⟩
      · exact ⟨p, by simp [occur, hjk, hp], hrev⟩
    · intro j hj
      by_cases hjk : j = k
      · subst hjk
        simp [occur, hnone j hj]
      · simp [occur, hjk, hnone j hj]
  | reconcile =>
    have hplan := planActions_ordered_conforming o c.pods hpol
      (ScaleUpInv_conforming o c m ⟨hm, hpods, hnone, hlog, hobs⟩)
    rw [hstart] at hplan
    rcases (createOrdered_spec o c.pods o.replicas 0).1 with h0 | ⟨j, e1, _, e3, e4, e5⟩
    · rw [h0] at hplan
      refine ⟨m, hm, ?_, ?_, ?_, ?_⟩
      · simpa [occur, hplan] using hpods
      · simpa [occur, hplan] using hnone
      · simpa [occur, hplan] using hlog
      · simpa [occur, hplan] using hobs
    · rw [e1] at hplan
      have hjm : j = m := by
        have h1 : m ≤ j := by
          by_contra hlt
          obtain ⟨p, hp, _⟩ := hpods j (by omega)
          rw [e4] at hp
          cases hp
        by_contra hne
        obtain ⟨p, hp, _⟩ := e5 m (by omega) (by omega)
        rw [hnone m (Nat.le_refl m)] at hp
        cases hp
      subst hjm
      refine ⟨j + 1, by omega, ?_, ?_, ?_, ?_⟩
      · intro i hi
        by_cases hij : i = j
        · subst hij
          exact ⟨{ Revision := revisionFor o i, Ready := false },
            by simp [occur, hplan, applyAction], rfl⟩
        · obtain ⟨p, hp, hrev⟩ := hpods i (by omega)
          exact ⟨p, by simp [occur, hplan, applyAction, hij, hp], hrev⟩
      · intro i hi
        have hij : i ≠ j := by omega
        simp [occur, hplan, applyAction, hij, hnone i (by omega)]
      · simp [occur, hplan, hlog, List.range_succ]
      · intro e he k revision hk
        simp only [occur, hplan, List.map_cons, List.map_nil, List.mem_append,
          List.mem_singleton] at he
        rcases he with he | he
        · exact hobs e he k revision hk
        · subst he
          simp only [Action.createPod.injEq] at hk
          exact e5 k (by omega) (by omega)

theorem ScaleUpInv_run (o : Orchestrator) (hpol : o.policy = OrderedReadyPodManagement)
    (hstart : o.start = 0) (occs : List Occurrence) (c : Cluster) (m : Nat)
    (h : ScaleUpInv o c m) : ∃ m', ScaleUpInv o (runCluster o c occs) m' := by
  induction occs generalizing c m with
  | nil => exact ⟨m, h⟩
  | cons occ t ih =>
    obtain ⟨m1, h1⟩ := ScaleUpInv_occur o hpol hstart c m h occ
    exact ih (occur o c occ) m1 h1

theorem ScaleUpInv_empty (o : Orchestrator) : ScaleUpInv o emptyCluster 0 :=
  ⟨Nat.zero_le _, fun j hj => absurd hj (Nat.not_lt_zero j), fun _ _ => rfl, rfl,
    fun e he => by simp [emptyCluster] at he⟩

theorem createOrdered_progress (o : Orchestrator) (pods : Pods) (n k j : Nat) (hkj : k ≤ j)
    (hj : j < k + n) (hnone : pods j = none)
    (hready : ∀ i, k ≤ i → i < j → ∃ p, pods i = some p ∧ p.Ready = true) :
    createOrdered o pods k n = ([Action.createPod j (revisionFor o j)], false) := by
  induction n generalizing k with
  | zero => omega
  | succ n ih =>
    unfold createOrdered
    by_cases hk : k = j
    · subst hk
      simp [hnone]
    · obtain ⟨p, hp, hr⟩ := hready k (Nat.le_refl k) (by omega)
      simp only [hp, hr, ↓reduceIte]
      exact ih (k + 1) (by omega) (by omega) (fun i h1 h2 => hready i (by omega) h2)

theorem createOrdered_done (o : Orchestrator) (pods : Pods) (n k : Nat)
    (hready : ∀ i, k ≤ i → i < k + n → ∃ p, pods i = some p ∧ p.Ready = true) :
    createOrdered o pods k n = ([], true) := by
  induction n generalizing k with
  | zero => rfl
  | succ n ih =>
    unfold createOrdered
    obtain ⟨p, hp, hr⟩ := hready k (Nat.le_refl k) (by omega)
    simp only [hp, hr, ↓reduceIte]
    exact ih (k + 1) (fun i h1 h2 => hready i (by omega) (by omega))

theorem runCluster_append (o : Orchestrator) (c : Cluster) (s t : List Occurrence) :
    runCluster o c (s ++ t) = runCluster o (runCluster o c s) t := by
  simp [runCluster, List.foldl_append]

theorem readySchedule_prefix (o : Orchestrator) (hpol : o.policy = OrderedReadyPodManagement)
    (hstart : o.start = 0) (k : Nat) (hk : k ≤ o.replicas) :
    ScaleUpInv o
      (runCluster o emptyCluster
        ((List.range k).flatMap (fun i => [Occurrence.reconcile, Occurrence.readiness i true])))
      k ∧
    ∀ j, j < k → ∃ p,
      (runCluster o emptyCluster
        ((List.range k).flatMap
          (fun i => [Occurrence.reconcile, Occurrence.readiness i true]))).pods j = some p ∧
      p.Ready = true := by
  induction k with
  | zero =>
    refine ⟨ScaleUpInv_empty o, ?_⟩
    intro j hj
    omega
  | succ k ih =>
    obtain ⟨hinv, hready⟩ := ih (by omega)
    rw [List.range_succ, List.flatMap_append, runCluster_append]
    generalize runCluster o emptyCluster
      ((List.range k).flatMap (fun i => [Occurrence.reconcile, Occurrence.readiness i true]))
      = c at hinv hready
    have hplan := planActions_ordered_conforming o c.pods hpol (ScaleUpInv_conforming o c k hinv)
    rw [hstart, createOrdered_progress o c.pods o.replicas 0 k (Nat.zero_le k) (by omega)
      (hinv.2.2.1 k (Nat.le_refl k)) (fun i _ h2 => hready i h2)] at hplan
    obtain ⟨_, hpods, hnone, hlog, hobs⟩ := hinv
    have hpodsk : ∀ j,
        (runCluster o c ([k].flatMap
          (fun i => [Occurrence.reconcile, Occurrence.readiness i true]))).pods j =
        if j = k then some { Revision := revisionFor o k, Ready := true } else c.pods j := by
      intro j
      by_cases hjk : j = k
      · subst hjk
        simp [runCluster, occur, hplan, applyAction]
      · simp [runCluster, occur, hplan, applyAction, hjk]
    have hlogk :
        (runCluster o c ([k].flatMap
          (fun i => [Occurrence.reconcile, Occurrence.readiness i true]))).log =
        c.log ++ [{ action := Action.createPod k (revisionFor o k), observed := c.pods }] := by
      simp [runCluster, occur, hplan]
    refine ⟨⟨hk, ?_, ?_, ?_, ?_⟩, ?_⟩
    · intro j hj
      rw [hpodsk]
      by_cases hjk : j = k
      · subst hjk
        exact ⟨{ Revision := revisionFor o j, Ready := true }, by simp, rfl⟩
      · obtain ⟨p, hp, hrev⟩ := hpods j (by omega)
        exact ⟨p, by simp [hjk, hp], hrev⟩
    · intro j hj
      rw [hpodsk]
      have hjk : j ≠ k := by omega
      simp [hjk, hnone j (by omega)]
    · rw [hlogk]
      simp [hlog, List.range_succ]
    · intro e he i revision hi
      rw [hlogk] at he
      simp only [List.mem_append, List.mem_singleton] at he
      rcases he with he | he
      · exact hobs e he i revision hi
      · subst he
        simp only [Action.createPod.injEq] at hi
        exact hready i (by omega)
    · intro j hj
      rw [hpodsk]
      by_cases hjk : j = k
      · subst hjk
        exact ⟨{ Revision := revisionFor o j, Ready := true }, by simp, rfl⟩
      · obtain ⟨p, hp, hr⟩ := hready j (by omega)
        exact ⟨p, by simp [hjk, hp], hr⟩

theorem readySchedule_log (o : Orchestrator) (hpol : o.policy = OrderedReadyPodManagement)
    (hstart : o.start = 0) :
    (runCluster o emptyCluster (readySchedule o.replicas)).log.map LogEntry.action =
      (List.range o.replicas).map (fun k => Action.createPod k (revisionFor o k)) := by
  obtain ⟨hinv, hready⟩ := readySchedule_prefix o hpol hstart o.replicas (Nat.le_refl _)
  unfold readySchedule
  rw [runCluster_append]
  generalize runCluster o emptyCluster
    ((List.range o.replicas).flatMap
      (fun i => [Occurrence.reconcile, Occurrence.readiness i true])) = c at hinv hready
  have hplan := planActions_ordered_conforming o c.pods hpol
    (ScaleUpInv_conforming o c o.replicas hinv)
  rw [hstart, createOrdered_done o c.pods o.replicas 0
    (fun i _ h2 => hready i (by omega))] at hplan
  simp [runCluster, occur, hplan, hinv.2.2.2.1]

/-- C14: under the `OrderedReady` policy, in a run that starts with no pods
(any order of reconcile passes and readiness events), the actions applied are
the creations of the ordinals `0, 1, ..., m-1` in this order for some
`m ≤ replicas`, and every creation of an ordinal `k+1` was planned on an
observation in which the pod of ordinal `k` was Ready; in any pass whatever,
a plan that creates ordinal `k+1` observed the pod of ordinal `k` Ready; and
when every pod becomes Ready after its creation, all of `0..replicas-1` are
created. -/
theorem C14_ordered_ready_scale_up (o : Orchestrator)
    (hpol : o.policy = OrderedReadyPodManagement) (hstart : o.start = 0) :
    (∀ occs : List Occurrence,
      (∃ m, m ≤ o.replicas ∧
        (runCluster o emptyCluster occs).log.map LogEntry.action =
          (List.range m).map (fun k => Action.createPod k (revisionFor o k)) ∧
        createdOrdinals (runCluster o emptyCluster occs).log = List.range m) ∧
      ∀ e ∈ (runCluster o emptyCluster occs).log, ∀ k revision,
        e.action = Action.createPod (k + 1) revision →
          ∃ p, e.observed k = some p ∧ p.Ready = true) ∧
    (∀ (pods : Pods) (k revision : Nat),
      Action.createPod (k + 1) revision ∈ planActions o pods →
        ∃ p, pods k = some p ∧ p.Ready = true) ∧
    createdOrdinals (runCluster o emptyCluster (readySchedule o.replicas)).log
      = List.range o.replicas := by
  have hcreated : ∀ (log : List LogEntry) (m : Nat),
      log.map LogEntry.action = (List.range m).map (fun k => Action.createPod k (revisionFor o k)) →
      createdOrdinals log = List.range m := by
    intro log m
    generalize List.range m = l
    induction log generalizing l with
    | nil =>
      intro h
      cases l with
      | nil => rfl
      | cons a t => simp at h
    | cons e t ih =>
      intro h
      cases l with
      | nil => simp at h
      | cons a l =>
        simp only [List.map_cons, List.cons.injEq] at h
        simp only [createdOrdinals, h.1]
        rw [ih l h.2]
  refine ⟨?_, ?_, ?_⟩
  · intro occs
    obtain ⟨m, hm, _, _, hlog, hobs⟩ :=
      ScaleUpInv_run o hpol hstart occs emptyCluster 0 (ScaleUpInv_empty o)
    exact ⟨⟨m, hm, hlog, hcreated _ m hlog⟩, hobs⟩
  · intro pods k revision hmem
    rw [planActions_ordered o pods hpol, hstart] at hmem
    split at hmem
    · obtain ⟨j, hj, _⟩ := updateActions_deletes o pods _ hmem
      cases hj
    · rcases (createOrdered_spec o pods o.replicas 0).1 with h0 | ⟨j, e1, _, _, _, e5⟩
      · rw [h0] at hmem
        simp at hmem
      · rw [e1] at hmem
        simp only [List.mem_singleton, Action.createPod.injEq] at hmem
        exact e5 k (Nat.zero_le k) (by omega)
  · exact hcreated _ _ (readySchedule_log o hpol hstart)

theorem C14_ordered_ready_scale_up_witness :
    createdOrdinals (runCluster (orderedSet 3) emptyCluster
        [Occurrence.reconcile, Occurrence.reconcile, Occurrence.readiness 0 true,
         Occurrence.reconcile, Occurrence.readiness 0 false, Occurrence.reconcile,
         Occurrence.readiness 1 true, Occurrence.reconcile]).log = [0, 1] ∧
    createdOrdinals (runCluster (orderedSet 3) emptyCluster (readySchedule 3)).log
      = List.range 3 :=
  ⟨by decide, (C14_ordered_ready_scale_up (orderedSet 3) rfl rfl).2.2⟩

theorem createParallel_spec (o : Orchestrator) (pods : Pods) (n k : Nat) :
    ∀ a ∈ createParallel o pods k n,
      ∃ j, a = Action.createPod j (revisionFor o j) ∧ k ≤ j ∧ j < k + n ∧ pods j = none := by
  induction n generalizing k with
  | zero =>
    intro a ha
    simp [createParallel] at ha
  | succ n ih =>
    intro a ha
    have hrec : a ∈ createParallel o pods (k + 1) n →
        ∃ j, a = Action.createPod j (revisionFor o j) ∧ k ≤ j ∧ j < k + (n + 1) ∧
          pods j = none := by
      intro h
      obtain ⟨j, e1, e2, e3, e4⟩ := ih (k + 1) a h
      exact ⟨j, e1, by omega, by omega, e4⟩
    unfold createParallel at ha
    cases hk : pods k with
    | none =>
      simp only [hk] at ha
      rcases List.mem_cons.mp ha with h | h
      · exact ⟨k, h, Nat.le_refl k, by omega, hk⟩
      · exact hrec h
    | some p =>
      simp only [hk] at ha
      exact hrec ha

theorem planActions_mem (o : Orchestrator) (pods : Pods) :
    ∀ a ∈ planActions o pods,
      (∃ j, a = Action.createPod j (revisionFor o j) ∧ o.start ≤ j ∧
        j < o.start + o.replicas ∧ pods j = none) ∨
      (∃ k, a = Action.deletePod k ∧ o.partition ≤ k ∧ o.start ≤ k ∧
        k < o.start + o.replicas ∧ ∃ p, pods k = some p ∧ p.Revision ≠ o.target) := by
  intro a ha
  unfold planActions at ha
  split at ha
  · rcases List.mem_append.mp ha with h | h
    · exact Or.inl (createParallel_spec o pods _ _ a h)
    · exact Or.inr (updateActions_deletes o pods a h)
  · simp only at ha
    split at ha
    · exact Or.inr (updateActions_deletes o pods a ha)
    · rcases (createOrdered_spec o pods o.replicas o.start).1 with h0 | ⟨j, e1, e2, e3, e4, _⟩
      · rw [h0] at ha
        simp at ha
      · rw [e1] at ha
        exact Or.inl ⟨j, List.mem_singleton.mp ha, e2, e3, e4⟩

theorem foldl_applyAction_untouched (acts : List Action) (pods : Pods) (j : Nat)
    (h : ∀ a ∈ acts, a.ordinal ≠ j) : (acts.foldl applyAction pods) j = pods j := by
  induction acts generalizing pods with
  | nil => rfl
  | cons a t ih =>
    rw [List.foldl_cons, ih (applyAction pods a) (fun b hb => h b (List.mem_cons_of_mem _ hb))]
    have ha := h a (List.mem_cons_self _ _)
    cases a with
    | createPod k revision =>
      have hne : j ≠ k := fun e => ha e.symm
      simp [applyAction, hne]
    | deletePod k =>
      have hne : j ≠ k := fun e => ha e.symm
      simp [applyAction, hne]

theorem foldl_applyAction_origin (acts : List Action) (pods : Pods) (j : Nat) (p : Pod)
    (h : (acts.foldl applyAction pods) j = some p) :
    pods j = some p ∨
      ∃ revision, Action.createPod j revision ∈ acts ∧ p.Revision = revision := by
  induction acts generalizing pods with
  | nil => exact Or.inl h
  | cons a t ih =>
    rw [List.foldl_cons] at h
    rcases ih (applyAction pods a) h with h1 | ⟨revision, h1, h2⟩
    · cases a with
      | createPod k revision =>
        by_cases hjk : j = k
        · subst hjk
          simp only [applyAction, ↓reduceIte, Option.some.injEq] at h1
          exact Or.inr ⟨revision, List.mem_cons_self _ _, by rw [← h1]⟩
        · simp only [applyAction, hjk, ↓reduceIte] at h1
          exact Or.inl h1
      | deletePod k =>
        by_cases hjk : j = k
        · subst hjk
          simp [applyAction] at h1
        · simp only [applyAction, hjk, ↓reduceIte] at h1
          exact Or.inl h1
    · exact Or.inr ⟨revision, List.mem_cons_of_mem _ h1, h2⟩

theorem unavailableCount_ready (pods : Pods) (n k : Nat)
    (h : ∀ i, k ≤ i → i < k + n → ∃ p, pods i = some p ∧ p.Ready = true) :
    unavailableCount pods k n = 0 := by
  induction n generalizing k with
  | zero => rfl
  | succ n ih =>
    obtain ⟨p, hp, hr⟩ := h k (Nat.le_refl k) (by omega)
    simp [unavailableCount, hp, hr, ih (k + 1) (fun i h1 h2 => h i (by omega) (by omega))]

theorem updateFrom_nil_target (o : Orchestrator) (pods : Pods) (hM : 1 ≤ o.maxUnavailable)
    (n : Nat) (h : updateFrom o pods n 0 = []) :
    ∀ k p, pods k = some p → o.partition ≤ k → o.start ≤ k → k < o.start + n →
      p.Revision = o.target := by
  induction n with
  | zero =>
    intro k p _ _ h1 h2
    omega
  | succ n ih =>
    unfold updateFrom at h
    intro k p hp hpart h1 h2
    by_cases hlow : o.start + n < o.partition
    · simp only [hlow, ↓reduceIte] at h
      exact ih h k p hp hpart h1 (by omega)
    · simp only [hlow, ↓reduceIte] at h
      cases hk : pods (o.start + n) with
      | none =>
        simp only [hk] at h
        have hne : k ≠ o.start + n := by
          intro e
          rw [e, hk] at hp
          cases hp
        exact ih h k p hp hpart h1 (by omega)
      | some q =>
        simp only [hk] at h
        by_cases hrev : q.Revision = o.target
        · simp only [hrev, ↓reduceIte] at h
          by_cases hkn : k = o.start + n
          · rw [hkn, hk] at hp
            cases hp
            exact hrev
          · exact ih h k p hp hpart h1 (by omega)
        · exfalso
          simp only [hrev, ↓reduceIte] at h
          have hsel : (if q.Ready = true then 0 + 1 else 0) ≤ o.maxUnavailable := by
            split <;> omega
          simp only [hsel, ↓reduceIte] at h
          cases h

theorem RollInv_occur (o : Orchestrator) (hstart : o.start = 0) (c : Cluster)
    (h : RollInv o c) (occ : Occurrence) : RollInv o (occur o c occ) := by
  obtain ⟨hpods, hlog⟩ := h
  cases occ with
  | readiness k ready =>
    refine ⟨?_, hlog⟩
    intro j hj1 hj2
    obtain ⟨p, hp, hrev⟩ := hpods j hj1 hj2
    by_cases hjk : j = k
    · subst hjk
      exact ⟨{ p with Ready := ready }, by simp [occur, hp], hrev⟩
    · exact ⟨p, by simp [occur, hjk, hp], hrev⟩
  | reconcile =>
    have hacts : ∀ a ∈ planActions o c.pods, o.partition ≤ a.ordinal := by
      intro a ha
      rcases planActions_mem o c.pods a ha with ⟨j, e1, _, e3, e4⟩ | ⟨k, e1, e2, _⟩
      · rw [e1]
        by_contra hlt
        obtain ⟨p, hp, _⟩ := hpods j (by simpa [Action.ordinal] using hlt) (by omega)
        rw [e4] at hp
        cases hp
      · rw [e1]
        exact e2
    constructor
    · intro j hj1 hj2
      obtain ⟨p, hp, hrev⟩ := hpods j hj1 hj2
      refine ⟨p, ?_, hrev⟩
      simp only [occur]
      rw [foldl_applyAction_untouched _ _ j (fun a ha e => by
        have := hacts a ha
        omega)]
      exact hp
    · intro e he
      simp only [occur, List.mem_append, List.mem_map] at he
      rcases he with he | ⟨a, ha, he⟩
      · exact hlog e he
      · rw [← he]
        exact hacts a ha

theorem RollInv_run (o : Orchestrator) (hstart : o.start = 0) (occs : List Occurrence)
    (c : Cluster) (h : RollInv o c) : RollInv o (runCluster o c occs) := by
  induction occs generalizing c with
  | nil => exact h
  | cons occ t ih => exact ih (occur o c occ) (RollInv_occur o hstart c h occ)

theorem RollInv_prior (o : Orchestrator) (hstart : o.start = 0) : RollInv o (priorCluster o) := by
  refine ⟨?_, fun e he => by simp [priorCluster] at he⟩
  intro j _ hj
  exact ⟨{ Revision := o.current, Ready := true }, by simp [priorCluster, hstart, hj], rfl⟩

theorem converged_spec (o : Orchestrator) (hstrat : o.strategy = RollingUpdateStatefulSetStrategyType)
    (hstart : o.start = 0) (pods : Pods) (h : converged o pods = true) :
    (∀ j, j < o.replicas → ∃ p, pods j = some p ∧ p.Ready = true) ∧
    (1 ≤ o.maxUnavailable →
      ∀ j p, pods j = some p → o.partition ≤ j → j < o.replicas → p.Revision = o.target) := by
  simp only [converged, Bool.and_eq_true, List.isEmpty_iff, List.all_eq_true, List.mem_range,
    hstart, Nat.zero_add] at h
  obtain ⟨hplan, hall⟩ := h
  have hready : ∀ j, j < o.replicas → ∃ p, pods j = some p ∧ p.Ready = true := by
    intro j hj
    have := hall j hj
    cases hp : pods j with
    | none => simp [hp] at this
    | some p => exact ⟨p, rfl, by simpa [hp] using this⟩
  refine ⟨hready, ?_⟩
  intro hM
  have hupd : updateActions o pods = [] := by
    unfold planActions at hplan
    split at hplan
    · exact (List.append_eq_nil.mp hplan).2
    · simp only [hstart, createOrdered_done o pods o.replicas 0
        (fun i _ h2 => hready i (by omega)), ↓reduceIte] at hplan
      exact hplan
  simp only [updateActions, hstrat, ↓reduceIte, hstart,
    unavailableCount_ready pods o.replicas 0 (fun i _ h2 => hready i (by omega))] at hupd
  intro j p hp h1 h2
  exact updateFrom_nil_target o pods hM o.replicas hupd j p hp h1 (by omega) (by omega)

/-- C15 as stated fails for a `maxUnavailable` of 0: the state a rolling update
with partition 1 on 3 replicas starts from is converged (the pass plans no
action and every pod is Ready), and the pod of ordinal 2, in `[P,R)`, carries
the prior revision 1, not the new revision 2. -/
theorem C15_counterexample :
    blockedSet.partition = 1 ∧ blockedSet.replicas = 3 ∧
    blockedSet.current = 1 ∧ blockedSet.target = 2 ∧
    planActions blockedSet (runCluster blockedSet (priorCluster blockedSet) []).pods = [] ∧
    converged blockedSet (runCluster blockedSet (priorCluster blockedSet) []).pods = true ∧
    (runCluster blockedSet (priorCluster blockedSet) []).pods 2
      = some { Revision := 1, Ready := true } := by
  decide

/-- C15, amended: for a rolling update with partition `P` on `R` replicas that
starts with every pod at the prior revision, in every state of every run the
pods of the ordinals below `P` are at the prior revision and no applied action
is about an ordinal below `P`; in every converged state the ordinals `[0,P)`
carry the prior revision and, when `maxUnavailable` is at least 1, the ordinals
`[P,R)` carry the new one; and no pass, on any observation, plans an update
action (the deletion of a pod for recreation) for an ordinal below `P`. -/
theorem C15_partition_rollout_amended (o : Orchestrator)
    (hstrat : o.strategy = RollingUpdateStatefulSetStrategyType) (hstart : o.start = 0) :
    (∀ occs : List Occurrence,
      (∀ j, j < o.partition → j < o.replicas →
        ∃ p, (runCluster o (priorCluster o) occs).pods j = some p ∧ p.Revision = o.current) ∧
      (∀ e ∈ (runCluster o (priorCluster o) occs).log, o.partition ≤ e.action.ordinal) ∧
      (converged o (runCluster o (priorCluster o) occs).pods = true →
        (∀ j, j < o.partition → j < o.replicas →
          ∃ p, (runCluster o (priorCluster o) occs).pods j = some p ∧ p.Ready = true ∧
            p.Revision = o.current) ∧
        (1 ≤ o.maxUnavailable →
          ∀ j, o.partition ≤ j → j < o.replicas →
            ∃ p, (runCluster o (priorCluster o) occs).pods j = some p ∧ p.Ready = true ∧
              p.Revision = o.target))) ∧
    (∀ (pods : Pods) (k : Nat), Action.deletePod k ∈ planActions o pods → o.partition ≤ k) ∧
    (∀ (pods : Pods) (k : Nat), Action.deletePod k ∈ updateActions o pods → o.partition ≤ k) := by
  refine ⟨?_, ?_, ?_⟩
  · intro occs
    obtain ⟨hpods, hlog⟩ := RollInv_run o hstart occs (priorCluster o) (RollInv_prior o hstart)
    refine ⟨hpods, hlog, ?_⟩
    intro hconv
    obtain ⟨hready, htarget⟩ := converged_spec o hstrat hstart _ hconv
    constructor
    · intro j hjp hj
      obtain ⟨p, hp, hr⟩ := hready j hj
      obtain ⟨q, hq, hrev⟩ := hpods j hjp hj
      have hpq : q = p := by
        rw [hq] at hp
        exact Option.some.inj hp
      rw [hpq] at hrev
      exact ⟨p, hp, hr, hrev⟩
    · intro hM j hjp hj
      obtain ⟨p, hp, hr⟩ := hready j hj
      exact ⟨p, hp, hr, htarget hM j p hp hjp hj⟩
  · intro pods k hk
    rcases planActions_mem o pods _ hk with ⟨j, e1, _⟩ | ⟨k', e1, e2, _⟩
    · cases e1
    · cases e1
      exact e2
  · intro pods k hk
    obtain ⟨k', e1, e2, _⟩ := updateActions_deletes o pods _ hk
    cases e1
    exact e2

theorem C15_partition_rollout_amended_witness :
    (∃ p, (runCluster rollingSet (priorCluster rollingSet) rollingSchedule).pods 0 = some p ∧
      p.Ready = true ∧ p.Revision = rollingSet.current) ∧
    (∃ p, (runCluster rollingSet (priorCluster rollingSet) rollingSchedule).pods 1 = some p ∧
      p.Ready = true ∧ p.Revision = rollingSet.target) ∧
    (∃ p, (runCluster rollingSet (priorCluster rollingSet) rollingSchedule).pods 2 = some p ∧
      p.Ready = true ∧ p.Revision = rollingSet.target) :=
  ⟨(((C15_partition_rollout_amended rollingSet rfl rfl).1 rollingSchedule).2.2 (by decide)).1 0
      (by decide) (by decide),
   (((C15_partition_rollout_amended rollingSet rfl rfl).1 rollingSchedule).2.2 (by decide)).2
      (by decide) 1 (by decide) (by decide),
   (((C15_partition_rollout_amended rollingSet rfl rfl).1 rollingSchedule).2.2 (by decide)).2
      (by decide) 2 (by decide) (by decide)⟩

theorem filter_not_mem_take {α : Type} [DecidableEq α] (l : List α) (hnd : l.Nodup) (n : Nat) :
    l.filter (fun x => decide (x ∉ l.take n)) = l.drop n := by
  have hsplit : l.filter (fun x => decide (x ∉ l.take n)) =
      (l.take n ++ l.drop n).filter (fun x => decide (x ∉ l.take n)) := by
    rw [List.take_append_drop]
  rw [hsplit, List.filter_append]
  have h1 : (l.take n).filter (fun x => decide (x ∉ l.take n)) = [] := by
    rw [List.filter_eq_nil_iff]
    intro a ha
    simp [ha]
  have h2 : (l.drop n).filter (fun x => decide (x ∉ l.take n)) = l.drop n := by
    rw [List.filter_eq_self]
    intro a ha
    have hdis := List.disjoint_take_drop hnd (Nat.le_refl n)
    have : a ∉ l.take n := fun hmem => hdis hmem ha
    simp [this]
  rw [h1, h2, List.nil_append]

theorem lt_nextRevision (history : List TemplateSnapshot) :
    ∀ s ∈ history, s.Revision < nextRevision history := by
  induction history with
  | nil => intro s hs; simp at hs
  | cons a t ih =>
    intro s hs
    simp only [nextRevision, List.map_cons, List.foldr_cons] at ih ⊢
    rcases List.mem_cons.mp hs with h | h
    · subst h
      omega
    · have := ih s h
      omega

theorem live_length_le_two (r : Revisions) (hnd : (r.history.map (fun s => s.Revision)).Nodup) :
    (r.history.filter (fun s => isLive r s)).length ≤ 2 := by
  have hnd' : ((r.history.filter (fun s => isLive r s)).map (fun s => s.Revision)).Nodup :=
    List.Nodup.sublist (List.Sublist.map _ (List.filter_sublist _)) hnd
  have hsub : (r.history.filter (fun s => isLive r s)).map (fun s => s.Revision)
      ⊆ [r.current, r.target] := by
    intro x hx
    obtain ⟨s, hs, rfl⟩ := List.mem_map.mp hx
    have := (List.mem_filter.mp hs).2
    simp only [isLive, Bool.or_eq_true, beq_iff_eq] at this
    rcases this with h | h <;> simp [h]
  have := (List.subperm_of_subset hnd' hsub).length_le
  simpa using this

theorem applyOps_spec (ops : List RevisionOp) (r : Revisions) (seen : List Nat)
    (h1 : ∀ s ∈ r.history, s.Hash ∈ seen)
    (h2 : (r.history.map (fun s => s.Revision)).Nodup)
    (h3 : r.current ∈ r.history.map (fun s => s.Revision))
    (h4 : r.target ∈ r.history.map (fun s => s.Revision))
    (hnd : (seen ++ changeHashes ops).Nodup) :
    ((ops.foldl applyOp r).history.map (fun s => s.Revision)).Nodup ∧
    (ops.foldl applyOp r).current ∈ (ops.foldl applyOp r).history.map (fun s => s.Revision) ∧
    (ops.foldl applyOp r).target ∈ (ops.foldl applyOp r).history.map (fun s => s.Revision) ∧
    (ops.foldl applyOp r).history.length = r.history.length + (changeHashes ops).length := by
  induction ops generalizing r seen with
  | nil => exact ⟨h2, h3, h4, rfl⟩
  | cons op t ih =>
    cases op with
    | complete =>
      simp only [List.foldl_cons, applyOp, changeHashes] at hnd ⊢
      exact ih { r with current := r.target } seen h1 h2 h4 h4 hnd
    | change hash =>
      simp only [changeHashes] at hnd
      have hnotseen : hash ∉ seen := by
        intro hmem
        have := (List.nodup_append.mp hnd).2.2
        exact this hmem (List.mem_cons_self _ _)
      have hfind : r.history.find? (fun s => s.Hash == hash) = none := by
        rw [List.find?_eq_none]
        intro s hs heq
        simp only [beq_iff_eq] at heq
        exact hnotseen (heq ▸ h1 s hs)
      have hres : resolveRevisions r hash =
          { r with
            history := r.history ++ [{ Revision := nextRevision r.history, Hash := hash }]
            target := nextRevision r.history } := by
        simp [resolveRevisions, hfind]
      simp only [List.foldl_cons, applyOp, hres, changeHashes]
      have := ih
        { r with
          history := r.history ++ [{ Revision := nextRevision r.history, Hash := hash }]
          target := nextRevision r.history } (seen ++ [hash])
        (by
          intro s hs
          rcases List.mem_append.mp hs with h | h
          · exact List.mem_append_left _ (h1 s h)
          · simp only [List.mem_singleton] at h
            subst h
            simp)
        (by
          simp only [List.map_append, List.map_cons, List.map_nil]
          rw [List.nodup_append]
          refine ⟨h2, List.nodup_singleton _, ?_⟩
          intro x hx hx'
          simp only [List.mem_singleton] at hx'
          obtain ⟨s, hs, rfl⟩ := List.mem_map.mp hx
          have := lt_nextRevision r.history s hs
          omega)
        (by
          simp only [List.map_append]
          exact List.mem_append_left _ h3)
        (by simp)
        (by simpa using hnd)
      obtain ⟨g1, g2, g3, g4⟩ := this
      refine ⟨g1, g2, g3, ?_⟩
      rw [g4]
      simp
      omega

theorem pruneCandidates_spec (limit : Nat) (r : Revisions)
    (hnd : (r.history.map (fun s => s.Revision)).Nodup) :
    (∀ d ∈ pruneCandidates limit r, d ∈ r.history ∧ isLive r d = false) ∧
    (pruneCandidates limit r).Pairwise (fun a b => a.Revision < b.Revision) ∧
    (∀ d ∈ pruneCandidates limit r, ∀ s ∈ (pruneHistory limit r).history,
      isLive r s = false → d.Revision < s.Revision) ∧
    ((pruneHistory limit r).history.filter (fun s => !isLive r s)).length
      = min limit (r.history.filter (fun s => !isLive r s)).length := by
  haveI : IsTotal TemplateSnapshot (fun a b => a.Revision ≤ b.Revision) :=
    ⟨fun a b => Nat.le_total a.Revision b.Revision⟩
  haveI : IsTrans TemplateSnapshot (fun a b => a.Revision ≤ b.Revision) :=
    ⟨fun a b c hab hbc => Nat.le_trans hab hbc⟩
  have hperm := List.perm_insertionSort (fun a b : TemplateSnapshot => a.Revision ≤ b.Revision)
    r.history
  have hsorted := List.sorted_insertionSort
    (fun a b : TemplateSnapshot => a.Revision ≤ b.Revision) r.history
  generalize hS : r.history.insertionSort (fun a b => a.Revision ≤ b.Revision) = sorted
    at hperm hsorted
  have hndS : (sorted.map (fun s => s.Revision)).Nodup :=
    (List.Perm.nodup_iff (hperm.map _)).mpr hnd
  have hstrict : sorted.Pairwise (fun a b => a.Revision < b.Revision) := by
    have hne : sorted.Pairwise (fun a b => a.Revision ≠ b.Revision) := List.pairwise_map.mp hndS
    exact (List.Pairwise.and hsorted hne).imp (fun h => Nat.lt_of_le_of_ne h.1 h.2)
  have hstrictNL : (sorted.filter (fun s => !isLive r s)).Pairwise
      (fun a b => a.Revision < b.Revision) := hstrict.filter _
  have hndNL : (sorted.filter (fun s => !isLive r s)).Nodup :=
    (List.Nodup.of_map _ hndS).filter _
  have hC : pruneCandidates limit r =
      (sorted.filter (fun s => !isLive r s)).take
        ((sorted.filter (fun s => !isLive r s)).length - limit) := by
    simp only [pruneCandidates, hS]
  generalize hNL : sorted.filter (fun s => !isLive r s) = nonLive at hstrictNL hndNL hC
  have hmemNL : ∀ s, s ∈ nonLive ↔ s ∈ r.history ∧ isLive r s = false := by
    intro s
    rw [← hNL, List.mem_filter, hperm.mem_iff]
    simp
  have hsplit := List.take_append_drop (nonLive.length - limit) nonLive
  have hpair := hstrictNL
  rw [← hsplit, List.pairwise_append] at hpair
  refine ⟨?_, ?_, ?_, ?_⟩
  · intro d hd
    rw [hC] at hd
    exact (hmemNL d).mp (List.mem_of_mem_take hd)
  · rw [hC]
    exact hpair.1
  · intro d hd s hs hlive
    rw [hC] at hd
    simp only [pruneHistory, List.mem_filter, decide_eq_true_eq] at hs
    have hsNL : s ∈ nonLive := (hmemNL s).mpr ⟨hs.1, hlive⟩
    rw [← hsplit, List.mem_append] at hsNL
    rcases hsNL with h | h
    · exact absurd (hC ▸ h) hs.2
    · exact hpair.2.2 d hd s h
  · have hcount : ((pruneHistory limit r).history.filter (fun s => !isLive r s)).length =
        (nonLive.filter (fun s => decide (s ∉ pruneCandidates limit r))).length := by
      simp only [pruneHistory]
      rw [← hNL]
      have := (hperm.filter
        (fun s => (!isLive r s) && decide (s ∉ pruneCandidates limit r))).length_eq
      simp only [List.filter_filter]
      rw [← this]
      congr 1
      apply List.filter_congr
      intro x _
      exact Bool.and_comm _ _
    rw [hcount, hC, filter_not_mem_take nonLive hndNL, List.length_drop]
    have hlen : (r.history.filter (fun s => !isLive r s)).length = nonLive.length := by
      rw [← hNL]
      exact ((hperm.filter _).length_eq).symm
    rw [hlen]
    omega

theorem nonLive_length (r : Revisions) :
    (r.history.filter (fun s => !isLive r s)).length
      + (r.history.filter (fun s => isLive r s)).length = r.history.length := by
  induction r.history with
  | nil => rfl
  | cons a t ih =>
    cases h : isLive r a <;> simp [List.filter_cons, h] <;> omega

/-- C16: with `revisionHistoryLimit = H`, after `H+1` distinct template changes
(each to a template not seen before, rollouts completing or not in between),
pruning leaves exactly `H` snapshots that are not live; the deleted snapshots
are deleted in ascending order of sequence number and each of them is older
than every snapshot that stays without being live; and every live snapshot,
current or target, stays in the history. -/
theorem C16_history_pruned (H h0 : Nat) (ops : List RevisionOp)
    (hcount : (changeHashes ops).length = H + 1)
    (hdistinct : (h0 :: changeHashes ops).Nodup) :
    ((pruneHistory H (ops.foldl applyOp (initialRevisions h0))).history.filter
      (fun s => !isLive (ops.foldl applyOp (initialRevisions h0)) s)).length = H ∧
    (pruneCandidates H (ops.foldl applyOp (initialRevisions h0))).Pairwise
      (fun a b => a.Revision < b.Revision) ∧
    (∀ d ∈ pruneCandidates H (ops.foldl applyOp (initialRevisions h0)),
      ∀ s ∈ (pruneHistory H (ops.foldl applyOp (initialRevisions h0))).history,
        isLive (ops.foldl applyOp (initialRevisions h0)) s = false →
          d.Revision < s.Revision) ∧
    (∀ s ∈ (ops.foldl applyOp (initialRevisions h0)).history,
      isLive (ops.foldl applyOp (initialRevisions h0)) s = true →
        s ∉ pruneCandidates H (ops.foldl applyOp (initialRevisions h0)) ∧
        s ∈ (pruneHistory H (ops.foldl applyOp (initialRevisions h0))).history) ∧
    (∃ s ∈ (pruneHistory H (ops.foldl applyOp (initialRevisions h0))).history,
      s.Revision = (ops.foldl applyOp (initialRevisions h0)).current) ∧
    (∃ s ∈ (pruneHistory H (ops.foldl applyOp (initialRevisions h0))).history,
      s.Revision = (ops.foldl applyOp (initialRevisions h0)).target) := by
  obtain ⟨hnd, hcur, htgt, hlen⟩ := applyOps_spec ops (initialRevisions h0) [h0]
    (by simp [initialRevisions]) (by simp [initialRevisions]) (by simp [initialRevisions])
    (by simp [initialRevisions]) (by simpa using hdistinct)
  generalize ops.foldl applyOp (initialRevisions h0) = r at hnd hcur htgt hlen
  obtain ⟨hmem, hpair, holder, hkept⟩ := pruneCandidates_spec H r hnd
  have hlive : ∀ s ∈ r.history, isLive r s = true →
      s ∉ pruneCandidates H r ∧ s ∈ (pruneHistory H r).history := by
    intro s hs hl
    have hnot : s ∉ pruneCandidates H r := by
      intro hc
      rw [(hmem s hc).2] at hl
      cases hl
    exact ⟨hnot, by simp [pruneHistory, hs, hnot]⟩
  refine ⟨?_, hpair, holder, hlive, ?_, ?_⟩
  · rw [hkept]
    have h2 := live_length_le_two r hnd
    have h3 := nonLive_length r
    simp only [initialRevisions, List.length_singleton, hcount] at hlen
    omega
  · obtain ⟨s, hs, hrev⟩ := List.mem_map.mp hcur
    exact ⟨s, (hlive s hs (by simp [isLive, hrev])).2, hrev⟩
  · obtain ⟨s, hs, hrev⟩ := List.mem_map.mp htgt
    exact ⟨s, (hlive s hs (by simp [isLive, hrev])).2, hrev⟩

theorem C16_history_pruned_witness :
    ((pruneHistory 2 ((threeChanges ++ [RevisionOp.complete]).foldl applyOp
        (initialRevisions 10))).history.filter
      (fun s => !isLive ((threeChanges ++ [RevisionOp.complete]).foldl applyOp
        (initialRevisions 10)) s)).length = 2 ∧
    pruneCandidates 2 ((threeChanges ++ [RevisionOp.complete]).foldl applyOp
        (initialRevisions 10)) = [{ Revision := 1, Hash := 10 }] ∧
    (pruneHistory 2 ((threeChanges ++ [RevisionOp.complete]).foldl applyOp
        (initialRevisions 10))).history
      = [{ Revision := 2, Hash := 11 }, { Revision := 3, Hash := 12 },
         { Revision := 4, Hash := 13 }] :=
  ⟨(C16_history_pruned 2 10 (threeChanges ++ [RevisionOp.complete]) (by decide)
      (by decide)).1, by decide, by decide⟩

theorem loadedField_step (m : DataMap) (key : String) (old : Bytes) (hold : old = none) :
    loadedField m key
      (match mapLookup m key with
        | some b => if lenBytes b > 0 then b else old
        | none => old) := by
  subst hold
  simp only [loadedField]
  cases h : mapLookup m key with
  | none => exact ⟨fun b hb => (by cases hb), fun b hb => (by cases hb), fun _ => rfl⟩
  | some b =>
    refine ⟨?_, ?_, fun hn => (by cases hn)⟩
    · intro b' hb' hpos
      cases hb'
      simp [hpos]
    · intro b' hb' hz
      cases hb'
      simp [hz]

/-- C21: `LoadCertBundleFromSecret` makes one `Get`. When `Get` fails with
NotFound it returns `(nil, nil)`, with any other error it returns that error
unchanged. When `Get` returns the secret it never fails: a secret with nil data
gives `(nil, nil)`, any other secret gives a bundle whose `CertPEM`, `KeyPEM`
and `CAPEM` are the values under `tls.crt`, `tls.key` and `ca.crt` where these
are present and non-empty, and nil where they are absent or empty. -/
theorem C21_load_cert_bundle {σ : Type} (kubeClient : SecretClient σ) (w : σ)
    (ns secretName : String) :
    (LoadCertBundleFromSecret kubeClient w ns secretName).1.trace
      = [CertEvent.Get ns secretName (kubeClient.Get w ns secretName).2] ∧
    (LoadCertBundleFromSecret kubeClient w ns secretName).1.store
      = (kubeClient.Get w ns secretName).1 ∧
    (∀ w1 err, kubeClient.Get w ns secretName = (w1, Except.error err) →
      (IsNotFound err = true →
        (LoadCertBundleFromSecret kubeClient w ns secretName).2 = Except.ok none) ∧
      (IsNotFound err = false →
        (LoadCertBundleFromSecret kubeClient w ns secretName).2 = Except.error err)) ∧
    (∀ w1 s, kubeClient.Get w ns secretName = (w1, Except.ok s) →
      (∃ r, (LoadCertBundleFromSecret kubeClient w ns secretName).2 = Except.ok r) ∧
      (s.Data = none →
        (LoadCertBundleFromSecret kubeClient w ns secretName).2 = Except.ok none) ∧
      (s.Data ≠ none →
        ∃ bundle,
          (LoadCertBundleFromSecret kubeClient w ns secretName).2 = Except.ok (some bundle) ∧
          loadedField s.Data TLSCertKey bundle.CertPEM ∧
          loadedField s.Data TLSKeyKey bundle.KeyPEM ∧
          loadedField s.Data CAKey bundle.CAPEM)) := by
  refine ⟨?_, ?_, ?_, ?_⟩
  · unfold LoadCertBundleFromSecret
    simp only
    repeat' split
    all_goals rfl
  · unfold LoadCertBundleFromSecret
    simp only
    repeat' split
    all_goals rfl
  · intro w1 err hget
    constructor
    · intro hnf
      simp [LoadCertBundleFromSecret, hget, hnf]
    · intro hnf
      simp [LoadCertBundleFromSecret, hget, hnf]
  · intro w1 s hget
    cases hd : s.Data with
    | none =>
      have hrun : (LoadCertBundleFromSecret kubeClient w ns secretName).2 = Except.ok none := by
        simp [LoadCertBundleFromSecret, hget, hd]
      exact ⟨⟨none, hrun⟩, fun _ => hrun, fun h => absurd rfl h⟩
    | some entries =>
      have hrun : (LoadCertBundleFromSecret kubeClient w ns secretName).2 =
          Except.ok (some
            { CertPEM :=
                match mapLookup (some entries) TLSCertKey with
                | some b => if lenBytes b > 0 then b else none
                | none => none
              KeyPEM :=
                match mapLookup (some entries) TLSKeyKey with
                | some b => if lenBytes b > 0 then b else none
                | none => none
              CAPEM :=
                match mapLookup (some entries) CAKey with
                | some b => if lenBytes b > 0 then b else none
                | none => none }) := by
        simp only [LoadCertBundleFromSecret, hget, hd]
        congr 2
        cases mapLookup (some entries) TLSCertKey <;>
          cases mapLookup (some entries) TLSKeyKey <;>
          cases mapLookup (some entries) CAKey <;>
          simp <;> (repeat' split) <;> rfl
      refine ⟨⟨_, hrun⟩, fun h => (by cases h), fun _ => ⟨_, hrun, ?_, ?_, ?_⟩⟩
      · exact loadedField_step (some entries) TLSCertKey none rfl
      · exact loadedField_step (some entries) TLSKeyKey none rfl
      · exact loadedField_step (some entries) CAKey none rfl

theorem C21_load_cert_bundle_witness :
    (LoadCertBundleFromSecret fakeSecrets [] "default" "webhook-cert").2 = Except.ok none ∧
    (LoadCertBundleFromSecret fakeSecrets [noDataSecret] "default" "webhook-cert").2
      = Except.ok none ∧
    (∃ bundle,
      (LoadCertBundleFromSecret fakeSecrets [emptyCASecret] "default" "webhook-cert").2
        = Except.ok (some bundle) ∧
      loadedField emptyCASecret.Data TLSCertKey bundle.CertPEM ∧
      loadedField emptyCASecret.Data TLSKeyKey bundle.KeyPEM ∧
      loadedField emptyCASecret.Data CAKey bundle.CAPEM) :=
  ⟨((C21_load_cert_bundle fakeSecrets [] "default" "webhook-cert").2.2.1 []
      { Reason := StatusReasonNotFound, Message := "not found" } rfl).1 (by decide),
   ((C21_load_cert_bundle fakeSecrets [noDataSecret] "default" "webhook-cert").2.2.2
      [noDataSecret] noDataSecret rfl).2.1 rfl,
   ((C21_load_cert_bundle fakeSecrets [emptyCASecret] "default" "webhook-cert").2.2.2
      [emptyCASecret] emptyCASecret rfl).2.2 (by decide)⟩

/-- C22: `getNamespace` returns the value of `POD_NAMESPACE` as it is: the
namespace when the variable is set to one, and the empty string, not
`default`, when the variable is unset or set to the empty string, where the
comment of the function says "or default". -/
theorem C22_getNamespace_unset_is_empty :
    getNamespace kubeSystemEnv = "kube-system" ∧
    getNamespace emptyEnv = "" ∧ getNamespace blankEnv = "" ∧
    getNamespace emptyEnv ≠ "default" ∧ getNamespace blankEnv ≠ "default" := by
  refine ⟨rfl, rfl, rfl, ?_, ?_⟩ <;> decide

theorem updateWebhookCABundle_spec {σ : Type} (kubeClient : KubeClient σ)
    (wc : WebhookConfiguration) (s : SetupState σ) :
    ensureCalls (updateWebhookCABundle kubeClient wc s).1.trace = ensureCalls s.trace ++ [] ∧
    generations (updateWebhookCABundle kubeClient wc s).1.trace = generations s.trace ++ [] ∧
    (updateWebhookCABundle kubeClient wc s).1.caBundle = s.caBundle ∧
    (s.caBundle ≠ none →
      ∃ calls res, (updateWebhookCABundle kubeClient wc s).1.trace =
        s.trace ++ [SetupEvent.UpdateMutatingWebhookCABundle
          wc.MutatingWebhookConfigurationName s.caBundle calls res]) ∧
    (s.caBundle = none → updateWebhookCABundle kubeClient wc s = (s, none)) := by
  have happ : ∀ (t : List SetupEvent) (name : String) (b : Bytes) (calls : List WebhookEvent)
      (res : Option Error),
      ensureCalls (t ++ [SetupEvent.UpdateMutatingWebhookCABundle name b calls res])
        = ensureCalls t ∧
      generations (t ++ [SetupEvent.UpdateMutatingWebhookCABundle name b calls res])
        = generations t := by
    intro t name b calls res
    induction t with
    | nil => exact ⟨rfl, rfl⟩
    | cons ev t ih => cases ev <;> simp [ensureCalls, generations, ih.1, ih.2]
  by_cases hca : s.caBundle = none
  · have hrun : updateWebhookCABundle kubeClient wc s = (s, none) := by
      simp [updateWebhookCABundle, hca]
    rw [hrun]
    exact ⟨by simp, by simp, rfl, fun h => absurd hca h, fun _ => rfl⟩
  · unfold updateWebhookCABundle
    simp only [ne_eq, hca, not_false_eq_true, ↓reduceIte, List.append_nil]
    split
    · exact ⟨(happ _ _ _ _ _).1, (happ _ _ _ _ _).2, rfl, fun _ => ⟨_, _, rfl⟩,
        fun h => False.elim h⟩
    · exact ⟨(happ _ _ _ _ _).1, (happ _ _ _ _ _).2, rfl, fun _ => ⟨_, _, rfl⟩,
        fun h => False.elim h⟩

theorem bundleUpdates_append_update (t : List SetupEvent) (name : String) (b : Bytes)
    (calls : List WebhookEvent) (res : Option Error) :
    bundleUpdates (t ++ [SetupEvent.UpdateMutatingWebhookCABundle name b calls res])
      = bundleUpdates t ++ [b] := by
  induction t with
  | nil => rfl
  | cons ev t ih => cases ev <;> simp [bundleUpdates, ih]

theorem setupWebhookWithManager_direct {σ : Type} (kubeClient : KubeClient σ)
    (crypto : List String → Except Error CertBundle) (env : Environ) (stat : String → Bool)
    (w : σ) (wc : WebhookConfiguration)
    (h : secretCABundle
        (LoadCertBundleFromSecret kubeClient.Secrets w (getNamespace env) wc.CertSecretName).2
          ≠ none ∨
      (fileExists stat wc.TlsPrivateKey = true ∧ fileExists stat wc.TlsCert = true)) :
    setupWebhookWithManager kubeClient crypto env stat w wc =
      updateWebhookCABundle kubeClient wc
        { store :=
            (LoadCertBundleFromSecret kubeClient.Secrets w (getNamespace env)
              wc.CertSecretName).1.store
          trace :=
            [SetupEvent.LoadCertBundleFromSecret
              (LoadCertBundleFromSecret kubeClient.Secrets w (getNamespace env)
                wc.CertSecretName).1.trace
              (LoadCertBundleFromSecret kubeClient.Secrets w (getNamespace env)
                wc.CertSecretName).2]
          caBundle := secretCABundle
            (LoadCertBundleFromSecret kubeClient.Secrets w (getNamespace env)
              wc.CertSecretName).2 } := by
  unfold setupWebhookWithManager
  simp only
  by_cases hca : secretCABundle
      (LoadCertBundleFromSecret kubeClient.Secrets w (getNamespace env) wc.CertSecretName).2
        = none
  · rcases h with h | ⟨h1, h2⟩
    · exact absurd hca h
    · rw [if_pos hca]
      simp only [h1, h2, Bool.not_true, Bool.or_self, Bool.false_eq_true, ↓reduceIte]
  · rw [if_neg hca]

theorem setupWebhookWithManager_generate {σ : Type} (kubeClient : KubeClient σ)
    (crypto : List String → Except Error CertBundle) (env : Environ) (stat : String → Bool)
    (w : σ) (wc : WebhookConfiguration)
    (hca : secretCABundle (loadFromSecret kubeClient env w wc).2 = none)
    (hfile : fileExists stat wc.TlsPrivateKey = false ∨ fileExists stat wc.TlsCert = false) :
    ensureCalls (setupWebhookWithManager kubeClient crypto env stat w wc).1.trace =
      [(ensureWebhookCertificate kubeClient crypto env
        (loadFromSecret kubeClient env w wc).1.store wc).2] ∧
    generations (setupWebhookWithManager kubeClient crypto env stat w wc).1.trace =
      generateCalls (ensureWebhookCertificate kubeClient crypto env
        (loadFromSecret kubeClient env w wc).1.store wc).1.trace ∧
    (∀ err, (ensureWebhookCertificate kubeClient crypto env
        (loadFromSecret kubeClient env w wc).1.store wc).2 = Except.error err →
      (setupWebhookWithManager kubeClient crypto env stat w wc).2
        = some (ErrorfW "error ensuring webhook certificate: " err) ∧
      bundleUpdates (setupWebhookWithManager kubeClient crypto env stat w wc).1.trace = []) ∧
    (∀ bytes, (ensureWebhookCertificate kubeClient crypto env
        (loadFromSecret kubeClient env w wc).1.store wc).2 = Except.ok bytes →
      (setupWebhookWithManager kubeClient crypto env stat w wc).1.caBundle = bytes) := by
  have hcond : (!fileExists stat wc.TlsPrivateKey || !fileExists stat wc.TlsCert) = true := by
    rcases hfile with h | h <;> simp [h]
  unfold loadFromSecret at hca ⊢
  unfold setupWebhookWithManager
  simp only
  rw [if_pos hca, if_pos hcond]
  cases he : (ensureWebhookCertificate kubeClient crypto env
      (LoadCertBundleFromSecret kubeClient.Secrets w (getNamespace env)
        wc.CertSecretName).1.store wc).2 with
  | error err =>
    simp only [he]
    refine ⟨by simp [ensureCalls], by simp [generations], ?_, ?_⟩
    · intro err' herr
      cases herr
      exact ⟨rfl, by simp [bundleUpdates]⟩
    · intro bytes hb
      cases hb
  | ok bytes =>
    simp only [he]
    obtain ⟨h1, h2, h3, _, _⟩ := updateWebhookCABundle_spec kubeClient wc
      { store := (ensureWebhookCertificate kubeClient crypto env
          (LoadCertBundleFromSecret kubeClient.Secrets w (getNamespace env)
            wc.CertSecretName).1.store wc).1.store
        trace := [SetupEvent.LoadCertBundleFromSecret
            (LoadCertBundleFromSecret kubeClient.Secrets w (getNamespace env)
              wc.CertSecretName).1.trace
            (LoadCertBundleFromSecret kubeClient.Secrets w (getNamespace env)
              wc.CertSecretName).2] ++
          [SetupEvent.ensureWebhookCertificate
            (ensureWebhookCertificate kubeClient crypto env
              (LoadCertBundleFromSecret kubeClient.Secrets w (getNamespace env)
                wc.CertSecretName).1.store wc).1.trace (Except.ok bytes)]
        caBundle := bytes }
    refine ⟨?_, ?_, ?_, ?_⟩
    · rw [h1]
      simp [ensureCalls]
    · rw [h2]
      simp [generations]
    · intro err herr
      cases herr
    · intro bytes' hb
      cases hb
      exact h3

/-- C23: the CA bundle selection of `setupWebhookWithManager` starts by loading
the secret. When the secret yields a non-nil CA bundle, that bundle is the one
handed to `UpdateMutatingWebhookCABundle` and `ensureWebhookCertificate` (so
`EnsureCertificate`) is not called. When it yields none and both TLS files
exist, `ensureWebhookCertificate` is not called, nothing is generated, the
webhook configuration is not updated and the selection returns no error.
`ensureWebhookCertificate` is called exactly when the secret yields no CA
bundle and at least one of the two files is missing. -/
theorem C23_ca_bundle_precedence {σ : Type} (kubeClient : KubeClient σ)
    (crypto : List String → Except Error CertBundle) (env : Environ) (stat : String → Bool)
    (w : σ) (wc : WebhookConfiguration) :
    (secretCABundle (loadFromSecret kubeClient env w wc).2 ≠ none →
      ensureCalls (setupWebhookWithManager kubeClient crypto env stat w wc).1.trace = [] ∧
      generations (setupWebhookWithManager kubeClient crypto env stat w wc).1.trace = [] ∧
      (setupWebhookWithManager kubeClient crypto env stat w wc).1.caBundle
        = secretCABundle (loadFromSecret kubeClient env w wc).2 ∧
      bundleUpdates (setupWebhookWithManager kubeClient crypto env stat w wc).1.trace
        = [secretCABundle (loadFromSecret kubeClient env w wc).2]) ∧
    (secretCABundle (loadFromSecret kubeClient env w wc).2 = none →
      fileExists stat wc.TlsPrivateKey = true → fileExists stat wc.TlsCert = true →
      ensureCalls (setupWebhookWithManager kubeClient crypto env stat w wc).1.trace = [] ∧
      generations (setupWebhookWithManager kubeClient crypto env stat w wc).1.trace = [] ∧
      bundleUpdates (setupWebhookWithManager kubeClient crypto env stat w wc).1.trace = [] ∧
      (setupWebhookWithManager kubeClient crypto env stat w wc).1.caBundle = none ∧
      (setupWebhookWithManager kubeClient crypto env stat w wc).2 = none) ∧
    (ensureCalls (setupWebhookWithManager kubeClient crypto env stat w wc).1.trace ≠ [] ↔
      secretCABundle (loadFromSecret kubeClient env w wc).2 = none ∧
      (fileExists stat wc.TlsPrivateKey = false ∨ fileExists stat wc.TlsCert = false)) ∧
    (generations (setupWebhookWithManager kubeClient crypto env stat w wc).1.trace ≠ [] →
      secretCABundle (loadFromSecret kubeClient env w wc).2 = none ∧
      (fileExists stat wc.TlsPrivateKey = false ∨ fileExists stat wc.TlsCert = false)) := by
  have hdirect : secretCABundle (loadFromSecret kubeClient env w wc).2 ≠ none ∨
      (fileExists stat wc.TlsPrivateKey = true ∧ fileExists stat wc.TlsCert = true) →
      ensureCalls (setupWebhookWithManager kubeClient crypto env stat w wc).1.trace = [] ∧
      generations (setupWebhookWithManager kubeClient crypto env stat w wc).1.trace = [] ∧
      (setupWebhookWithManager kubeClient crypto env stat w wc).1.caBundle
        = secretCABundle (loadFromSecret kubeClient env w wc).2 ∧
      (secretCABundle (loadFromSecret kubeClient env w wc).2 ≠ none →
        bundleUpdates (setupWebhookWithManager kubeClient crypto env stat w wc).1.trace
          = [secretCABundle (loadFromSecret kubeClient env w wc).2]) ∧
      (secretCABundle (loadFromSecret kubeClient env w wc).2 = none →
        bundleUpdates (setupWebhookWithManager kubeClient crypto env stat w wc).1.trace = [] ∧
        (setupWebhookWithManager kubeClient crypto env stat w wc).2 = none) := by
    intro h
    unfold loadFromSecret at h ⊢
    rw [setupWebhookWithManager_direct kubeClient crypto env stat w wc h]
    obtain ⟨h1, h2, h3, h4, h5⟩ := updateWebhookCABundle_spec kubeClient wc
      { store := (LoadCertBundleFromSecret kubeClient.Secrets w (getNamespace env)
          wc.CertSecretName).1.store
        trace := [SetupEvent.LoadCertBundleFromSecret
          (LoadCertBundleFromSecret kubeClient.Secrets w (getNamespace env)
            wc.CertSecretName).1.trace
          (LoadCertBundleFromSecret kubeClient.Secrets w (getNamespace env)
            wc.CertSecretName).2]
        caBundle := secretCABundle
          (LoadCertBundleFromSecret kubeClient.Secrets w (getNamespace env)
            wc.CertSecretName).2 }
    refine ⟨by rw [h1]; rfl, by rw [h2]; rfl, h3, ?_, ?_⟩
    · intro hne
      obtain ⟨calls, res, htr⟩ := h4 hne
      rw [htr, bundleUpdates_append_update]
      rfl
    · intro hnone
      rw [h5 hnone]
      exact ⟨rfl, rfl⟩
  refine ⟨?_, ?_, ?_, ?_⟩
  · intro hne
    obtain ⟨h1, h2, h3, h4, _⟩ := hdirect (Or.inl hne)
    exact ⟨h1, h2, h3, h4 hne⟩
  · intro hnone hk hc
    obtain ⟨h1, h2, h3, _, h5⟩ := hdirect (Or.inr ⟨hk, hc⟩)
    exact ⟨h1, h2, (h5 hnone).1, by rw [h3, hnone], (h5 hnone).2⟩
  · constructor
    · intro hcalls
      by_contra hnot
      have hd : secretCABundle (loadFromSecret kubeClient env w wc).2 ≠ none ∨
          (fileExists stat wc.TlsPrivateKey = true ∧ fileExists stat wc.TlsCert = true) := by
        by_cases hca : secretCABundle (loadFromSecret kubeClient env w wc).2 = none
        · right
          cases hk : fileExists stat wc.TlsPrivateKey <;>
            cases hc : fileExists stat wc.TlsCert <;> simp_all
        · exact Or.inl hca
      exact hcalls (hdirect hd).1
    · rintro ⟨hca, hfile⟩
      rw [(setupWebhookWithManager_generate kubeClient crypto env stat w wc hca hfile).1]
      simp
  · intro hgen
    by_contra hnot
    have hd : secretCABundle (loadFromSecret kubeClient env w wc).2 ≠ none ∨
        (fileExists stat wc.TlsPrivateKey = true ∧ fileExists stat wc.TlsCert = true) := by
      by_cases hca : secretCABundle (loadFromSecret kubeClient env w wc).2 = none
      · right
        cases hk : fileExists stat wc.TlsPrivateKey <;>
          cases hc : fileExists stat wc.TlsCert <;> simp_all
      · exact Or.inl hca
    exact hgen (hdirect hd).2.1

theorem C23_ca_bundle_precedence_witness :
    bundleUpdates (setupWebhookWithManager fakeKube testCrypto podEnv certFileOnly
        ([fullSecret], [mixedWebhookConfig]) defaultWebhookConfiguration).1.trace
      = [some [6, 6]] ∧
    (ensureCalls (setupWebhookWithManager fakeKube testCrypto podEnv bothFiles
        ([], [mixedWebhookConfig]) defaultWebhookConfiguration).1.trace = [] ∧
      generations (setupWebhookWithManager fakeKube testCrypto podEnv bothFiles
        ([], [mixedWebhookConfig]) defaultWebhookConfiguration).1.trace = [] ∧
      bundleUpdates (setupWebhookWithManager fakeKube testCrypto podEnv bothFiles
        ([], [mixedWebhookConfig]) defaultWebhookConfiguration).1.trace = [] ∧
      (setupWebhookWithManager fakeKube testCrypto podEnv bothFiles
        ([], [mixedWebhookConfig]) defaultWebhookConfiguration).1.caBundle = none ∧
      (setupWebhookWithManager fakeKube testCrypto podEnv bothFiles
        ([], [mixedWebhookConfig]) defaultWebhookConfiguration).2 = none) ∧
    ensureCalls (setupWebhookWithManager fakeKube testCrypto podEnv certFileOnly
        ([], [mixedWebhookConfig]) defaultWebhookConfiguration).1.trace ≠ [] :=
  ⟨((C23_ca_bundle_precedence fakeKube testCrypto podEnv certFileOnly
        ([fullSecret], [mixedWebhookConfig]) defaultWebhookConfiguration).1 (by decide)).2.2.2,
   (C23_ca_bundle_precedence fakeKube testCrypto podEnv bothFiles
        ([], [mixedWebhookConfig]) defaultWebhookConfiguration).2.1 rfl rfl rfl,
   (C23_ca_bundle_precedence fakeKube testCrypto podEnv certFileOnly
        ([], [mixedWebhookConfig]) defaultWebhookConfiguration).2.2.1.mpr ⟨rfl, Or.inl rfl⟩⟩

end XSts
